import Mathlib

/-!
# Backup lifecycle reconciliation (controllers/dataprotection/backup_controller.go)

A shallow embedding of the Backup reconciler.  Go pointers that may be nil are
`Option`s, Go maps are association lists, string-typed enumerations stay strings.
Every call that leaves the controller (API server, deleter, executor, clock) is a
field of `Env`; it reads the abstract cluster state `σ` and returns its answer with
the next state, so an answer may depend on everything that happened before.  The
calls with an outside effect are logged in `World.trace`.
-/

namespace BackupController

/-! ## Time -/

/-- Instants, as nanoseconds since the zero time of Go's `time.Time`. -/
abbrev Time := Int

/-- Go's `time.Duration`: a signed 64-bit count of nanoseconds. -/
abbrev Duration := Int

abbrev Second : Duration := 1000000000
abbrev maxDuration : Duration := 9223372036854775807
abbrev minDuration : Duration := -9223372036854775808

/-- `(*metav1.Time).IsZero`: a nil pointer or the zero instant. -/
def timeIsZero (t : Option Time) : Bool :=
  match t with
  | none => true
  | some v => v == 0

/-- `Time.Sub` (readings without monotonic clock): the difference, saturated to the
range of `Duration`. -/
def timeSub (t u : Time) : Duration :=
  let d := t - u
  if minDuration ≤ d ∧ d ≤ maxDuration then d
  else if t < u then minDuration
  else maxDuration

/-- `Duration.Round`: rounds `d` to the nearest multiple of `m`, halfway values away
from zero; out-of-range results saturate. -/
def durationRound (d m : Duration) : Duration :=
  if m ≤ 0 then d
  else
    let r := Int.tmod d m
    if d < 0 then
      let r := -r
      if r + r < m then d + r
      else
        let d1 := d - m + r
        if minDuration ≤ d1 then d1 else minDuration
    else
      if r + r < m then d - r
      else
        let d1 := d + m - r
        if d1 ≤ maxDuration then d1 else maxDuration

/-! ## Errors and results -/

/-- The `Type` of an `intctrlutil.Error`. -/
inductive ErrorType
  | fatal
  | requeue
  | notFound
  | other (name : String)
  deriving DecidableEq, Repr

/-- A Go `error`.  `etype` is the type of the `intctrlutil.Error` that the value is or
wraps (`none` for `fmt.Errorf` and API errors), `apiNotFound` is
`apierrors.IsNotFound`, `msg` is `err.Error()`. -/
structure Error where
  etype : Option ErrorType
  apiNotFound : Bool
  msg : String
  deriving DecidableEq, Repr

/-- `fmt.Errorf` without `%w`: a fresh error that wraps nothing. -/
def Errorf (msg : String) : Error :=
  { etype := none, apiNotFound := false, msg := msg }

/-- `fmt.Errorf("...%w", err)`: the wrapped error stays visible to `errors.As`. -/
def ErrorfWrap (pre : String) (err : Error) : Error :=
  { etype := err.etype, apiNotFound := err.apiNotFound, msg := pre ++ err.msg }

/-- `intctrlutil.NewFatalError`. -/
def NewFatalError (msg : String) : Error :=
  { etype := some ErrorType.fatal, apiNotFound := false, msg := msg }

/-- `intctrlutil.NewNotFound`. -/
def NewNotFound (msg : String) : Error :=
  { etype := some ErrorType.notFound, apiNotFound := false, msg := msg }

/-- Modelled from the spec: `intctrlutil.IsTargetError` is not under src; an error
matches a target type when the controller error it is or wraps carries that type. -/
def IsTargetError (err : Error) (t : ErrorType) : Bool :=
  err.etype == some t

/-- What a pass hands back to the controller runtime, named after the `intctrlutil`
helper that builds the `(ctrl.Result, error)` pair; `panicked` is a Go run-time
panic (index out of range, nil dereference). -/
inductive Result
  | reconciled
  | requeue (msg : String)
  | requeueWithError (err : Error)
  | checkedRequeueWithError (err : Error) (msg : String)
  | recorderEventAndRequeue (err : Error)
  | panicked
  deriving DecidableEq, Repr

/-! ## API objects -/

abbrev BackupPhaseNew : String := "New"
abbrev BackupPhaseRunning : String := "Running"
abbrev BackupPhaseCompleted : String := "Completed"
abbrev BackupPhaseFailed : String := "Failed"
abbrev BackupPhaseDeleting : String := "Deleting"

abbrev ActionPhaseNew : String := "New"
abbrev ActionPhaseRunning : String := "Running"
abbrev ActionPhaseCompleted : String := "Completed"
abbrev ActionPhaseFailed : String := "Failed"

abbrev BackupTypeFull : String := "Full"
abbrev BackupTypeIncremental : String := "Incremental"
abbrev BackupTypeContinuous : String := "Continuous"

abbrev BackupDeletionPolicyRetain : String := "Retain"
abbrev BackupDeletionPolicyDelete : String := "Delete"

abbrev UnavailablePhase : String := "Unavailable"
abbrev BackupSchedulePhaseAvailable : String := "Available"
abbrev StoppedClusterPhase : String := "Stopped"

abbrev DeletionStatusSucceeded : String := "Succeeded"
abbrev DeletionStatusFailed : String := "Failed"
abbrev DeletionStatusDeleting : String := "Deleting"
abbrev DeletionStatusUnknown : String := "Unknown"

/-- A Go `map[string]string`. -/
abbrev StrMap := List (String × String)

/-- Assignment `m[k] = v`. -/
def mapSet (m : StrMap) (k v : String) : StrMap :=
  match m with
  | [] => [(k, v)]
  | (k1, v1) :: rest => if k1 = k then (k, v) :: rest else (k1, v1) :: mapSet rest k v

/-- The pod selector of a backup target. -/
structure PodSelector where
  useParentSelectedPods : Bool
  deriving DecidableEq, Repr

/-- A backup target; `podSelector` is a pointer in the source, `none` is nil. -/
structure BackupTarget where
  name : String
  podSelector : Option PodSelector
  serviceAccountName : String
  deriving DecidableEq, Repr

structure BackupStatusTarget where
  backupTarget : BackupTarget
  selectedTargetPods : List String
  deriving DecidableEq, Repr

structure BackupTimeRange where
  start : Option Time
  finish : Option Time
  deriving DecidableEq, Repr

structure ActionStatus where
  name : String
  targetPodName : String
  phase : String
  actionType : String
  startTimestamp : Option Time
  completionTimestamp : Option Time
  failureReason : String
  totalSize : String
  timeRange : Option BackupTimeRange
  availableReplicas : Option Int
  deriving DecidableEq, Repr

structure EncryptionConfig where
  algorithm : String
  secretName : String
  secretKey : String
  deriving DecidableEq, Repr

structure BackupMethod where
  name : String
  snapshotVolumes : Option Bool
  actionSetName : String
  target : Option BackupTarget
  targets : List BackupTarget
  deriving DecidableEq, Repr

structure BackupPolicy where
  name : String
  ns : String
  phase : String
  backupMethods : List BackupMethod
  target : Option BackupTarget
  targets : List BackupTarget
  encryptionConfig : Option EncryptionConfig
  pathPrefix : String
  useKopia : Bool
  deriving DecidableEq, Repr

structure ActionSet where
  name : String
  backupType : String
  deriving DecidableEq, Repr

structure BackupRepo where
  name : String
  pathPrefix : String
  accessByMount : Bool
  accessByTool : Bool
  deriving DecidableEq, Repr

structure Pod where
  name : String
  labels : StrMap
  deriving DecidableEq, Repr

structure Cluster where
  name : String
  uid : String
  annotations : StrMap
  isDeleting : Bool
  phase : String
  deriving DecidableEq, Repr

structure SchedulePolicy where
  backupMethod : String
  enabled : Option Bool
  deriving DecidableEq, Repr

structure BackupSchedule where
  name : String
  ns : String
  phase : String
  schedules : List SchedulePolicy
  deriving DecidableEq, Repr

structure BackupSpec where
  backupPolicyName : String
  backupMethod : String
  deletionPolicy : String
  parameters : StrMap
  deriving DecidableEq, Repr

structure BackupStatus where
  phase : String
  formatVersion : String
  path : String
  kopiaRepoPath : String
  backupRepoName : String
  persistentVolumeClaimName : String
  backupMethod : Option BackupMethod
  encryptionConfig : Option EncryptionConfig
  actions : List ActionStatus
  startTimestamp : Option Time
  completionTimestamp : Option Time
  duration : Option Duration
  expiration : Option Time
  target : Option BackupStatusTarget
  targets : List BackupStatusTarget
  parentBackupName : String
  baseBackupName : String
  failureReason : String
  totalSize : String
  timeRange : Option BackupTimeRange
  deriving DecidableEq, Repr

/-- Reading a Go map that may be nil: a nil map (`none`) has no entries. -/
def entries (m : Option StrMap) : StrMap :=
  match m with
  | some e => e
  | none => []

/-- A Backup; `labels` and `annotations` are Go maps, `none` is the nil map. -/
structure Backup where
  name : String
  ns : String
  labels : Option StrMap
  annotations : Option StrMap
  finalizers : List String
  deletionTimestamp : Option Time
  spec : BackupSpec
  status : BackupStatus
  deriving DecidableEq, Repr

/-- The zero value `&dpv1alpha1.Backup{}`. -/
def emptyBackup : Backup :=
  { name := "", ns := "", labels := none, annotations := none, finalizers := [],
    deletionTimestamp := none,
    spec := { backupPolicyName := "", backupMethod := "", deletionPolicy := "",
              parameters := [] },
    status := { phase := "", formatVersion := "", path := "", kopiaRepoPath := "",
                backupRepoName := "", persistentVolumeClaimName := "",
                backupMethod := none, encryptionConfig := none, actions := [],
                startTimestamp := none, completionTimestamp := none, duration := none,
                expiration := none, target := none, targets := [],
                parentBackupName := "", baseBackupName := "", failureReason := "",
                totalSize := "", timeRange := none } }

/-- The zero value `&kbappsv1.Cluster{}`. -/
def emptyCluster : Cluster :=
  { name := "", uid := "", annotations := [], isDeleting := false, phase := "" }

/-- An `action.Action` built by `request.BuildActions`: `GetName()` and `Type()`. -/
structure Action where
  name : String
  actionType : String
  deriving DecidableEq, Repr

/-- The working record `dpbackup.Request`; it embeds `*Backup`, so `request.Status`
is `request.backup.status`.  `BackupPolicy` and `BackupMethod` are assigned before the
request is first read, so they are not optional here. -/
structure Request where
  backup : Backup
  snapshotVolumes : Bool
  actionSet : Option ActionSet
  backupPolicy : BackupPolicy
  backupMethod : BackupMethod
  backupRepo : Option BackupRepo
  backupRepoPVC : Option String
  toolConfigSecret : Option String
  parentBackup : Option Backup
  baseBackup : Option Backup
  target : Option BackupTarget
  targetPods : List Pod
  workerServiceAccount : String
  deriving DecidableEq, Repr

/-- What `HandleBackupRepo` binds on the request when it succeeds. -/
structure RepoBinding where
  repo : BackupRepo
  pvc : Option String
  toolConfigSecret : Option String
  deriving DecidableEq, Repr

/-! ## The outside world -/

/-- A call with an effect outside the controller, as logged in the order made. -/
inductive Event
  | statusPatch (obj original : Backup)
  | patch (obj original : Backup)
  | statusUpdate (obj : Backup)
  | recorderEvent (obj : Backup) (eventType reason message : String)
  | warningEventForError (obj : Backup) (err : Error)
  | deleterDeleteBackupFiles (backup : Backup)
  | deleterDeleteVolumeSnapshots (backup : Backup)
  | backgroundDeleteObject (obj : Backup)
  | deleteRelatedObjectList (kind : String) (namespaces : List String) (labels : StrMap)
  | stopStatefulSetsWhenFailed (backup : Backup) (targetName : String)
  | execute (act : Action) (targetPodName : String)
  deriving DecidableEq, Repr

/-- The cluster state together with the log of effects so far. -/
structure World (σ : Type) where
  st : σ
  trace : List Event

/-- Makes one call to the outside: its answer, and the world with the cluster state
moved on (the log is untouched). -/
def World.call {σ α : Type} (w : World σ) (f : σ → α × σ) : α × World σ :=
  ((f w.st).1, { st := (f w.st).2, trace := w.trace })

/-- Logs one effect. -/
def World.emit {σ : Type} (w : World σ) (e : Event) : World σ :=
  { st := w.st, trace := w.trace ++ [e] }

/-- The `error` result of a Go function that may also panic. -/
inductive GoErr
  | nil
  | err (e : Error)
  | panic
  deriving DecidableEq, Repr

/-- A returned `error` value as a `GoErr`. -/
def GoErr.ofOption (e : Option Error) : GoErr :=
  match e with
  | none => GoErr.nil
  | some v => GoErr.err v

/-- Everything the reconciler takes from packages that are not under src: constants,
pure helpers, and the calls to the API server and to the collaborators.  A call takes
the cluster state last and returns its answer with the next state. -/
structure Env (σ : Type) where
  DataProtectionFinalizerName : String
  SkipReconciliationAnnotationKey : String
  BackupTypeLabelKey : String
  BackupPolicyLabelKey : String
  BackupScheduleLabelKey : String
  BackupNameLabelKey : String
  ClusterUIDLabelKey : String
  AppInstanceLabelKey : String
  AppManagedByLabelKey : String
  RestoreFromBackupAnnotationKey : String
  ClusterSnapshotAnnotationKey : String
  EncryptedSystemAccountsAnnotationKey : String
  dataProtectionBackupRepoKey : String
  dataProtectionWaitRepoPreparationKey : String
  trueVal : String
  AppName : String
  LogCollectorOutput : String
  FormatVersion : String
  /-- The value of `viper.GetString(constant.CfgKeyCtrlrMgrNS)`. -/
  ctrlrMgrNS : String
  getClusterLabelKeys : List String
  /-- `dputils.GetBackupMethodByName`. -/
  GetBackupMethodByName : String → BackupPolicy → Option BackupMethod
  /-- `dputils.GetBackupTargets`. -/
  GetBackupTargets : BackupPolicy → BackupMethod → List BackupTarget
  /-- `dputils.GetBackupStatusTarget`. -/
  GetBackupStatusTarget : Backup → String → Option BackupStatusTarget
  /-- `request.GetBackupType`. -/
  GetBackupType : Request → String
  /-- `dputils.ValidateParameters`. -/
  ValidateParameters : ActionSet → StrMap → Option Error
  /-- `dpbackup.BuildBaseBackupPath`. -/
  BuildBaseBackupPath : Backup → String → String → String
  /-- `dpbackup.BuildKopiaRepoPath`. -/
  BuildKopiaRepoPath : Backup → String → String → String
  /-- The value `dpbackup.SetExpirationTime` leaves in `status.expiration`, or its error. -/
  expirationTime : Backup → Except Error (Option Time)
  /-- `r.clock.Now().UTC()` and `time.Now()`. -/
  Now : σ → Time × σ
  /-- `Client.Get` of a Backup by namespace and name. -/
  GetBackup : String → String → σ → Except Error Backup × σ
  /-- `Client.Status().Patch(ctx, obj, client.MergeFrom(original))`; the object in memory
  is taken to stay as it was sent. -/
  StatusPatch : Backup → Backup → σ → Option Error × σ
  /-- `Client.Patch(ctx, obj, client.MergeFrom(original))`; the object in memory is taken
  to stay as it was sent. -/
  Patch : Backup → Backup → σ → Option Error × σ
  /-- `Client.Status().Update(ctx, obj)`. -/
  StatusUpdate : Backup → σ → Option Error × σ
  /-- `Client.List` of the Backups of a namespace with the given labels: the error and
  the items. -/
  ListBackups : String → StrMap → σ → (Option Error × List Backup) × σ
  /-- `Client.List` of the pods of a namespace with the given labels. -/
  ListPods : String → StrMap → σ → Except Error (List Pod) × σ
  /-- `intctrlutil.BackgroundDeleteObject`. -/
  BackgroundDeleteObject : Backup → σ → Option Error × σ
  /-- `deleteRelatedObjectList` for one kind of workload. -/
  deleteRelatedObjectList : String → List String → StrMap → σ → Option Error × σ
  /-- `EnsureWorkerServiceAccount` in a namespace. -/
  EnsureWorkerServiceAccount : String → σ → Except Error String × σ
  /-- `deleter.DeleteBackupFiles`, given the worker service account: the status and the
  error. -/
  DeleterDeleteBackupFiles : String → Backup → σ → (String × Option Error) × σ
  /-- `deleter.DeleteVolumeSnapshots`. -/
  DeleterDeleteVolumeSnapshots : Backup → σ → Option Error × σ
  /-- `dputils.GetBackupPolicyByName`. -/
  GetBackupPolicyByName : String → σ → Except Error BackupPolicy × σ
  /-- `dputils.GetActionSetByName`. -/
  GetActionSetByName : String → σ → Except Error ActionSet × σ
  /-- `checkEncryptionConfig` of a policy's encryption config in a namespace. -/
  checkEncryptionConfig : EncryptionConfig → String → σ → Option Error × σ
  /-- `HandleBackupRepo`. -/
  HandleBackupRepo : Request → σ → Except Error RepoBinding × σ
  /-- `GetParentBackup`. -/
  GetParentBackup : Backup → BackupMethod → String → σ → Except Error Backup × σ
  /-- `dputils.GetBackupTypeByMethodName`. -/
  GetBackupTypeByMethodName : String → BackupPolicy → σ → Except Error String × σ
  /-- `Client.Get` of a BackupSchedule by namespace and name. -/
  GetBackupSchedule : String → String → σ → Except Error BackupSchedule × σ
  /-- `intctrlutil.CheckResourceExists` for a Cluster by namespace and name. -/
  CheckClusterExists : String → String → σ → Except Error (Option Cluster) × σ
  /-- `GetTargetPods`. -/
  GetTargetPods : List String → BackupPolicy → BackupTarget → String → σ →
    Except Error (List Pod) × σ
  /-- `dpbackup.StopStatefulSetsWhenFailed`. -/
  StopStatefulSetsWhenFailed : Backup → String → σ → Option Error × σ
  /-- `request.BuildActions`: the actions per target pod, in the order the map is ranged. -/
  BuildActions : Request → σ → Except Error (List (String × List Action)) × σ
  /-- `act.Execute`. -/
  Execute : Action → σ → Except Error ActionStatus × σ
  /-- `getCluster` of a target pod. -/
  getCluster : Pod → σ → Option Cluster × σ
  /-- The string `getClusterObjectString` renders for a cluster. -/
  getClusterObjectString : Cluster → σ → Except Error (Option String) × σ
  /-- The string `setEncryptedSystemAccountsAnnotation` renders from the cluster's secrets. -/
  encryptedSystemAccounts : Cluster → σ → Except Error (Option String) × σ

/-- The state of one pass when it returns: the result, the Backup object the pass
last worked on (mutated in place), and the world. -/
structure Outcome (σ : Type) where
  result : Result
  backup : Backup
  world : World σ

/-! ## Helpers from libraries -/

/-- `controllerutil.RemoveFinalizer`: drops every occurrence. -/
def RemoveFinalizer (o : Backup) (finalizer : String) : Backup :=
  { o with finalizers := o.finalizers.filter (fun f => f != finalizer) }

/-- `controllerutil.AddFinalizer`: appends when absent. -/
def AddFinalizer (o : Backup) (finalizer : String) : Backup :=
  if finalizer ∈ o.finalizers then o
  else { o with finalizers := o.finalizers ++ [finalizer] }

/-- `boolptr.IsSetToTrue`. -/
def IsSetToTrue (b : Option Bool) : Bool :=
  b == some true

/-- `strings.HasPrefix`. -/
def HasPrefix (s pre : String) : Bool :=
  pre.toList.isPrefixOf s.toList

/-- `strings.EqualFold(val, "true")`: no letter outside ASCII folds to one of t, r, u, e,
so folding is lower-casing A to Z. -/
def EqualFoldTrue (val : String) : Bool :=
  val.toList.map Char.toLower == "true".toList

/-- `dpbackup.SetExpirationTime`: on success only `status.expiration` is written. -/
def SetExpirationTime {σ : Type} (env : Env σ) (backup : Backup) : Option Error × Backup :=
  match env.expirationTime backup with
  | Except.error err => (some err, backup)
  | Except.ok t => (none, { backup with status := { backup.status with expiration := t } })

/-! ## Failure bookkeeping -/

/-- `updateStatusIfFailed`. -/
def updateStatusIfFailed {σ : Type} (env : Env σ) (w : World σ) (original backup : Backup)
    (err : Error) : Outcome σ :=
  if IsTargetError err ErrorType.requeue then
    { result := Result.checkedRequeueWithError err "", backup := backup, world := w }
  else
    let w1 := w.emit (Event.warningEventForError backup err)
    let backup1 : Backup :=
      { backup with status := { backup.status with
          phase := BackupPhaseFailed, failureReason := err.msg } }
    let backup2 := (SetExpirationTime env backup1).2
    match (w1.emit (Event.statusPatch backup2 original)).call
        (env.StatusPatch backup2 original) with
    | (some errUpdate, w2) =>
      { result := Result.checkedRequeueWithError errUpdate "", backup := backup2, world := w2 }
    | (none, w2) =>
      { result := Result.checkedRequeueWithError err "", backup := backup2, world := w2 }

/-! ## Deletion -/

/-- `deleteBackupFiles`. -/
def deleteBackupFiles {σ : Type} (env : Env σ) (w : World σ) (backup : Backup) :
    GoErr × Backup × World σ :=
  match w.call (env.EnsureWorkerServiceAccount backup.ns) with
  | (Except.error err, w1) =>
    (GoErr.err (ErrorfWrap "failed to get worker service account: " err), backup, w1)
  | (Except.ok saName, w1) =>
    match (w1.emit (Event.deleterDeleteBackupFiles backup)).call
        (env.DeleterDeleteBackupFiles saName backup) with
    | ((status, err), w2) =>
      if status = DeletionStatusSucceeded then
        let backup1 := RemoveFinalizer backup env.DataProtectionFinalizerName
        match (w2.emit (Event.patch backup1 backup)).call (env.Patch backup1 backup) with
        | (perr, w3) => (GoErr.ofOption perr, backup1, w3)
      else if status = DeletionStatusFailed then
        match err with
        | none => (GoErr.panic, backup, w2)
        | some e =>
          let failureReason := e.msg
          if backup.status.failureReason = failureReason then (GoErr.nil, backup, w2)
          else
            let backup1 : Backup :=
              { backup with status := { backup.status with failureReason := failureReason } }
            let w3 := w2.emit
              (Event.recorderEvent backup1 "Warning" "DeleteBackupFilesFailed" failureReason)
            match (w3.emit (Event.statusPatch backup1 backup)).call
                (env.StatusPatch backup1 backup) with
            | (perr, w4) => (GoErr.ofOption perr, backup1, w4)
      else
        (GoErr.ofOption err, backup, w2)

/-- The loop of `deleteRelatedBackups` over the listed Backups. -/
def deleteRelatedBackupsLoop {σ : Type} (env : Env σ) (backup : Backup) :
    List Backup → World σ → Option Error × World σ
  | [], w => (none, w)
  | bp :: rest, w =>
    if bp.status.parentBackupName != backup.name && bp.status.baseBackupName != backup.name then
      deleteRelatedBackupsLoop env backup rest w
    else
      match (w.emit (Event.backgroundDeleteObject bp)).call (env.BackgroundDeleteObject bp) with
      | (some e, w1) => (some e, w1)
      | (none, w1) => deleteRelatedBackupsLoop env backup rest w1

/-- `deleteRelatedBackups`. -/
def deleteRelatedBackups {σ : Type} (env : Env σ) (w : World σ) (backup : Backup) :
    Option Error × World σ :=
  let labels : StrMap := [(env.BackupPolicyLabelKey, backup.spec.backupPolicyName)]
  match w.call (env.ListBackups backup.ns labels) with
  | ((some e, items), w1) =>
    if e.apiNotFound then deleteRelatedBackupsLoop env backup items w1 else (some e, w1)
  | ((none, items), w1) => deleteRelatedBackupsLoop env backup items w1

/-- `deleteExternalResources`. -/
def deleteExternalResources {σ : Type} (env : Env σ) (w : World σ) (backup : Backup) :
    Option Error × World σ :=
  let labels : StrMap :=
    [(env.BackupNameLabelKey, backup.name), (env.AppManagedByLabelKey, env.AppName)]
  let labels :=
    match (entries backup.labels).lookup env.ClusterUIDLabelKey with
    | some clusterUID => mapSet labels env.ClusterUIDLabelKey clusterUID
    | none => labels
  let namespaces : List String :=
    if backup.ns = env.ctrlrMgrNS then [backup.ns] else [backup.ns, env.ctrlrMgrNS]
  match (w.emit (Event.deleteRelatedObjectList "Job" namespaces labels)).call
      (env.deleteRelatedObjectList "Job" namespaces labels) with
  | (some e, w1) => (some e, w1)
  | (none, w1) =>
    (w1.emit (Event.deleteRelatedObjectList "StatefulSet" namespaces labels)).call
      (env.deleteRelatedObjectList "StatefulSet" namespaces labels)

/-- `waitForBackupPodsDeleted`. -/
def waitForBackupPodsDeleted {σ : Type} (env : Env σ) (w : World σ) (backup : Backup) :
    Except Error Bool × World σ :=
  match w.call (env.ListPods backup.ns [(env.BackupNameLabelKey, backup.name)]) with
  | (Except.error err, w1) => (Except.error err, w1)
  | (Except.ok items, w1) => (Except.ok (items.length == 0), w1)

/-- `deleteVolumeSnapshots`. -/
def deleteVolumeSnapshots {σ : Type} (env : Env σ) (w : World σ) (backup : Backup) :
    Option Error × World σ :=
  (w.emit (Event.deleterDeleteVolumeSnapshots backup)).call
    (env.DeleterDeleteVolumeSnapshots backup)

/-- `handleDeletingPhase`. -/
def handleDeletingPhase {σ : Type} (env : Env σ) (w : World σ) (backup : Backup) : Outcome σ :=
  match deleteRelatedBackups env w backup with
  | (some err, w1) => { result := Result.requeueWithError err, backup := backup, world := w1 }
  | (none, w1) =>
    match deleteExternalResources env w1 backup with
    | (some err, w2) => { result := Result.requeueWithError err, backup := backup, world := w2 }
    | (none, w2) =>
      if backup.spec.deletionPolicy = BackupDeletionPolicyRetain then
        { result := Result.reconciled, backup := backup,
          world := w2.emit (Event.recorderEvent backup "Warning" "Retain"
            "can not delete the backup if deletionPolicy is Retain") }
      else
        match waitForBackupPodsDeleted env w2 backup with
        | (Except.error err, w3) =>
          { result := Result.requeueWithError err, backup := backup, world := w3 }
        | (Except.ok false, w3) => { result := Result.reconciled, backup := backup, world := w3 }
        | (Except.ok true, w3) =>
          match deleteVolumeSnapshots env w3 backup with
          | (some err, w4) =>
            { result := Result.requeueWithError err, backup := backup, world := w4 }
          | (none, w4) =>
            match deleteBackupFiles env w4 backup with
            | (GoErr.err err, backup1, w5) =>
              { result := Result.requeueWithError err, backup := backup1, world := w5 }
            | (GoErr.panic, backup1, w5) =>
              { result := Result.panicked, backup := backup1, world := w5 }
            | (GoErr.nil, backup1, w5) =>
              { result := Result.reconciled, backup := backup1, world := w5 }

/-- `handleCompletedPhase`. -/
def handleCompletedPhase {σ : Type} (env : Env σ) (w : World σ) (backup : Backup) : Outcome σ :=
  match deleteExternalResources env w backup with
  | (some err, w1) =>
    { result := Result.checkedRequeueWithError err "", backup := backup, world := w1 }
  | (none, w1) => { result := Result.reconciled, backup := backup, world := w1 }

/-! ## Building the request -/

/-- `prepare4Incremental`. -/
def prepare4Incremental {σ : Type} (env : Env σ) (w : World σ) (request : Request) :
    Except Error Request × World σ :=
  match request.backupRepo with
  | none => (Except.error (Errorf "backupRepo for incremental backup can't be empty"), w)
  | some repo =>
    match w.call (env.GetParentBackup request.backup request.backupMethod repo.name) with
    | (Except.error err, w1) => (Except.error err, w1)
    | (Except.ok parentBackup, w1) =>
      match w1.call (env.GetBackupTypeByMethodName parentBackup.spec.backupMethod
          request.backupPolicy) with
      | (Except.error err, w2) => (Except.error err, w2)
      | (Except.ok parentBackupType, w2) =>
        let request1 : Request := { request with parentBackup := some parentBackup }
        if parentBackupType = BackupTypeFull then
          (Except.ok { request1 with baseBackup := some parentBackup }, w2)
        else if parentBackupType = BackupTypeIncremental then
          let baseBackupName := parentBackup.status.baseBackupName
          if baseBackupName = "" then
            (Except.error (Errorf ("backup " ++ parentBackup.ns ++ "/" ++ parentBackup.name
              ++ " base backup name is empty")), w2)
          else
            match w2.call (env.GetBackup parentBackup.ns baseBackupName) with
            | (Except.error err, w3) =>
              (Except.error (ErrorfWrap ("failed to get base backup " ++ parentBackup.ns ++ "/"
                ++ baseBackupName ++ ": ") err), w3)
            | (Except.ok baseBackup, w3) =>
              (Except.ok { request1 with baseBackup := some baseBackup }, w3)
        else
          (Except.error (Errorf ("parent backup type is " ++ parentBackupType
            ++ ", but only full and incremental backup are supported")), w2)

/-- `validateContinuousBackup`. -/
def validateContinuousBackup {σ : Type} (env : Env σ) (w : World σ) (backup : Backup) :
    Option Error × World σ :=
  match (entries backup.labels).lookup env.BackupScheduleLabelKey with
  | none =>
    (some (Errorf "continuous backup is only allowed to be created by backupSchedule"), w)
  | some scheduleName =>
    match w.call (env.GetBackupSchedule backup.ns scheduleName) with
    | (Except.error err, w1) => (some err, w1)
    | (Except.ok backupSchedule, w1) =>
      if backupSchedule.phase != BackupSchedulePhaseAvailable then
        (some (Errorf ("create continuous backup by failed backupschedule "
          ++ backupSchedule.ns ++ "/" ++ backupSchedule.name)), w1)
      else (none, w1)

/-- The encryption check of `prepareBackupRequest`. -/
def checkPolicyEncryption {σ : Type} (env : Env σ) (w : World σ) (backupPolicy : BackupPolicy) :
    Option Error × World σ :=
  match backupPolicy.encryptionConfig with
  | none => (none, w)
  | some cfg =>
    match w.call (env.checkEncryptionConfig cfg backupPolicy.ns) with
    | (some err, w1) =>
      (some (ErrorfWrap "failed to validate backupPolicy's encryption config: " err), w1)
    | (none, w1) => (none, w1)

/-- The repository binding of `prepareBackupRequest`: skipped for volume snapshots. -/
def bindBackupRepo {σ : Type} (env : Env σ) (w : World σ) (request : Request) :
    Except Error Request × World σ :=
  if !request.snapshotVolumes then
    match w.call (env.HandleBackupRepo request) with
    | (Except.error err, w1) => (Except.error err, w1)
    | (Except.ok b, w1) =>
      (Except.ok { request with backupRepo := some b.repo, backupRepoPVC := b.pvc,
                                toolConfigSecret := b.toolConfigSecret }, w1)
  else (Except.ok request, w)

/-- The copy of the Backup that `prepareBackupRequest` puts in the request: nil
annotations and labels are replaced by empty maps. -/
def requestBackup (backup : Backup) : Backup :=
  { backup with
    annotations := some (entries backup.annotations)
    labels := some (entries backup.labels) }

/-- The request `prepareBackupRequest` has built before it binds the repository. -/
def newRequest (backup : Backup) (backupPolicy : BackupPolicy) (backupMethod : BackupMethod)
    (snapshotVolumes : Bool) (actionSet : Option ActionSet) : Request :=
  { backup := requestBackup backup, snapshotVolumes := snapshotVolumes,
    actionSet := actionSet,
    backupPolicy := backupPolicy, backupMethod := backupMethod, backupRepo := none,
    backupRepoPVC := none, toolConfigSecret := none, parentBackup := none,
    baseBackup := none, target := none, targetPods := [], workerServiceAccount := "" }

/-- The tail of `prepareBackupRequest`, from the encryption check on, once the policy,
the method and the action set are known. -/
def prepareBackupRequestTail {σ : Type} (env : Env σ) (w : World σ) (backup : Backup)
    (backupPolicy : BackupPolicy) (backupMethod : BackupMethod) (snapshotVolumes : Bool)
    (actionSet : Option ActionSet) : Except Error Request × World σ :=
  match checkPolicyEncryption env w backupPolicy with
  | (some err, w1) => (Except.error err, w1)
  | (none, w1) =>
    let request := newRequest backup backupPolicy backupMethod snapshotVolumes actionSet
    match bindBackupRepo env w1 request with
    | (Except.error err, w2) => (Except.error err, w2)
    | (Except.ok request2, w2) =>
      if env.GetBackupType request2 = BackupTypeIncremental then
        prepare4Incremental env w2 request2
      else if env.GetBackupType request2 = BackupTypeContinuous then
        match validateContinuousBackup env w2 backup with
        | (some err, w3) => (Except.error err, w3)
        | (none, w3) => (Except.ok request2, w3)
      else (Except.ok request2, w2)

/-- `prepareBackupRequest`. -/
def prepareBackupRequest {σ : Type} (env : Env σ) (w : World σ) (backup : Backup) :
    Except Error Request × World σ :=
  match w.call (env.GetBackupPolicyByName backup.spec.backupPolicyName) with
  | (Except.error err, w1) => (Except.error err, w1)
  | (Except.ok backupPolicy, w1) =>
    if backupPolicy.phase = UnavailablePhase then
      (Except.error (NewFatalError ("phase of backupPolicy \"" ++ backupPolicy.name
        ++ "\" is Unavailable")), w1)
    else
      match env.GetBackupMethodByName backup.spec.backupMethod backupPolicy with
      | none =>
        (Except.error (NewNotFound ("backupMethod: " ++ backup.spec.backupMethod
          ++ " not found")), w1)
      | some backupMethod =>
        let snapshotVolumes := IsSetToTrue backupMethod.snapshotVolumes
        if !snapshotVolumes && backupMethod.actionSetName = "" then
          (Except.error (Errorf ("backup method " ++ backupMethod.name
            ++ " should specify snapshotVolumes or actionSetName")), w1)
        else if backupMethod.actionSetName != "" then
          match w1.call (env.GetActionSetByName backupMethod.actionSetName) with
          | (Except.error err, w2) => (Except.error err, w2)
          | (Except.ok actionSet, w2) =>
            match env.ValidateParameters actionSet backup.spec.parameters with
            | some err =>
              (Except.error (Errorf ("fails to validate parameters with actionset "
                ++ actionSet.name ++ ": " ++ err.msg)), w2)
            | none =>
              prepareBackupRequestTail env w2 backup backupPolicy backupMethod
                snapshotVolumes (some actionSet)
        else
          prepareBackupRequestTail env w1 backup backupPolicy backupMethod
            snapshotVolumes none

/-! ## Resolving targets -/

/-- The pod names `prepareRequestTargetInfo` hands to `GetTargetPods`; `none` is the
panic of `target.PodSelector.UseParentSelectedPods` on a nil pod selector, which is
evaluated whenever the request has a parent backup. -/
def selectedPodsFor {σ : Type} (env : Env σ) (request : Request) (target : BackupTarget) :
    Option (List String) :=
  let selectedPods : List String :=
    match env.GetBackupStatusTarget request.backup target.name with
    | some backupStatusTarget => backupStatusTarget.selectedTargetPods
    | none => []
  match request.parentBackup with
  | some parentBackup =>
    match target.podSelector with
    | none => none
    | some podSelector =>
      if podSelector.useParentSelectedPods && selectedPods.length == 0 then
        match env.GetBackupStatusTarget parentBackup target.name with
        | some parentBackupStatusTarget =>
          if parentBackupStatusTarget.selectedTargetPods.length > 0 then
            some parentBackupStatusTarget.selectedTargetPods
          else some selectedPods
        | none => some selectedPods
      else some selectedPods
  | none => some selectedPods

/-- The backup type `prepareRequestTargetInfo` resolves targets for. -/
def targetBackupType (request : Request) : String :=
  match request.actionSet with
  | some actionSet => actionSet.backupType
  | none => BackupTypeFull

/-- `prepareRequestTargetInfo`, once the selected pods are computed. -/
def prepareRequestTargetPods {σ : Type} (env : Env σ) (w : World σ) (request : Request)
    (target : BackupTarget) (selectedPods : List String) : GoErr × Request × World σ :=
  let request1 : Request := { request with target := some target }
  let backupType := targetBackupType request1
  match w.call (env.GetTargetPods selectedPods request1.backupPolicy target backupType) with
  | (Except.error err, w1) => (GoErr.err err, request1, w1)
  | (Except.ok targetPods, w1) =>
    if targetPods.length == 0 then
      let failed : Error := Errorf ("failed to get target pods by backup policy "
        ++ request1.backupPolicy.ns ++ "/" ++ request1.backupPolicy.name)
      if backupType = BackupTypeContinuous then
        match (w1.emit (Event.stopStatefulSetsWhenFailed request1.backup target.name)).call
            (env.StopStatefulSetsWhenFailed request1.backup target.name) with
        | (some e, w2) => (GoErr.err e, request1, w2)
        | (none, w2) => (GoErr.err failed, request1, w2)
      else (GoErr.err failed, request1, w1)
    else
      let request2 : Request := { request1 with targetPods := targetPods }
      if target.serviceAccountName = "" then
        match w1.call (env.EnsureWorkerServiceAccount request2.backup.ns) with
        | (Except.error err, w3) =>
          (GoErr.err (ErrorfWrap "failed to get worker service account: " err), request2, w3)
        | (Except.ok saName, w3) =>
          (GoErr.nil, { request2 with workerServiceAccount := saName }, w3)
      else
        (GoErr.nil, { request2 with workerServiceAccount := target.serviceAccountName }, w1)

/-- `prepareRequestTargetInfo`; the nil dereference of the pod selector panics before
anything is assigned or called. -/
def prepareRequestTargetInfo {σ : Type} (env : Env σ) (w : World σ) (request : Request)
    (target : BackupTarget) : GoErr × Request × World σ :=
  match selectedPodsFor env request target with
  | none => (GoErr.panic, request, w)
  | some selectedPods => prepareRequestTargetPods env w request target selectedPods

/-- The closure `buildStatusTarget` of `recordBackupStatusTargets`; an error or a panic
of `prepareRequestTargetInfo` is passed on. -/
def buildStatusTarget {σ : Type} (env : Env σ) (w : World σ) (request : Request)
    (target : BackupTarget) : Except GoErr BackupStatusTarget × Request × World σ :=
  match prepareRequestTargetInfo env w request target with
  | (GoErr.nil, request1, w1) =>
    (Except.ok { backupTarget := target,
                 selectedTargetPods := request1.targetPods.map (fun pod => pod.name) },
      request1, w1)
  | (failure, request1, w1) => (Except.error failure, request1, w1)

/-- Assignment to `request.Status.Target`. -/
def setTarget (request : Request) (statusTarget : BackupStatusTarget) : Request :=
  { request with backup := { request.backup with
      status := { request.backup.status with target := some statusTarget } } }

/-- Appending to `request.Status.Targets`. -/
def appendTarget (request : Request) (statusTarget : BackupStatusTarget) : Request :=
  { request with backup := { request.backup with
      status := { request.backup.status with
        targets := request.backup.status.targets ++ [statusTarget] } } }

/-- The closure `setStatusTarget` of `recordBackupStatusTargets`. -/
def setStatusTarget {σ : Type} (env : Env σ) (w : World σ) (request : Request)
    (target : BackupTarget) : GoErr × Request × World σ :=
  match buildStatusTarget env w request target with
  | (Except.error failure, request1, w1) => (failure, request1, w1)
  | (Except.ok statusTarget, request1, w1) => (GoErr.nil, setTarget request1 statusTarget, w1)

/-- The closure `setStatusTargets` of `recordBackupStatusTargets`. -/
def setStatusTargets {σ : Type} (env : Env σ) :
    List BackupTarget → World σ → Request → GoErr × Request × World σ
  | [], w, request => (GoErr.nil, request, w)
  | target :: rest, w, request =>
    match buildStatusTarget env w request target with
    | (Except.error failure, request1, w1) => (failure, request1, w1)
    | (Except.ok statusTarget, request1, w1) =>
      setStatusTargets env rest w1 (appendTarget request1 statusTarget)

/-- `recordBackupStatusTargets`. -/
def recordBackupStatusTargets {σ : Type} (env : Env σ) (w : World σ) (request : Request) :
    GoErr × Request × World σ :=
  if request.backup.status.target.isSome || request.backup.status.targets.length > 0 then
    (GoErr.nil, request, w)
  else
    match request.backupMethod.target with
    | some target => setStatusTarget env w request target
    | none =>
      if request.backupMethod.targets.length > 0 then
        setStatusTargets env request.backupMethod.targets w request
      else
        match request.backupPolicy.target with
        | some target => setStatusTarget env w request target
        | none =>
          if request.backupPolicy.targets.length > 0 then
            setStatusTargets env request.backupPolicy.targets w request
          else
            (GoErr.err (NewFatalError
              ("backup target/targets can not be empty in backupPolicy \""
                ++ request.backupPolicy.name ++ "\"")), request, w)

/-! ## The New phase -/

/-- Assignment to `request.Backup.Annotations`; every caller has made sure before that the
map is not nil (on a nil map the assignment panics). -/
def setAnnotation (request : Request) (k v : String) : Request :=
  { request with backup := { request.backup with
      annotations := some (mapSet (entries request.backup.annotations) k v) } }

/-- Assignment to `request.Labels`; every caller has made sure before that the map is not
nil (on a nil map the assignment panics). -/
def setLabel (request : Request) (k v : String) : Request :=
  { request with backup := { request.backup with
      labels := some (mapSet (entries request.backup.labels) k v) } }

/-- `setClusterSnapshotAnnotation`: nil annotations are first replaced by an empty map. -/
def setClusterSnapshotAnnotation {σ : Type} (env : Env σ) (w : World σ) (request : Request)
    (cluster : Cluster) : Option Error × Request × World σ :=
  let request0 : Request := { request with backup := { request.backup with
      annotations := some (entries request.backup.annotations) } }
  match w.call (env.getClusterObjectString cluster) with
  | (Except.error err, w1) => (some err, request0, w1)
  | (Except.ok none, w1) => (none, request0, w1)
  | (Except.ok (some clusterString), w1) =>
    (none, setAnnotation request0 env.ClusterSnapshotAnnotationKey clusterString, w1)

/-- `setEncryptedSystemAccountsAnnotation`; the assignment panics on nil annotations. -/
def setEncryptedSystemAccountsAnnotation {σ : Type} (env : Env σ) (w : World σ)
    (request : Request) (cluster : Cluster) : GoErr × Request × World σ :=
  match w.call (env.encryptedSystemAccounts cluster) with
  | (Except.error err, w1) => (GoErr.err err, request, w1)
  | (Except.ok none, w1) => (GoErr.nil, request, w1)
  | (Except.ok (some secretMapString), w1) =>
    if secretMapString != "" then
      match request.backup.annotations with
      | none => (GoErr.panic, request, w1)
      | some _ =>
        (GoErr.nil,
          setAnnotation request env.EncryptedSystemAccountsAnnotationKey secretMapString, w1)
    else (GoErr.nil, request, w1)

/-- The labels and the finalizer `PatchBackupObjectMeta` sets after the cluster
annotations, and whether to wait for the repository. -/
def metaLabels {σ : Type} (env : Env σ) (request : Request) (targetPod : Pod) :
    Request × Bool :=
  let request1 := env.getClusterLabelKeys.foldl (fun (r : Request) (v : String) =>
    match targetPod.labels.lookup v with
    | some labelValue => setLabel r v labelValue
    | none => r) request
  let request2 :=
    match (entries request1.backup.labels).lookup env.AppManagedByLabelKey with
    | some _ => request1
    | none => setLabel request1 env.AppManagedByLabelKey env.AppName
  let request3 := setLabel request2 env.BackupTypeLabelKey (env.GetBackupType request2)
  let request4 := setLabel request3 env.BackupPolicyLabelKey request3.backup.spec.backupPolicyName
  let labelled : Request × Bool :=
    match request4.backupRepo with
    | some repo =>
      let r := setLabel request4 env.dataProtectionBackupRepoKey repo.name
      if (repo.accessByMount && request4.backupRepoPVC.isNone) ||
          (repo.accessByTool && request4.toolConfigSecret.isNone) then
        (setLabel r env.dataProtectionWaitRepoPreparationKey env.trueVal, true)
      else (r, false)
    | none => (request4, false)
  ({ labelled.1 with
      backup := AddFinalizer labelled.1.backup env.DataProtectionFinalizerName }, labelled.2)

/-- `reflect.DeepEqual(original.ObjectMeta, request.ObjectMeta)` on the modelled part of
the object meta; a nil map and an empty map are not deeply equal. -/
def objectMetaEqual (a b : Backup) : Bool :=
  a.name == b.name && a.ns == b.ns && a.labels == b.labels &&
    a.annotations == b.annotations && a.finalizers == b.finalizers &&
    a.deletionTimestamp == b.deletionTimestamp

/-- The part of `PatchBackupObjectMeta` that follows the cluster annotations; the first
label assignment panics on nil labels (the backup-type label is always assigned). -/
def patchMetaLabels {σ : Type} (env : Env σ) (w : World σ) (original : Backup)
    (request : Request) (targetPod : Pod) : (Bool × GoErr) × Request × World σ :=
  match request.backup.labels with
  | none => ((false, GoErr.panic), request, w)
  | some _ =>
    let labelled := metaLabels env request targetPod
    if objectMetaEqual original labelled.1.backup then
      ((labelled.2, GoErr.nil), labelled.1, w)
    else
      match (w.emit (Event.patch labelled.1.backup original)).call
          (env.Patch labelled.1.backup original) with
      | (err, w1) => ((labelled.2, GoErr.ofOption err), labelled.1, w1)

/-- `PatchBackupObjectMeta`; `request.TargetPods[0]` panics on an empty list, the
assignment of the cluster UID label on nil labels. -/
def PatchBackupObjectMeta {σ : Type} (env : Env σ) (w : World σ) (original : Backup)
    (request : Request) : (Bool × GoErr) × Request × World σ :=
  match request.targetPods with
  | [] => ((false, GoErr.panic), request, w)
  | targetPod :: _ =>
    match w.call (env.getCluster targetPod) with
    | (none, w0) => patchMetaLabels env w0 original request targetPod
    | (some cluster, w0) =>
      match setClusterSnapshotAnnotation env w0 request cluster with
      | (some err, request1, w1) => ((false, GoErr.err err), request1, w1)
      | (none, request1, w1) =>
        match setEncryptedSystemAccountsAnnotation env w1 request1 cluster with
        | (GoErr.panic, request2, w2) => ((false, GoErr.panic), request2, w2)
        | (GoErr.err err, request2, w2) => ((false, GoErr.err err), request2, w2)
        | (GoErr.nil, request2, w2) =>
          match request2.backup.labels with
          | none => ((false, GoErr.panic), request2, w2)
          | some _ =>
            patchMetaLabels env w2 original
              (setLabel request2 env.ClusterUIDLabelKey cluster.uid) targetPod

/-- The initial action statuses `patchBackupStatus` appends for the built actions. -/
def initActionStatus (actions : List (String × List Action)) : List ActionStatus :=
  actions.flatMap (fun (entry : String × List Action) =>
    entry.2.map (fun (act : Action) =>
      ({ name := act.name, targetPodName := entry.1, phase := ActionPhaseNew,
         actionType := act.actionType, startTimestamp := none, completionTimestamp := none,
         failureReason := "", totalSize := "", timeRange := none,
         availableReplicas := none } : ActionStatus)))

/-- The result of `patchBackupStatus`: its error and the request it mutated. -/
structure PatchStatusResult (σ : Type) where
  err : GoErr
  request : Request
  world : World σ

/-- Assignment to `request.Status`. -/
def setStatus (request : Request) (status : BackupStatus) : Request :=
  { request with backup := { request.backup with status := status } }

/-- The fields `patchBackupStatus` writes before it builds the actions; `none` is the
nil dereference of `request.BackupRepo`. -/
def statusBeforeActions {σ : Type} (env : Env σ) (request : Request) : Option BackupStatus :=
  let st0 : BackupStatus := { request.backup.status with formatVersion := env.FormatVersion }
  let pathStep : Option BackupStatus :=
    if !request.snapshotVolumes then
      match request.backupRepo with
      | none => none
      | some repo =>
        some { st0 with path := (env.BuildBaseBackupPath { request.backup with status := st0 }
                 repo.pathPrefix request.backupPolicy.pathPrefix) }
    else some st0
  match pathStep with
  | none => none
  | some st1 =>
    let st2 : BackupStatus := { st1 with backupMethod := some request.backupMethod }
    let st3 : BackupStatus :=
      match request.backupRepo with
      | some repo => { st2 with backupRepoName := repo.name }
      | none => st2
    let st4 : BackupStatus :=
      match request.backupRepoPVC with
      | some pvc => { st3 with persistentVolumeClaimName := pvc }
      | none => st3
    let st5 : BackupStatus :=
      match request.backupRepo with
      | some repo =>
        if !request.snapshotVolumes && request.backupPolicy.useKopia then
          { st4 with kopiaRepoPath := (env.BuildKopiaRepoPath { request.backup with status := st4 }
              repo.pathPrefix request.backupPolicy.pathPrefix) }
        else st4
      | none => st4
    match request.parentBackup with
    | some parentBackup =>
      some { st5 with encryptionConfig := parentBackup.status.encryptionConfig }
    | none =>
      match request.backupPolicy.encryptionConfig with
      | some cfg => some { st5 with encryptionConfig := some cfg }
      | none => some st5

/-- The fields `patchBackupStatus` writes once the actions are built, at instant `now`. -/
def statusAfterActions (request : Request) (st6 : BackupStatus)
    (actions : List (String × List Action)) (now : Time) : BackupStatus :=
  let st7 : BackupStatus :=
    { st6 with actions := st6.actions ++ initActionStatus actions,
               phase := BackupPhaseRunning, startTimestamp := some now }
  let st8 : BackupStatus :=
    match request.parentBackup with
    | some parentBackup => { st7 with parentBackupName := parentBackup.name }
    | none => st7
  match request.baseBackup with
  | some baseBackup => { st8 with baseBackupName := baseBackup.name }
  | none => st8

/-- `patchBackupStatus`. -/
def patchBackupStatus {σ : Type} (env : Env σ) (w : World σ) (original : Backup)
    (request : Request) : PatchStatusResult σ :=
  match statusBeforeActions env request with
  | none => { err := GoErr.panic, request := request, world := w }
  | some st6 =>
    let request6 := setStatus request st6
    match w.call (env.BuildActions request6) with
    | (Except.error err, w1) => { err := GoErr.err err, request := request6, world := w1 }
    | (Except.ok actions, w1) =>
      match w1.call env.Now with
      | (now, w2) =>
        let backup9 : Backup :=
          { request.backup with status := statusAfterActions request st6 actions now }
        match SetExpirationTime env backup9 with
        | (some err, backup10) =>
          { err := GoErr.err err, request := { request with backup := backup10 }, world := w2 }
        | (none, backup10) =>
          match (w2.emit (Event.statusPatch backup10 original)).call
              (env.StatusPatch backup10 original) with
          | (perr, w3) =>
            { err := GoErr.ofOption perr, request := { request with backup := backup10 },
              world := w3 }

/-- `handleNewPhase`. -/
def handleNewPhase {σ : Type} (env : Env σ) (w : World σ) (backup : Backup) : Outcome σ :=
  match prepareBackupRequest env w backup with
  | (Except.error err, w1) => updateStatusIfFailed env w1 backup backup err
  | (Except.ok request, w1) =>
    match recordBackupStatusTargets env w1 request with
    | (GoErr.panic, request1, w2) =>
      { result := Result.panicked, backup := request1.backup, world := w2 }
    | (GoErr.err err, request1, w2) => updateStatusIfFailed env w2 backup request1.backup err
    | (GoErr.nil, request1, w2) =>
      let backupStatusCopy := request1.backup.status
      match PatchBackupObjectMeta env w2 backup request1 with
      | ((_, GoErr.panic), request2, w3) =>
        { result := Result.panicked, backup := request2.backup, world := w3 }
      | ((_, GoErr.err err), request2, w3) =>
        updateStatusIfFailed env w3 backup request2.backup err
      | ((true, GoErr.nil), request2, w3) =>
        { result := Result.reconciled, backup := request2.backup, world := w3 }
      | ((false, GoErr.nil), request2, w3) =>
        let r := patchBackupStatus env w3 backup (setStatus request2 backupStatusCopy)
        match r.err with
        | GoErr.panic => { result := Result.panicked, backup := r.request.backup, world := r.world }
        | GoErr.err err => updateStatusIfFailed env r.world backup r.request.backup err
        | GoErr.nil => { result := Result.reconciled, backup := r.request.backup, world := r.world }

/-! ## The Running phase -/

/-- The entry `mergeActionStatus` stores in place of the existing `action`: a copy of the
new status that keeps a log-collector failure reason and a recorded start instant. -/
def mergedEntry (logCollectorOutput : String) (action status : ActionStatus) : ActionStatus :=
  let as1 : ActionStatus :=
    if HasPrefix action.failureReason logCollectorOutput then
      { status with failureReason := action.failureReason }
    else status
  match action.startTimestamp with
  | some t => { as1 with startTimestamp := some t }
  | none => as1

/-- The loop of `mergeActionStatus`: the list after the merge, and `exist`. -/
def mergeActionStatusLoop (logCollectorOutput : String) (status : ActionStatus) :
    List ActionStatus → List ActionStatus × Bool
  | [] => ([], false)
  | action :: rest =>
    if action.name = status.name then
      (mergedEntry logCollectorOutput action status :: rest, true)
    else
      ((action :: (mergeActionStatusLoop logCollectorOutput status rest).1),
        (mergeActionStatusLoop logCollectorOutput status rest).2)

/-- Assignment to `request.Status.Actions`. -/
def setActions (request : Request) (actions : List ActionStatus) : Request :=
  { request with backup := { request.backup with
      status := { request.backup.status with actions := actions } } }

/-- `mergeActionStatus`; the clock is read only when no entry carries the name. -/
def mergeActionStatus {σ : Type} (env : Env σ) (w : World σ) (request : Request)
    (status : ActionStatus) : Request × World σ :=
  if (mergeActionStatusLoop env.LogCollectorOutput status request.backup.status.actions).2 then
    (setActions request
      (mergeActionStatusLoop env.LogCollectorOutput status request.backup.status.actions).1, w)
  else
    match w.call env.Now with
    | (now, w1) =>
      (setActions request
        (request.backup.status.actions ++ [{ status with startTimestamp := some now }]), w1)

/-- `updateBackupStatusByActionStatus`. -/
def updateBackupStatusByActionStatus (backupStatus : BackupStatus) : BackupStatus :=
  backupStatus.actions.foldl (fun (st : BackupStatus) (act : ActionStatus) =>
    let st1 : BackupStatus :=
      if act.totalSize != "" && st.totalSize == "" then { st with totalSize := act.totalSize }
      else st
    if act.timeRange.isSome && st1.timeRange.isNone then { st1 with timeRange := act.timeRange }
    else st1) backupStatus

/-- Reading `backup.Labels[key]`: the empty string when the key is absent. -/
def labelOf (backup : Backup) (key : String) : String :=
  ((entries backup.labels).lookup key).getD ""

/-- `checkRestoreInProgress`. -/
def checkRestoreInProgress {σ : Type} (env : Env σ) (w : World σ) (backup : Backup) :
    Except Error Bool × World σ :=
  match (entries backup.labels).lookup env.AppInstanceLabelKey with
  | none => (Except.ok false, w)
  | some clusterName =>
    match w.call (env.CheckClusterExists backup.ns clusterName) with
    | (Except.error err, w1) => (Except.error err, w1)
    | (Except.ok none, w1) => (Except.ok false, w1)
    | (Except.ok (some cluster), w1) =>
      (Except.ok (cluster.annotations.lookup env.RestoreFromBackupAnnotationKey).isSome, w1)

/-- The duration a completion at `now` records for a Backup started at `start`. -/
def completionDuration (start : Option Time) (now : Time) : Option Duration :=
  match start with
  | some t => if !timeIsZero (some t) then some (durationRound (timeSub now t) Second) else none
  | none => none

/-- Assignment to `status.Duration` when a duration was computed. -/
def setDuration (backup : Backup) (d : Option Duration) : Backup :=
  match d with
  | some v => { backup with status := { backup.status with duration := some v } }
  | none => backup

/-- The completion bookkeeping of `checkIsCompletedDuringRunning`. -/
def completeDuringRunning {σ : Type} (env : Env σ) (w : World σ) (backup : Backup) :
    Except Error Bool × Backup × World σ :=
  match w.call env.Now with
  | (now, w1) =>
    let backup1 : Backup := { backup with status := { backup.status with
        phase := BackupPhaseCompleted, completionTimestamp := some now } }
    let backup2 := (SetExpirationTime env backup1).2
    let backup3 := setDuration backup2 (completionDuration backup2.status.startTimestamp now)
    let backup4 : Backup := { backup3 with status := { backup3.status with
        actions := backup3.status.actions.map (fun (act : ActionStatus) =>
          { act with phase := ActionPhaseCompleted, availableReplicas := some 0,
                     completionTimestamp := backup3.status.completionTimestamp }) } }
    match (w1.emit (Event.statusPatch backup4 backup)).call (env.StatusPatch backup4 backup) with
    | (some err, w2) => (Except.error err, backup4, w2)
    | (none, w2) => (Except.ok true, backup4, w2)

/-- The cluster lookup of `checkIsCompletedDuringRunning`: `backupTargetExists` and
`backupTargetIsStoppedOrDeleting`. -/
def lookupBackupTarget {σ : Type} (env : Env σ) (w : World σ) (backup : Backup) :
    Except Error (Bool × Bool) × World σ :=
  if labelOf backup env.AppInstanceLabelKey != "" then
    match w.call (env.CheckClusterExists backup.ns (labelOf backup env.AppInstanceLabelKey)) with
    | (Except.error err, w1) => (Except.error err, w1)
    | (Except.ok found, w1) =>
      (Except.ok (found.isSome, (found.getD emptyCluster).isDeleting ||
        (found.getD emptyCluster).phase == StoppedClusterPhase), w1)
  else (Except.ok (true, false), w)

/-- `checkIsCompletedDuringRunning`. -/
def checkIsCompletedDuringRunning {σ : Type} (env : Env σ) (w : World σ) (backup : Backup) :
    Except Error Bool × Backup × World σ :=
  match lookupBackupTarget env w backup with
  | (Except.error err, w1) => (Except.error err, backup, w1)
  | (Except.ok (backupTargetExists, backupTargetIsStoppedOrDeleting), w1) =>
    if backupTargetExists && !backupTargetIsStoppedOrDeleting then
      match w1.call (env.GetBackupSchedule backup.ns
          (labelOf backup env.BackupScheduleLabelKey)) with
      | (Except.error err, w2) => (Except.error err, backup, w2)
      | (Except.ok backupSchedule, w2) =>
        if backupSchedule.schedules.any (fun (method : SchedulePolicy) =>
            method.backupMethod == backup.spec.backupMethod && IsSetToTrue method.enabled) then
          (Except.ok false, backup, w2)
        else completeDuringRunning env w2 backup
    else completeDuringRunning env w1 backup

/-- `syncContinuousBackupEncryptionConfig`. -/
def syncContinuousBackupEncryptionConfig {σ : Type} (env : Env σ) (w : World σ)
    (backup : Backup) (backupPolicy : BackupPolicy) : Option Error × Backup × World σ :=
  if labelOf backup env.BackupTypeLabelKey != BackupTypeContinuous then (none, backup, w)
  else if backup.status.encryptionConfig != backupPolicy.encryptionConfig then
    let backup1 : Backup := { backup with status := { backup.status with
        encryptionConfig := backupPolicy.encryptionConfig } }
    match (w.emit (Event.statusUpdate backup1)).call (env.StatusUpdate backup1) with
    | (err, w1) => (err, backup1, w1)
  else (none, backup, w)

/-- The variables the loops of `handleRunningPhase` carry. -/
structure RunState (σ : Type) where
  request : Request
  existFailedAction : Bool
  waiting : Bool
  world : World σ

/-- The loop labelled `targetPodBackupActions`: the actions of one target pod.  A
returned `Except.error` is a `return` out of `handleRunningPhase`. -/
def runPodActions {σ : Type} (env : Env σ) (backup : Backup) (targetPodName : String) :
    List Action → RunState σ → Except (Outcome σ) (RunState σ)
  | [], st => Except.ok st
  | act :: rest, st =>
    match (st.world.emit (Event.execute act targetPodName)).call (env.Execute act) with
    | (Except.error err, w1) =>
      Except.error (updateStatusIfFailed env w1 backup st.request.backup err)
    | (Except.ok status0, w1) =>
      let status : ActionStatus := { status0 with targetPodName := targetPodName }
      match mergeActionStatus env w1 st.request status with
      | (request1, w2) =>
        if status.phase = ActionPhaseCompleted then
          runPodActions env backup targetPodName rest
            { request := setStatus request1
                (updateBackupStatusByActionStatus request1.backup.status),
              existFailedAction := st.existFailedAction, waiting := st.waiting, world := w2 }
        else if status.phase = ActionPhaseFailed then
          Except.ok { request := request1, existFailedAction := true,
                      waiting := st.waiting, world := w2 }
        else if status.phase = ActionPhaseRunning then
          Except.ok { request := request1, existFailedAction := st.existFailedAction,
                      waiting := true, world := w2 }
        else
          runPodActions env backup targetPodName rest
            { request := request1, existFailedAction := st.existFailedAction,
              waiting := st.waiting, world := w2 }

/-- The loop over the map returned by `BuildActions`. -/
def runActions {σ : Type} (env : Env σ) (backup : Backup) :
    List (String × List Action) → RunState σ → Except (Outcome σ) (RunState σ)
  | [], st => Except.ok st
  | entry :: rest, st =>
    match runPodActions env backup entry.1 entry.2 st with
    | Except.error out => Except.error out
    | Except.ok st1 => runActions env backup rest st1

/-- The loop of `handleRunningPhase` over the targets. -/
def runTargets {σ : Type} (env : Env σ) (backup : Backup) :
    List BackupTarget → RunState σ → Except (Outcome σ) (RunState σ)
  | [], st => Except.ok st
  | target :: rest, st =>
    match prepareRequestTargetInfo env st.world st.request target with
    | (GoErr.panic, request1, w1) =>
      Except.error { result := Result.panicked, backup := request1.backup, world := w1 }
    | (GoErr.err err, request1, w1) =>
      Except.error (updateStatusIfFailed env w1 backup request1.backup err)
    | (GoErr.nil, request1, w1) =>
      match w1.call (env.BuildActions request1) with
      | (Except.error err, w2) =>
        Except.error (updateStatusIfFailed env w2 backup request1.backup err)
      | (Except.ok actions, w2) =>
        match runActions env backup actions
            { request := request1, existFailedAction := st.existFailedAction,
              waiting := st.waiting, world := w2 } with
        | Except.error out => Except.error out
        | Except.ok st1 => runTargets env backup rest st1

/-- The status patch that ends a pass of `handleRunningPhase`. -/
def patchRunning {σ : Type} (env : Env σ) (w : World σ) (obj original : Backup) : Outcome σ :=
  match (w.emit (Event.statusPatch obj original)).call (env.StatusPatch obj original) with
  | (some err, w1) =>
    { result := Result.checkedRequeueWithError err "", backup := obj, world := w1 }
  | (none, w1) => { result := Result.reconciled, backup := obj, world := w1 }

/-- The end of `handleRunningPhase`, after the loops. -/
def finishRunning {σ : Type} (env : Env σ) (backup : Backup) (st : RunState σ) : Outcome σ :=
  if st.waiting then
    let backup1 : Backup := { st.request.backup with status := { st.request.backup.status with
        completionTimestamp := none, duration := none } }
    match SetExpirationTime env backup1 with
    | (some err, backup2) =>
      updateStatusIfFailed env st.world backup backup2
        (Errorf ("failed to set expiration time, " ++ err.msg))
    | (none, backup2) => patchRunning env st.world backup2 backup
  else if st.existFailedAction then
    updateStatusIfFailed env st.world backup st.request.backup
      (Errorf "there are failed actions, you can obtain the more informations in the status.actions")
  else
    match st.world.call env.Now with
    | (now, w1) =>
      let backup1 : Backup := { st.request.backup with status := { st.request.backup.status with
          phase := BackupPhaseCompleted, completionTimestamp := some now } }
      let backup2 := setDuration backup1 (completionDuration backup1.status.startTimestamp now)
      match SetExpirationTime env backup2 with
      | (some err, backup3) =>
        updateStatusIfFailed env w1 backup backup3
          (Errorf ("failed to set expiration time, " ++ err.msg))
      | (none, backup3) =>
        patchRunning env
          (w1.emit (Event.recorderEvent backup "Normal" "CreatedBackup" "Completed backup"))
          backup3 backup

/-- The part of `handleRunningPhase` from `prepareBackupRequest` on. -/
def runBackup {σ : Type} (env : Env σ) (w : World σ) (backup : Backup) : Outcome σ :=
  match prepareBackupRequest env w backup with
  | (Except.error err, w1) => updateStatusIfFailed env w1 backup backup err
  | (Except.ok request, w1) =>
    match syncContinuousBackupEncryptionConfig env w1 backup request.backupPolicy with
    | (some err, backup1, w2) =>
      { result := Result.checkedRequeueWithError err
          "sync continuous backup encryption config failed", backup := backup1, world := w2 }
    | (none, backup1, w2) =>
      match runTargets env backup1
          (env.GetBackupTargets request.backupPolicy request.backupMethod)
          { request := request, existFailedAction := false, waiting := false, world := w2 } with
      | Except.error out => out
      | Except.ok st => finishRunning env backup1 st

/-- `handleRunningPhase`. -/
def handleRunningPhase {σ : Type} (env : Env σ) (w : World σ) (backup : Backup) : Outcome σ :=
  match checkRestoreInProgress env w backup with
  | (Except.error err, w1) =>
    { result := Result.recorderEventAndRequeue err, backup := backup, world := w1 }
  | (Except.ok true, w1) =>
    { result := Result.requeue "backup job is delayed because restore is in progress",
      backup := backup,
      world := w1.emit (Event.recorderEvent backup "Warning" "RestoreInProgress"
        "backup job is delayed because restore is in progress") }
  | (Except.ok false, w1) =>
    if labelOf backup env.BackupTypeLabelKey = BackupTypeContinuous then
      match checkIsCompletedDuringRunning env w1 backup with
      | (Except.error err, backup1, w2) =>
        { result := Result.recorderEventAndRequeue err, backup := backup1, world := w2 }
      | (Except.ok true, backup1, w2) =>
        { result := Result.reconciled, backup := backup1, world := w2 }
      | (Except.ok false, backup1, w2) => runBackup env w2 backup1
    else runBackup env w1 backup

/-! ## Dispatch -/

/-- The handler a pass of `Reconcile` runs. -/
inductive Handler
  | handleNewPhase
  | handleRunningPhase
  | handleCompletedPhase
  | handleDeletingPhase
  | noHandler
  deriving DecidableEq, Repr

/-- The `switch backup.Status.Phase` of `Reconcile`. -/
def selectHandler {σ : Type} (env : Env σ) (backup : Backup) : Handler :=
  if backup.status.phase = "" ∨ backup.status.phase = BackupPhaseNew then Handler.handleNewPhase
  else if backup.status.phase = BackupPhaseRunning then Handler.handleRunningPhase
  else if backup.status.phase = BackupPhaseCompleted then Handler.handleCompletedPhase
  else if backup.status.phase = BackupPhaseDeleting then Handler.handleDeletingPhase
  else if backup.status.phase = BackupPhaseFailed then
    if labelOf backup env.BackupTypeLabelKey = BackupTypeContinuous then
      if timeIsZero backup.status.startTimestamp then Handler.handleNewPhase
      else Handler.handleRunningPhase
    else Handler.noHandler
  else Handler.noHandler

/-- Runs the selected handler. -/
def runHandler {σ : Type} (env : Env σ) (w : World σ) (backup : Backup) (h : Handler) :
    Outcome σ :=
  match h with
  | Handler.handleNewPhase => handleNewPhase env w backup
  | Handler.handleRunningPhase => handleRunningPhase env w backup
  | Handler.handleCompletedPhase => handleCompletedPhase env w backup
  | Handler.handleDeletingPhase => handleDeletingPhase env w backup
  | Handler.noHandler => { result := Result.reconciled, backup := backup, world := w }

/-- Assignment to `backup.Status.Phase`. -/
def setPhase (backup : Backup) (phase : String) : Backup :=
  { backup with status := { backup.status with phase := phase } }

/-- The skip-reconciliation check of `Reconcile`. -/
def skipReconciliation {σ : Type} (env : Env σ) (backup : Backup) : Bool :=
  match (entries backup.annotations).lookup env.SkipReconciliationAnnotationKey with
  | some val => EqualFoldTrue val
  | none => false

/-- `Reconcile` for the request `reqNs/reqName`. -/
def Reconcile {σ : Type} (env : Env σ) (w : World σ) (reqNs reqName : String) : Outcome σ :=
  match w.call (env.GetBackup reqNs reqName) with
  | (Except.error err, w1) =>
    { result := Result.checkedRequeueWithError err "", backup := emptyBackup, world := w1 }
  | (Except.ok backup, w1) =>
    if skipReconciliation env backup then
      { result := Result.reconciled, backup := backup, world := w1 }
    else if !timeIsZero backup.deletionTimestamp &&
        backup.status.phase != BackupPhaseDeleting then
      let backup1 := setPhase backup BackupPhaseDeleting
      match (w1.emit (Event.statusPatch backup1 backup)).call
          (env.StatusPatch backup1 backup) with
      | (some err, w2) =>
        { result := Result.requeueWithError err, backup := backup1, world := w2 }
      | (none, w2) => runHandler env w2 backup1 (selectHandler env backup1)
    else runHandler env w1 backup (selectHandler env backup)

/-! ## Reading the effect log -/

/-- The event is a call of the repository deleter for the backup files. -/
def Event.isDeleteBackupFiles : Event → Bool
  | Event.deleterDeleteBackupFiles _ => true
  | _ => false

/-- The event is a `Client.Patch` of the Backup object (metadata, finalizers). -/
def Event.isPatch : Event → Bool
  | Event.patch _ _ => true
  | _ => false

/-- The event is a patch or an update of the Backup's status. -/
def Event.isStatusWrite : Event → Bool
  | Event.statusPatch _ _ => true
  | Event.statusUpdate _ => true
  | _ => false

/-- The event is a call of the deleter for the volume snapshots. -/
def Event.isDeleteVolumeSnapshots : Event → Bool
  | Event.deleterDeleteVolumeSnapshots _ => true
  | _ => false

/-- From `w` to `w1` the log only grew, and only by events that satisfy `p`. -/
def AddsOnly {σ : Type} (p : Event → Bool) (w w1 : World σ) : Prop :=
  ∃ evs : List Event, w1.trace = w.trace ++ evs ∧ ∀ e ∈ evs, p e = true

/-! ## A concrete environment

A cluster without state in which every lookup succeeds: used to run the reconciler on
concrete inputs. -/

def sampleTarget : BackupTarget :=
  { name := "t", podSelector := some { useParentSelectedPods := false },
    serviceAccountName := "sa" }

def sampleMethod : BackupMethod :=
  { name := "m", snapshotVolumes := some true, actionSetName := "", target := none,
    targets := [] }

def samplePolicy : BackupPolicy :=
  { name := "p", ns := "ns", phase := "Available", backupMethods := [sampleMethod],
    target := some sampleTarget, targets := [], encryptionConfig := none,
    pathPrefix := "", useKopia := false }

def sampleBackup : Backup :=
  { emptyBackup with
    name := "b", ns := "ns",
    spec := { backupPolicyName := "p", backupMethod := "m", deletionPolicy := "Delete",
              parameters := [] } }

def sampleRepo : BackupRepo :=
  { name := "repo", pathPrefix := "", accessByMount := false, accessByTool := false }

def sampleEnv : Env Unit :=
  { DataProtectionFinalizerName := "dataprotection.kubeblocks.io/finalizer"
    SkipReconciliationAnnotationKey := "dataprotection.kubeblocks.io/skip-reconciliation"
    BackupTypeLabelKey := "dataprotection.kubeblocks.io/backup-type"
    BackupPolicyLabelKey := "dataprotection.kubeblocks.io/backup-policy"
    BackupScheduleLabelKey := "dataprotection.kubeblocks.io/backup-schedule"
    BackupNameLabelKey := "dataprotection.kubeblocks.io/backup-name"
    ClusterUIDLabelKey := "dataprotection.kubeblocks.io/cluster-uid"
    AppInstanceLabelKey := "app.kubernetes.io/instance"
    AppManagedByLabelKey := "app.kubernetes.io/managed-by"
    RestoreFromBackupAnnotationKey := "kubeblocks.io/restore-from-backup"
    ClusterSnapshotAnnotationKey := "kubeblocks.io/cluster-snapshot"
    EncryptedSystemAccountsAnnotationKey := "kubeblocks.io/encrypted-system-accounts"
    dataProtectionBackupRepoKey := "dataprotection.kubeblocks.io/backup-repo-name"
    dataProtectionWaitRepoPreparationKey := "dataprotection.kubeblocks.io/wait-repo-preparation"
    trueVal := "true"
    AppName := "kubeblocks-dataprotection"
    LogCollectorOutput := "LogCollector: "
    FormatVersion := "0.1.0"
    ctrlrMgrNS := "kb-system"
    getClusterLabelKeys := []
    GetBackupMethodByName := fun name policy =>
      policy.backupMethods.find? (fun m => m.name == name)
    GetBackupTargets := fun policy method =>
      match method.target with
      | some t => [t]
      | none =>
        match method.targets with
        | t :: ts => t :: ts
        | [] =>
          match policy.target with
          | some t => [t]
          | none => policy.targets
    GetBackupStatusTarget := fun backup name =>
      match backup.status.target with
      | some t => some t
      | none => backup.status.targets.find? (fun t => t.backupTarget.name == name)
    GetBackupType := fun request =>
      match request.actionSet with
      | some a => a.backupType
      | none => if IsSetToTrue request.backupMethod.snapshotVolumes then BackupTypeFull else ""
    ValidateParameters := fun _ _ => none
    BuildBaseBackupPath := fun backup a b => a ++ b ++ "/" ++ backup.name
    BuildKopiaRepoPath := fun backup a b => a ++ b ++ "/kopia/" ++ backup.name
    expirationTime := fun backup => Except.ok backup.status.expiration
    Now := fun s => (1000, s)
    GetBackup := fun ns name s => (Except.ok { sampleBackup with name := name, ns := ns }, s)
    StatusPatch := fun _ _ s => (none, s)
    Patch := fun _ _ s => (none, s)
    StatusUpdate := fun _ s => (none, s)
    ListBackups := fun _ _ s => ((none, []), s)
    ListPods := fun _ _ s => (Except.ok [], s)
    BackgroundDeleteObject := fun _ s => (none, s)
    deleteRelatedObjectList := fun _ _ _ s => (none, s)
    EnsureWorkerServiceAccount := fun _ s => (Except.ok "kb-worker", s)
    DeleterDeleteBackupFiles := fun _ _ s => ((DeletionStatusSucceeded, none), s)
    DeleterDeleteVolumeSnapshots := fun _ s => (none, s)
    GetBackupPolicyByName := fun _ s => (Except.ok samplePolicy, s)
    GetActionSetByName := fun name s => (Except.ok { name := name, backupType := BackupTypeFull }, s)
    checkEncryptionConfig := fun _ _ s => (none, s)
    HandleBackupRepo := fun _ s =>
      (Except.ok { repo := sampleRepo, pvc := none, toolConfigSecret := none }, s)
    GetParentBackup := fun _ _ _ s =>
      (Except.ok { sampleBackup with name := "parent" }, s)
    GetBackupTypeByMethodName := fun _ _ s => (Except.ok BackupTypeFull, s)
    GetBackupSchedule := fun ns name s =>
      (Except.ok { name := name, ns := ns, phase := BackupSchedulePhaseAvailable,
                   schedules := [] }, s)
    CheckClusterExists := fun _ _ s => (Except.ok none, s)
    GetTargetPods := fun _ _ _ _ s => (Except.ok [{ name := "pod-a", labels := [] }], s)
    StopStatefulSetsWhenFailed := fun _ _ s => (none, s)
    BuildActions := fun _ s => (Except.ok [("pod-a", [{ name := "dump", actionType := "Job" }])], s)
    Execute := fun act s =>
      (Except.ok { name := act.name, targetPodName := "", phase := ActionPhaseCompleted,
                   actionType := act.actionType, startTimestamp := none,
                   completionTimestamp := none, failureReason := "", totalSize := "",
                   timeRange := none, availableReplicas := none }, s)
    getCluster := fun _ s => (none, s)
    getClusterObjectString := fun _ s => (Except.ok none, s)
    encryptedSystemAccounts := fun _ s => (Except.ok none, s) }

/-- The world at the start of a sample pass: nothing logged yet. -/
def sampleWorld : World Unit :=
  { st := (), trace := [] }

/-- The sample Backup with deletion policy Retain. -/
def retainedBackup : Backup :=
  { sampleBackup with
    finalizers := ["dataprotection.kubeblocks.io/finalizer"],
    deletionTimestamp := some 5,
    spec := { sampleBackup.spec with deletionPolicy := BackupDeletionPolicyRetain } }

/-- In `deleteBackupFiles` the repository deleter is reached and answers Succeeded. -/
def deleterSucceeded {σ : Type} (env : Env σ) (w : World σ) (backup : Backup) : Bool :=
  match w.call (env.EnsureWorkerServiceAccount backup.ns) with
  | (Except.error _, _) => false
  | (Except.ok saName, w1) =>
    ((w1.emit (Event.deleterDeleteBackupFiles backup)).call
      (env.DeleterDeleteBackupFiles saName backup)).1.1 == DeletionStatusSucceeded


/-- A request for an incremental backup as it stands before the lineage is resolved. -/
def incrementalRequest : Request :=
  { backup := sampleBackup, snapshotVolumes := false,
    actionSet := some { name := "as", backupType := BackupTypeIncremental },
    backupPolicy := samplePolicy, backupMethod := sampleMethod, backupRepo := some sampleRepo,
    backupRepoPVC := none, toolConfigSecret := none, parentBackup := none,
    baseBackup := none, target := none, targetPods := [], workerServiceAccount := "" }

/-- A recorded action status that has completed. -/
def doneAction : ActionStatus :=
  { name := "dump", targetPodName := "pod-a", phase := ActionPhaseCompleted,
    actionType := "Job", startTimestamp := none, completionTimestamp := some 90,
    failureReason := "", totalSize := "", timeRange := none, availableReplicas := none }

/-- A later report for the same action: running again, started at instant 7. -/
def laterStatus : ActionStatus :=
  { name := "dump", targetPodName := "pod-a", phase := ActionPhaseRunning,
    actionType := "Job", startTimestamp := some 7, completionTimestamp := none,
    failureReason := "", totalSize := "", timeRange := none, availableReplicas := none }

/-- The sample Backup in phase Running, started at instant 400. -/
def runningBackup : Backup :=
  { sampleBackup with
    status := { sampleBackup.status with phase := BackupPhaseRunning, startTimestamp := some 400 } }

/-- The sample environment with an executor whose action reports phase New. -/
def newPhaseEnv : Env Unit :=
  { sampleEnv with
    Execute := fun act s =>
      (Except.ok { name := act.name, targetPodName := "", phase := ActionPhaseNew,
                   actionType := act.actionType, startTimestamp := none,
                   completionTimestamp := none, failureReason := "", totalSize := "",
                   timeRange := none, availableReplicas := none }, s) }

/-- A Backup marked for deletion while Running, annotated to skip reconciliation. -/
def skippedBackup : Backup :=
  { runningBackup with
    annotations := some [("dataprotection.kubeblocks.io/skip-reconciliation", "TRUE")],
    deletionTimestamp := some 5 }

/-- The sample environment whose store holds `skippedBackup`. -/
def skipEnv : Env Unit :=
  { sampleEnv with GetBackup := fun _ _ s => (Except.ok skippedBackup, s) }

/-- The sample environment whose store holds `retainedBackup`, marked for deletion. -/
def deletingEnv : Env Unit :=
  { sampleEnv with GetBackup := fun _ _ s => (Except.ok retainedBackup, s) }

/-- A method that sets both modes: volume snapshots and an action set. -/
def bothMethod : BackupMethod :=
  { name := "m", snapshotVolumes := some true, actionSetName := "as", target := none,
    targets := [] }

/-- The sample environment whose policy offers `bothMethod`. -/
def bothEnv : Env Unit :=
  { sampleEnv with
    GetBackupPolicyByName := fun _ s =>
      (Except.ok { samplePolicy with backupMethods := [bothMethod] }, s) }

/-- A method that sets neither mode. -/
def neitherMethod : BackupMethod :=
  { name := "m", snapshotVolumes := some false, actionSetName := "", target := none,
    targets := [] }

/-- The sample environment whose policy offers `neitherMethod`. -/
def neitherEnv : Env Unit :=
  { sampleEnv with
    GetBackupPolicyByName := fun _ s =>
      (Except.ok { samplePolicy with backupMethods := [neitherMethod] }, s) }

/-- The error of a result, if it is one. -/
def errorOf {α : Type} (r : Except Error α) : Option Error :=
  match r with
  | Except.error e => some e
  | Except.ok _ => none

/-- The sample incremental request once its lineage is resolved: parent and base are the
Full backup `parent`. -/
def resolvedRequest : Request :=
  { incrementalRequest with
    parentBackup := some { sampleBackup with name := "parent" },
    baseBackup := some { sampleBackup with name := "parent" } }

/-- A parent backup that is itself incremental and records no base. -/
def orphanParent : Backup :=
  { sampleBackup with name := "parent" }

/-- A method that runs the action set `as`. -/
def actionSetMethod : BackupMethod :=
  { name := "m", snapshotVolumes := none, actionSetName := "as", target := none,
    targets := [] }

/-- The sample environment for an incremental backup whose parent chain is broken: the
action set is of type Incremental, and the latest parent is incremental without a
recorded base. -/
def brokenChainEnv : Env Unit :=
  { sampleEnv with
    GetBackupPolicyByName := fun _ s =>
      (Except.ok { samplePolicy with backupMethods := [actionSetMethod] }, s)
    GetActionSetByName := fun name s =>
      (Except.ok { name := name, backupType := BackupTypeIncremental }, s)
    GetParentBackup := fun _ _ _ s => (Except.ok orphanParent, s)
    GetBackupTypeByMethodName := fun _ _ s => (Except.ok BackupTypeIncremental, s) }

/-- The sample Backup carrying a backup-schedule label. -/
def scheduledBackup : Backup :=
  { sampleBackup with
    labels := some [("dataprotection.kubeblocks.io/backup-schedule", "sched")] }

/-- The sample environment whose repository deleter answers Failed with an error. -/
def failedDeleterEnv : Env Unit :=
  { sampleEnv with
    DeleterDeleteBackupFiles := fun _ _ s =>
      ((DeletionStatusFailed, some (Errorf "disk full")), s) }

/-- The test of `deleteRelatedBackups`: the listed Backup `bp` records `backup` as its
parent or as its base. -/
def isRelatedTo (backup bp : Backup) : Bool :=
  bp.status.parentBackupName == backup.name || bp.status.baseBackupName == backup.name

/-- The world in which `handleDeletingPhase` queries the pods: after the related backups
and the external workloads were deleted. -/
def worldAfterWorkloads {σ : Type} (env : Env σ) (w : World σ) (backup : Backup) : World σ :=
  (deleteExternalResources env (deleteRelatedBackups env w backup).2 backup).2

/-- The pod query of `waitForBackupPodsDeleted` as made by `handleDeletingPhase`. -/
def podQuery {σ : Type} (env : Env σ) (w : World σ) (backup : Backup) :
    Except Error (List Pod) × World σ :=
  (worldAfterWorkloads env w backup).call
    (env.ListPods backup.ns [(env.BackupNameLabelKey, backup.name)])

/-- Two Backups of the sample policy: `child` records the sample Backup `b` as parent,
`other` belongs to another chain. -/
def listedBackups : List Backup :=
  [ { sampleBackup with
      name := "other",
      status := { sampleBackup.status with parentBackupName := "x", baseBackupName := "y" } },
    { sampleBackup with
      name := "child",
      status := { sampleBackup.status with parentBackupName := "b", baseBackupName := "root" } } ]

/-- The sample environment whose store lists `listedBackups` for the policy. -/
def listingEnv : Env Unit :=
  { sampleEnv with ListBackups := fun _ _ s => ((none, listedBackups), s) }

/-- The total size of the first action, in list order, that reports one; empty when no
action does. -/
def firstTotalSize (actions : List ActionStatus) : String :=
  match actions.find? (fun a => a.totalSize != "") with
  | some a => a.totalSize
  | none => ""

/-- The time range of the first action, in list order, that reports one. -/
def firstTimeRange (actions : List ActionStatus) : Option BackupTimeRange :=
  match actions.find? (fun a => a.timeRange.isSome) with
  | some a => a.timeRange
  | none => none

/-- A recorded action status that failed, with a diagnostic of the log collector, started
at instant 3. -/
def collectedAction : ActionStatus :=
  { name := "dump", targetPodName := "pod-a", phase := ActionPhaseFailed,
    actionType := "Job", startTimestamp := some 3, completionTimestamp := none,
    failureReason := "LogCollector: out of space", totalSize := "", timeRange := none,
    availableReplicas := none }

/-- The phases reported, in order, by the executions that the loop `runPodActions` makes
for one target pod. -/
def podReports {σ : Type} (env : Env σ) (targetPodName : String) :
    List Action → RunState σ → List String
  | [], _ => []
  | act :: rest, st =>
    match (st.world.emit (Event.execute act targetPodName)).call (env.Execute act) with
    | (Except.error _, _) => []
    | (Except.ok status0, w1) =>
      match mergeActionStatus env w1 st.request
          { status0 with targetPodName := targetPodName } with
      | (request1, w2) =>
        if status0.phase = ActionPhaseCompleted then
          status0.phase :: podReports env targetPodName rest
            { request := setStatus request1
                (updateBackupStatusByActionStatus request1.backup.status),
              existFailedAction := st.existFailedAction, waiting := st.waiting, world := w2 }
        else if status0.phase = ActionPhaseFailed then [status0.phase]
        else if status0.phase = ActionPhaseRunning then [status0.phase]
        else
          status0.phase :: podReports env targetPodName rest
            { request := request1, existFailedAction := st.existFailedAction,
              waiting := st.waiting, world := w2 }

/-- The phases reported by the executions that `runActions` makes. -/
def actionsReports {σ : Type} (env : Env σ) (backup : Backup) :
    List (String × List Action) → RunState σ → List String
  | [], _ => []
  | entry :: rest, st =>
    podReports env entry.1 entry.2 st ++
      (match runPodActions env backup entry.1 entry.2 st with
       | Except.error _ => []
       | Except.ok st1 => actionsReports env backup rest st1)

/-- The phases reported by the executions that `runTargets` makes: every phase an action
reports in the pass. -/
def targetsReports {σ : Type} (env : Env σ) (backup : Backup) :
    List BackupTarget → RunState σ → List String
  | [], _ => []
  | target :: rest, st =>
    match prepareRequestTargetInfo env st.world st.request target with
    | (GoErr.panic, _, _) => []
    | (GoErr.err _, _, _) => []
    | (GoErr.nil, request1, w1) =>
      match w1.call (env.BuildActions request1) with
      | (Except.error _, _) => []
      | (Except.ok actions, w2) =>
        actionsReports env backup actions
            { request := request1, existFailedAction := st.existFailedAction,
              waiting := st.waiting, world := w2 } ++
          (match runActions env backup actions
              { request := request1, existFailedAction := st.existFailedAction,
                waiting := st.waiting, world := w2 } with
           | Except.error _ => []
           | Except.ok st1 => targetsReports env backup rest st1)

/-- The error `handleRunningPhase` fails the Backup with when an action has failed. -/
def failedActionsError : Error :=
  Errorf "there are failed actions, you can obtain the more informations in the status.actions"

/-- The sample environment with two target pods: the action of the first reports
Running, the execution for the second returns an error. -/
def runningThenErrorEnv : Env Unit :=
  { sampleEnv with
    BuildActions := fun _ s =>
      (Except.ok [("pod-a", [{ name := "dump", actionType := "Job" }]),
                  ("pod-b", [{ name := "verify", actionType := "Job" }])], s)
    Execute := fun act s =>
      if act.name = "dump" then
        (Except.ok { name := act.name, targetPodName := "", phase := ActionPhaseRunning,
                     actionType := act.actionType, startTimestamp := none,
                     completionTimestamp := none, failureReason := "", totalSize := "",
                     timeRange := none, availableReplicas := none }, s)
      else (Except.error (Errorf "exec failed"), s) }

/-- The sample environment with two target pods: the action of the first reports Failed,
the action of the second reports Running. -/
def failedAndRunningEnv : Env Unit :=
  { sampleEnv with
    BuildActions := fun _ s =>
      (Except.ok [("pod-a", [{ name := "dump", actionType := "Job" }]),
                  ("pod-b", [{ name := "verify", actionType := "Job" }])], s)
    Execute := fun act s =>
      (Except.ok { name := act.name, targetPodName := "",
                   phase := (if act.name = "dump" then ActionPhaseFailed
                             else ActionPhaseRunning),
                   actionType := act.actionType, startTimestamp := none,
                   completionTimestamp := none, failureReason := "", totalSize := "",
                   timeRange := none, availableReplicas := none }, s) }

/-- The sample environment with the clock at an instant of the year 2026. -/
def farFutureEnv : Env Unit :=
  { sampleEnv with Now := fun s => (63900000000000000000, s) }

/-- The sample Backup in phase Running with a start instant one second after the zero
instant. -/
def ancientBackup : Backup :=
  { sampleBackup with
    status := { sampleBackup.status with
      phase := BackupPhaseRunning, startTimestamp := some 1000000000 } }

/-- The variables of a pass over the sample Backup in phase Running at the end of the
loops, when no action failed and none is running. -/
def finishedRunState : RunState Unit :=
  { request := { incrementalRequest with backup := runningBackup },
    existFailedAction := false, waiting := false, world := sampleWorld }

/-- The sample Backup as a Continuous backup in phase Failed, never started. -/
def failedContinuousBackup : Backup :=
  { sampleBackup with
    labels := some [("dataprotection.kubeblocks.io/backup-type", BackupTypeContinuous)],
    status := { sampleBackup.status with phase := BackupPhaseFailed } }

/-- The sample environment whose store holds `failedContinuousBackup`. -/
def failedContinuousEnv : Env Unit :=
  { sampleEnv with GetBackup := fun _ _ s => (Except.ok failedContinuousBackup, s) }

/-- The failed Continuous backup, annotated to skip reconciliation. -/
def skippedFailedBackup : Backup :=
  { failedContinuousBackup with
    annotations := some [("dataprotection.kubeblocks.io/skip-reconciliation", "true")] }

/-- The sample environment whose store holds `skippedFailedBackup`. -/
def skippedFailedEnv : Env Unit :=
  { sampleEnv with GetBackup := fun _ _ s => (Except.ok skippedFailedBackup, s) }

/-- The sample environment in which target resolution finds no pod. -/
def noPodsEnv : Env Unit :=
  { sampleEnv with GetTargetPods := fun _ _ _ _ s => (Except.ok [], s) }

/-- The error `prepareRequestTargetInfo` returns when no target pod is found. -/
def noTargetPodsError (request : Request) : Error :=
  Errorf ("failed to get target pods by backup policy "
    ++ request.backupPolicy.ns ++ "/" ++ request.backupPolicy.name)

/-- The sample request for a Continuous backup. -/
def continuousRequest : Request :=
  { incrementalRequest with
    actionSet := some { name := "as", backupType := BackupTypeContinuous } }

/-- A report for the action `dump` run for another pod, `pod-b`. -/
def otherPodStatus : ActionStatus :=
  { name := "dump", targetPodName := "pod-b", phase := ActionPhaseRunning,
    actionType := "Job", startTimestamp := none, completionTimestamp := none,
    failureReason := "", totalSize := "", timeRange := none, availableReplicas := none }

/-- A report for an action that has no entry yet. -/
def freshStatus : ActionStatus :=
  { name := "verify", targetPodName := "pod-a", phase := ActionPhaseRunning,
    actionType := "Job", startTimestamp := some 7, completionTimestamp := none,
    failureReason := "", totalSize := "", timeRange := none, availableReplicas := none }

/-- The sample environment in which the expiration time cannot be computed. -/
def badRetentionEnv : Env Unit :=
  { sampleEnv with
    expirationTime := fun _ => Except.error (Errorf "invalid retention period") }

/-- The sample Backup, in phase "", with an action entry already in its status. -/
def staleActionsBackup : Backup :=
  { sampleBackup with status := { sampleBackup.status with actions := [doneAction] } }

/-- The sample environment for a Continuous backup (method `m` runs an action set of type
Continuous) in which the actions cannot be built. -/
def continuousBuildFailsEnv : Env Unit :=
  { sampleEnv with
    GetBackupPolicyByName := fun _ s =>
      (Except.ok { samplePolicy with backupMethods := [actionSetMethod] }, s)
    GetActionSetByName := fun name s =>
      (Except.ok { name := name, backupType := BackupTypeContinuous }, s)
    BuildActions := fun _ s => (Except.error (Errorf "build failed"), s) }

/-- The Backup a first New-phase pass over `scheduledBackup` leaves behind when the
actions cannot be built. -/
def failedAfterRecording : Backup :=
  (handleNewPhase continuousBuildFailsEnv sampleWorld scheduledBackup).backup

/-- The environment of the next pass: the store holds `failedAfterRecording`, and the
actions can be built again. -/
def retryEnv : Env Unit :=
  { continuousBuildFailsEnv with
    GetBackup := fun _ _ s => (Except.ok failedAfterRecording, s)
    BuildActions := sampleEnv.BuildActions }

/-- The sample environment with a repository accessed by mount whose volume claim is not
prepared yet, for the method `m` running an action set. -/
def waitingRepoEnv : Env Unit :=
  { sampleEnv with
    GetBackupPolicyByName := fun _ s =>
      (Except.ok { samplePolicy with backupMethods := [actionSetMethod] }, s)
    HandleBackupRepo := fun _ s =>
      (Except.ok { repo := { sampleRepo with accessByMount := true }, pvc := none,
                   toolConfigSecret := none }, s) }

/-- A target that asks for the selection recorded by the parent backup. -/
def inheritingTarget : BackupTarget :=
  { sampleTarget with podSelector := some { useParentSelectedPods := true } }

/-- A target without pod selector. -/
def bareTarget : BackupTarget :=
  { sampleTarget with podSelector := none }

/-- A parent backup that records the selection `pod-x` for its target. -/
def selectingParent : Backup :=
  { sampleBackup with
    name := "parent",
    status := { sampleBackup.status with
      target := some { backupTarget := inheritingTarget, selectedTargetPods := ["pod-x"] } } }

/-- The sample incremental request once that parent is resolved. -/
def childRequest : Request :=
  { incrementalRequest with
    parentBackup := some selectingParent, baseBackup := some selectingParent }

/-- The request `prepareBackupRequest` has built for the sample Backup when it resolves
the lineage against `brokenChainEnv`. -/
def brokenChainRequest : Request :=
  { newRequest sampleBackup { samplePolicy with backupMethods := [actionSetMethod] }
      actionSetMethod false (some { name := "as", backupType := BackupTypeIncremental }) with
    backupRepo := some sampleRepo }

/-- The sample environment for an incremental backup: the method runs an action set of
type Incremental; the latest parent is the Full backup `parent`. -/
def incrementalEnv : Env Unit :=
  { sampleEnv with
    GetBackupPolicyByName := fun _ s =>
      (Except.ok { samplePolicy with backupMethods := [actionSetMethod] }, s)
    GetActionSetByName := fun name s =>
      (Except.ok { name := name, backupType := BackupTypeIncremental }, s) }

end BackupController

namespace OpsRequestValidation

/-!
# OpsRequest validation (apis/operations/v1alpha1/opsrequest_validation.go)

A shallow embedding of `Force`, `ValidateClusterPhase` and of the volume-expansion check
`checkVolumesAllowExpansion` with its two helpers.  Go maps are association lists with
unique keys; a `range` over a map visits the keys in the order the environment picks.
-/

/-- A Go `error`, as in the backup controller: `apiNotFound` is `apierrors.IsNotFound`. -/
abbrev Error := BackupController.Error

/-- `fmt.Errorf` without `%w`. -/
abbrev Errorf (msg : String) : Error := BackupController.Errorf msg

abbrev StrMap := BackupController.StrMap

/-! ## Data model -/

abbrev OpsType := String
abbrev StartType : OpsType := "Start"
abbrev VerticalScalingType : OpsType := "VerticalScaling"
abbrev VolumeExpansionType : OpsType := "VolumeExpansion"

/-- The key of the cluster annotation that records the ops requests. -/
abbrev opsRequestAnnotationKey : String := "kubeblocks.io/ops-request"

/-- A `resource.Quantity`, in its base unit. -/
abbrev Quantity := Int

/-- The fields of `OpsRecorder` that the validation reads. -/
structure OpsRecorder where
  name : String
  inQueue : Bool
  deriving DecidableEq, Repr

/-- The field of `OpsRequestBehaviour` that the validation reads. -/
structure OpsRequestBehaviour where
  fromClusterPhases : List String
  deriving DecidableEq, Repr

structure OpsRequestVolumeClaimTemplate where
  name : String
  storage : Quantity
  deriving DecidableEq, Repr

/-- One entry of `spec.volumeExpansion`; `componentName` is `ComponentOps.ComponentName`. -/
structure VolumeExpansion where
  componentName : String
  volumeClaimTemplates : List OpsRequestVolumeClaimTemplate
  deriving DecidableEq, Repr

structure OpsRequestSpec where
  clusterName : String
  force : Bool
  opsType : OpsType
  volumeExpansionList : List VolumeExpansion
  deriving DecidableEq, Repr

structure OpsRequest where
  name : String
  ns : String
  spec : OpsRequestSpec
  deriving DecidableEq, Repr

/-- A volume claim template of the cluster spec: its name and `spec.storageClassName`. -/
structure PersistentVolumeClaimTemplate where
  name : String
  storageClassName : Option String
  deriving DecidableEq, Repr

structure ClusterComponentSpec where
  name : String
  volumeClaimTemplates : List PersistentVolumeClaimTemplate
  deriving DecidableEq, Repr

structure ClusterSharding where
  name : String
  template : ClusterComponentSpec
  deriving DecidableEq, Repr

structure ClusterSpec where
  componentSpecs : List ClusterComponentSpec
  shardings : List ClusterSharding
  deriving DecidableEq, Repr

/-- The fields of `appsv1.Cluster` that the validation reads. -/
structure Cluster where
  name : String
  annotations : StrMap
  phase : String
  spec : ClusterSpec
  deriving DecidableEq, Repr

/-- The fields of a `PersistentVolumeClaim` that the validation reads; `capacity` is
`*pvc.Status.Capacity.Storage()`. -/
structure PersistentVolumeClaim where
  labels : StrMap
  capacity : Quantity
  storageClassName : Option String
  deriving DecidableEq, Repr

structure StorageClass where
  allowVolumeExpansion : Option Bool
  deriving DecidableEq, Repr

/-- The `range` statements over maps in `checkVolumesAllowExpansion`. -/
inductive RangeSite
  | checkOuter
  | checkInner (key : String)
  | reportOuter
  | reportInner (key : String)
  deriving DecidableEq, Repr

/-- What the validation takes from outside its file: the table of behaviours, the JSON
decoder of the annotation, the reads of the API server, the canonical text
`Quantity.String()` of a quantity, the label keys, and the order in which each `range`
over a map visits the keys. -/
structure OpsEnv where
  OpsRequestBehaviourMapper : OpsType → OpsRequestBehaviour
  unmarshalOpsRecorders : String → Except Error (List OpsRecorder)
  quantityString : Quantity → String
  listPVCs : String → StrMap → Except Error (List PersistentVolumeClaim)
  getStorageClass : String → Except Error StorageClass
  rangeOrder : RangeSite → List String → List String
  AppInstanceLabelKey : String
  VolumeClaimTemplateNameLabelKey : String
  KBAppShardingNameLabelKey : String
  KBAppComponentLabelKey : String
  KBAppInstanceTemplateLabelKey : String

/-! ## The cluster-phase check -/

/-- `OpsRequest.Force`. -/
def Force (r : OpsRequest) : Bool :=
  r.spec.force && r.spec.opsType != StartType

/-- `OpsRequest.ValidateClusterPhase`. -/
def ValidateClusterPhase (env : OpsEnv) (r : OpsRequest) (cluster : Cluster) :
    Option Error :=
  let opsBehaviour := env.OpsRequestBehaviourMapper r.spec.opsType
  if opsBehaviour.fromClusterPhases.length == 0 then none
  else if Force r then none
  else
    let decoded : Except Error (List OpsRecorder) :=
      match cluster.annotations.lookup opsRequestAnnotationKey with
      | some opsRequestValue => env.unmarshalOpsRecorders opsRequestValue
      | none => Except.ok []
    match decoded with
    | Except.error err => some err
    | Except.ok opsRecorders =>
      if opsBehaviour.fromClusterPhases.contains cluster.phase then none
      else
        let opsRecord := opsRecorders.find? (fun v => v.name == r.name)
        let needCheck := opsRecorders.length == 0 ||
          (match opsRecord with
           | some v => !v.inQueue
           | none => false)
        if needCheck then
          some (Errorf ("OpsRequest.spec.type=" ++ r.spec.opsType
            ++ " is forbidden when Cluster.status.phase=" ++ cluster.phase))
        else none

/-! ## The volume-expansion check -/

/-- The local type `Entity` of `checkVolumesAllowExpansion`. -/
structure Entity where
  existInSpec : Bool
  storageClassName : Option String
  allowExpansion : Bool
  requestStorage : Quantity
  isShardingComponent : Bool
  deriving DecidableEq, Repr

/-- Assignment `m[k] = v` on a Go map. -/
def goMapSet {β : Type} (m : List (String × β)) (k : String) (v : β) : List (String × β) :=
  match m with
  | [] => [(k, v)]
  | (k1, v1) :: rest => if k1 = k then (k, v) :: rest else (k1, v1) :: goMapSet rest k v

/-- The map `vols`: component or sharding name, then template name, then entity. -/
abbrev Vols := List (String × List (String × Entity))

/-- Reading `vols[key][name]`; `none` when either key is absent. -/
def lookupVol (vols : Vols) (key name : String) : Option Entity :=
  match vols.lookup key with
  | some compVols => compVols.lookup name
  | none => none

/-- Assignment `vols[key][name] = e`, creating `vols[key]` when absent. -/
def setVol (vols : Vols) (key name : String) (e : Entity) : Vols :=
  goMapSet vols key (goMapSet ((vols.lookup key).getD []) name e)

/-- The closure `setVols`. -/
def setVols (vols : Vols) (vcts : List OpsRequestVolumeClaimTemplate)
    (componentName : String) : Vols :=
  vcts.foldl (fun (acc : Vols) (vct : OpsRequestVolumeClaimTemplate) =>
    setVol acc componentName vct.name
      { existInSpec := false, storageClassName := none, allowExpansion := false,
        requestStorage := vct.storage, isShardingComponent := false }) vols

/-- The closure `fillVol`. -/
def fillVol (vols : Vols) (vct : PersistentVolumeClaimTemplate) (key : String)
    (isShardingComp : Bool) : Vols :=
  match lookupVol vols key vct.name with
  | none => vols
  | some e =>
    setVol vols key vct.name
      { e with existInSpec := true, storageClassName := vct.storageClassName,
               isShardingComponent := isShardingComp }

/-- The closure `fillCompVols`. -/
def fillCompVols (vols : Vols) (compSpec : ClusterComponentSpec) (componentName : String)
    (isShardingComp : Bool) : Vols :=
  match vols.lookup componentName with
  | none => vols
  | some _ =>
    compSpec.volumeClaimTemplates.foldl (fun (acc : Vols)
      (vct : PersistentVolumeClaimTemplate) => fillVol acc vct componentName isShardingComp)
      vols

/-- The map `vols` once the request and the cluster spec have been traversed. -/
def buildVols (r : OpsRequest) (cluster : Cluster) : Vols :=
  let vols0 : Vols := r.spec.volumeExpansionList.foldl (fun (acc : Vols)
    (comp : VolumeExpansion) => setVols acc comp.volumeClaimTemplates comp.componentName) []
  let vols1 : Vols := cluster.spec.componentSpecs.foldl (fun (acc : Vols)
    (comp : ClusterComponentSpec) => fillCompVols acc comp comp.name false) vols0
  cluster.spec.shardings.foldl (fun (acc : Vols) (sharding : ClusterSharding) =>
    fillCompVols acc sharding.template sharding.name true) vols1

/-- `checkStorageClassAllowExpansion`: a not-found answer leaves the zero storage class,
which allows no expansion; any other error is returned. -/
def checkStorageClassAllowExpansion (env : OpsEnv) (storageClassName : Option String) :
    Except Error Bool :=
  match storageClassName with
  | none => Except.ok false
  | some name =>
    match env.getStorageClass name with
    | Except.error err =>
      if !err.apiNotFound then Except.error err
      else Except.ok false
    | Except.ok storageClass =>
      match storageClass.allowVolumeExpansion with
      | none => Except.ok false
      | some allow => Except.ok allow

/-- The component name and the instance-template name of a key: the key itself and ""
when it has no dot (`strings.Contains(key, ".")`), else the first two parts of
`strings.Split(key, ".")`. -/
def splitKey (key : String) : String × String :=
  let cs := key.toList
  if cs.contains '.' then
    (String.mk (cs.takeWhile (fun c => c != '.')),
     String.mk (((cs.dropWhile (fun c => c != '.')).drop 1).takeWhile (fun c => c != '.')))
  else (key, "")

/-- `getSCNameByPvcAndCheckStorageSize`. -/
def getSCNameByPvcAndCheckStorageSize (env : OpsEnv) (r : OpsRequest) (key vctName : String)
    (isShardingComponent : Bool) (requestStorage : Quantity) : Except Error (Option String) :=
  let names : String × String := splitKey key
  let matchingLabels : StrMap :=
    [(env.AppInstanceLabelKey, r.spec.clusterName),
     (env.VolumeClaimTemplateNameLabelKey, vctName),
     (if isShardingComponent then env.KBAppShardingNameLabelKey
      else env.KBAppComponentLabelKey, names.1)]
  match env.listPVCs r.ns matchingLabels with
  | Except.error err => Except.error err
  | Except.ok items =>
    match items.find? (fun pvcItem =>
        names.2 == (pvcItem.labels.lookup env.KBAppInstanceTemplateLabelKey).getD "") with
    | none => Except.ok none
    | some pvc =>
      if requestStorage < pvc.capacity then
        Except.error (Errorf ("requested storage size of volumeClaimTemplate \"" ++ vctName
          ++ "\" can not less than status.capacity.storage \"" ++ env.quantityString pvc.capacity
          ++ "\" "))
      else Except.ok pvc.storageClassName

/-- One turn of the inner loop that checks the storage classes; `Except.error` is the
`return err` out of `checkVolumesAllowExpansion`. -/
def checkVol (env : OpsEnv) (r : OpsRequest) (key vname : String) (vols : Vols) :
    Except Error Vols :=
  match lookupVol vols key vname with
  | none => Except.ok vols
  | some e =>
    if !e.existInSpec then Except.ok vols
    else
      match getSCNameByPvcAndCheckStorageSize env r key vname e.isShardingComponent
          e.requestStorage with
      | Except.error err => Except.error err
      | Except.ok scName =>
        match checkStorageClassAllowExpansion env scName with
        | Except.error _ => Except.ok vols
        | Except.ok allowExpansion =>
          Except.ok (setVol vols key vname
            { e with storageClassName := scName, allowExpansion := allowExpansion })

/-- The inner loop that checks the storage classes, over the template names of one key. -/
def checkCompVols (env : OpsEnv) (r : OpsRequest) (key : String) :
    List String → Vols → Except Error Vols
  | [], vols => Except.ok vols
  | vname :: rest, vols =>
    match checkVol env r key vname vols with
    | Except.error err => Except.error err
    | Except.ok vols1 => checkCompVols env r key rest vols1

/-- The template names of `vols[key]`, in the order the `range` at `site` visits them. -/
def rangeNames (env : OpsEnv) (site : RangeSite) (vols : Vols) (key : String) : List String :=
  env.rangeOrder site (((vols.lookup key).getD []).map (fun entry => entry.1))

/-- The loop that checks all used storage classes, over the keys of `vols`. -/
def checkAllVols (env : OpsEnv) (r : OpsRequest) : List String → Vols → Except Error Vols
  | [], vols => Except.ok vols
  | key :: rest, vols =>
    match checkCompVols env r key (rangeNames env (RangeSite.checkInner key) vols key) vols with
    | Except.error err => Except.error err
    | Except.ok vols1 => checkAllVols env r rest vols1

/-- Printing a `[]string` with `%v`. -/
def fmtStrings (l : List String) : String :=
  "[" ++ " ".intercalate l ++ "]"

/-- The error for volume claim templates that the component does not have. -/
def notFoundError (r : OpsRequest) (cluster : Cluster) (notFound : List String)
    (key : String) : Error :=
  Errorf ("volumeClaimTemplates: " ++ fmtStrings notFound ++ " not found in component: "
    ++ key ++ ", you can view infos by command: kubectl get cluster " ++ cluster.name
    ++ " -n " ++ r.ns)

/-- The error for volume claim templates that do not support expansion. -/
def notSupportError (notSupportSc notSupport : List String) (key : String) : Error :=
  let notSupportScString : String :=
    if notSupportSc.length > 0 then "storageClass: " ++ fmtStrings notSupportSc ++ " of "
    else ""
  Errorf (notSupportScString ++ "volumeClaimTemplate: " ++ fmtStrings notSupport
    ++ " not support volume expansion in component: " ++ key
    ++ ", you can view infos by command: kubectl get sc")

/-- The entities of `compVols` in the order the names are visited. -/
def visited (compVols : List (String × Entity)) (names : List String) :
    List (String × Entity) :=
  names.filterMap (fun vct =>
    match compVols.lookup vct with
    | some e => some (vct, e)
    | none => none)

/-- One turn of the reporting loop: the error for the component `key`, if any. -/
def reportComp (r : OpsRequest) (cluster : Cluster) (key : String)
    (entries : List (String × Entity)) : Option Error :=
  let notFound : List String :=
    (entries.filter (fun entry => !entry.2.existInSpec)).map (fun entry => entry.1)
  let notSupport : List String :=
    (entries.filter (fun entry => !entry.2.allowExpansion)).map (fun entry => entry.1)
  let notSupportSc : List String :=
    (entries.filter (fun entry => !entry.2.allowExpansion)).filterMap
      (fun entry => entry.2.storageClassName)
  if notFound.length > 0 then some (notFoundError r cluster notFound key)
  else if notSupport.length > 0 then some (notSupportError notSupportSc notSupport key)
  else none

/-- The reporting loop, over the keys of `vols`. -/
def reportVols (env : OpsEnv) (r : OpsRequest) (cluster : Cluster) (vols : Vols) :
    List String → Option Error
  | [] => none
  | key :: rest =>
    match reportComp r cluster key (visited ((vols.lookup key).getD [])
        (rangeNames env (RangeSite.reportInner key) vols key)) with
    | some err => some err
    | none => reportVols env r cluster vols rest

/-- The keys of a Go map. -/
def mapKeys {β : Type} (m : List (String × β)) : List String :=
  m.map (fun entry => entry.1)

/-- `checkVolumesAllowExpansion`. -/
def checkVolumesAllowExpansion (env : OpsEnv) (r : OpsRequest) (cluster : Cluster) :
    Option Error :=
  let vols := buildVols r cluster
  match checkAllVols env r (env.rangeOrder RangeSite.checkOuter (mapKeys vols)) vols with
  | Except.error err => some err
  | Except.ok vols1 =>
    reportVols env r cluster vols1 (env.rangeOrder RangeSite.reportOuter (mapKeys vols1))

/-- The volume `k`/`v` is recorded in `vols` as existing in the spec and not allowing
expansion, with the sharding flag and the requested size of `e`. -/
def Unsupported (k v : String) (e : Entity) (vols : Vols) : Prop :=
  ∃ e1, lookupVol vols k v = some e1 ∧ e1.allowExpansion = false ∧
    e1.existInSpec = true ∧ e1.isShardingComponent = e.isShardingComponent ∧
    e1.requestStorage = e.requestStorage

/-! ## Sample values -/

/-- A sample environment: scaling and expansion are allowed from a Running cluster, the
annotation never decodes, one claim with capacity 10 of class `fast` answers every
listing, the storage class lookup fails, and maps are visited in insertion order. -/
def sampleOpsEnv : OpsEnv :=
  { OpsRequestBehaviourMapper := fun t =>
      if t = VerticalScalingType ∨ t = VolumeExpansionType ∨ t = StartType then
        { fromClusterPhases := ["Running"] }
      else { fromClusterPhases := [] }
    unmarshalOpsRecorders := fun _ => Except.error (Errorf "invalid character")
    quantityString := fun q => toString q
    listPVCs := fun _ _ =>
      Except.ok [{ labels := [], capacity := 10, storageClassName := some "fast" }]
    getStorageClass := fun _ => Except.error (Errorf "connection refused")
    rangeOrder := fun _ l => l
    AppInstanceLabelKey := "app.kubernetes.io/instance"
    VolumeClaimTemplateNameLabelKey := "apps.kubeblocks.io/vct-name"
    KBAppShardingNameLabelKey := "apps.kubeblocks.io/sharding-name"
    KBAppComponentLabelKey := "apps.kubeblocks.io/component-name"
    KBAppInstanceTemplateLabelKey := "apps.kubeblocks.io/instance-template" }

/-- The sample environment with every map visited in the reverse order. -/
def reversedOpsEnv : OpsEnv :=
  { sampleOpsEnv with rangeOrder := fun _ l => l.reverse }

/-- A cluster that is updating, with one component `mysql` that has the volume claim
template `data`, and an ops-request annotation that is not JSON. -/
def sampleCluster : Cluster :=
  { name := "c", annotations := [(opsRequestAnnotationKey, "not json")], phase := "Updating",
    spec := { componentSpecs := [{ name := "mysql",
                                   volumeClaimTemplates :=
                                     [{ name := "data", storageClassName := some "fast" }] }],
              shardings := [] } }

/-- A forced vertical scaling request. -/
def forcedOps : OpsRequest :=
  { name := "ops", ns := "ns",
    spec := { clusterName := "c", force := true, opsType := VerticalScalingType,
              volumeExpansionList := [] } }

/-- A volume expansion of the template `data` of `mysql`. -/
def expandData : OpsRequest :=
  { name := "ops", ns := "ns",
    spec := { clusterName := "c", force := false, opsType := VolumeExpansionType,
              volumeExpansionList :=
                [{ componentName := "mysql",
                   volumeClaimTemplates := [{ name := "data", storage := 20 }] }] } }

/-- A volume expansion of the templates `data` and `log` of `mysql`; the cluster has no
template `log`. -/
def expandDataAndLog : OpsRequest :=
  { name := "ops", ns := "ns",
    spec := { clusterName := "c", force := false, opsType := VolumeExpansionType,
              volumeExpansionList :=
                [{ componentName := "mysql",
                   volumeClaimTemplates := [{ name := "data", storage := 20 },
                                            { name := "log", storage := 5 }] }] } }

/-- The sample environment in which the storage class does not exist: the lookup answers
NotFound. -/
def missingClassEnv : OpsEnv :=
  { sampleOpsEnv with
    getStorageClass := fun name =>
      Except.error { etype := none, apiNotFound := true,
                     msg := "storageclasses.storage.k8s.io \"" ++ name ++ "\" not found" } }

/-- A cluster with the components `mysql`, which has the volume claim templates `data`
and `logs`, and `redis`, which has the template `data`. -/
def twoComponentCluster : Cluster :=
  { name := "c", annotations := [], phase := "Running",
    spec := { componentSpecs :=
                [{ name := "mysql",
                   volumeClaimTemplates :=
                     [{ name := "data", storageClassName := some "fast" },
                      { name := "logs", storageClassName := some "fast" }] },
                 { name := "redis",
                   volumeClaimTemplates :=
                     [{ name := "data", storageClassName := some "fast" }] }],
              shardings := [] } }

/-- A volume expansion of the template `data` of `mysql` that also asks for less than the
capacity of the template `logs`. -/
def expandDataShrinkLogs : OpsRequest :=
  { name := "ops", ns := "ns",
    spec := { clusterName := "c", force := false, opsType := VolumeExpansionType,
              volumeExpansionList :=
                [{ componentName := "mysql",
                   volumeClaimTemplates := [{ name := "data", storage := 20 },
                                            { name := "logs", storage := 5 }] }] } }

/-- A volume expansion of the template `data` of `mysql` and of the template `data` of
`redis`. -/
def expandBoth : OpsRequest :=
  { name := "ops", ns := "ns",
    spec := { clusterName := "c", force := false, opsType := VolumeExpansionType,
              volumeExpansionList :=
                [{ componentName := "mysql",
                   volumeClaimTemplates := [{ name := "data", storage := 20 }] },
                 { componentName := "redis",
                   volumeClaimTemplates := [{ name := "data", storage := 20 }] }] } }

end OpsRequestValidation

namespace BackupController

/-! ## Lemmas on the effect log -/

@[simp] theorem World.call_trace {σ α : Type} (w : World σ) (f : σ → α × σ) :
    (w.call f).2.trace = w.trace := rfl

@[simp] theorem World.emit_trace {σ : Type} (w : World σ) (e : Event) :
    (w.emit e).trace = w.trace ++ [e] := rfl

theorem World.trace_of_call {σ α : Type} {w w1 : World σ} {f : σ → α × σ} {r : α}
    (heq : w.call f = (r, w1)) : w1.trace = w.trace := by
  have h := World.call_trace w f
  rw [heq] at h
  exact h

theorem AddsOnly.refl {σ : Type} (p : Event → Bool) (w : World σ) : AddsOnly p w w :=
  ⟨[], by simp, by simp⟩

theorem AddsOnly.trans {σ : Type} {p : Event → Bool} {w w1 w2 : World σ}
    (h1 : AddsOnly p w w1) (h2 : AddsOnly p w1 w2) : AddsOnly p w w2 := by
  obtain ⟨e1, ht1, hp1⟩ := h1
  obtain ⟨e2, ht2, hp2⟩ := h2
  refine ⟨e1 ++ e2, by rw [ht2, ht1, List.append_assoc], ?_⟩
  intro e he
  rcases List.mem_append.mp he with h | h
  · exact hp1 e h
  · exact hp2 e h

theorem AddsOnly.call {σ α : Type} (p : Event → Bool) (w : World σ) (f : σ → α × σ) :
    AddsOnly p w (w.call f).2 :=
  ⟨[], by simp, by simp⟩

theorem AddsOnly.emit {σ : Type} {p : Event → Bool} (w : World σ) (e : Event)
    (h : p e = true) : AddsOnly p w (w.emit e) :=
  ⟨[e], by simp, by simpa using h⟩

theorem AddsOnly.emit_call {σ α : Type} {p : Event → Bool} (w : World σ) (e : Event)
    (f : σ → α × σ) (h : p e = true) : AddsOnly p w ((w.emit e).call f).2 :=
  (AddsOnly.emit w e h).trans (AddsOnly.call p _ f)

theorem AddsOnly.of_call {σ α : Type} {p : Event → Bool} {w w1 : World σ} {f : σ → α × σ}
    {r : α} (heq : w.call f = (r, w1)) : AddsOnly p w w1 := by
  have h := AddsOnly.call p w f
  rw [heq] at h
  exact h

theorem AddsOnly.of_emit_call {σ α : Type} {p : Event → Bool} {w w1 : World σ} {e : Event}
    {f : σ → α × σ} {r : α} (heq : (w.emit e).call f = (r, w1)) (h : p e = true) :
    AddsOnly p w w1 :=
  (AddsOnly.emit w e h).trans (AddsOnly.of_call heq)

theorem deleteRelatedBackupsLoop_addsOnly {σ : Type} (env : Env σ) (backup : Backup)
    (p : Event → Bool) (hp : ∀ o, p (Event.backgroundDeleteObject o) = true) :
    ∀ (items : List Backup) (w : World σ),
      AddsOnly p w (deleteRelatedBackupsLoop env backup items w).2 := by
  intro items
  induction items with
  | nil => intro w; exact AddsOnly.refl p w
  | cons bp rest ih =>
    intro w
    unfold deleteRelatedBackupsLoop
    split
    · exact ih w
    · split
      · rename_i heq
        exact AddsOnly.of_emit_call heq (hp bp)
      · rename_i heq
        exact (AddsOnly.of_emit_call heq (hp bp)).trans (ih _)

theorem deleteRelatedBackups_addsOnly {σ : Type} (env : Env σ) (w : World σ) (backup : Backup)
    (p : Event → Bool) (hp : ∀ o, p (Event.backgroundDeleteObject o) = true) :
    AddsOnly p w (deleteRelatedBackups env w backup).2 := by
  unfold deleteRelatedBackups
  dsimp only
  split
  · rename_i heq
    split
    · exact (AddsOnly.of_call heq).trans (deleteRelatedBackupsLoop_addsOnly env backup p hp _ _)
    · exact AddsOnly.of_call heq
  · rename_i heq
    exact (AddsOnly.of_call heq).trans (deleteRelatedBackupsLoop_addsOnly env backup p hp _ _)

theorem deleteExternalResources_addsOnly {σ : Type} (env : Env σ) (w : World σ)
    (backup : Backup) (p : Event → Bool)
    (hp : ∀ k n l, p (Event.deleteRelatedObjectList k n l) = true) :
    AddsOnly p w (deleteExternalResources env w backup).2 := by
  unfold deleteExternalResources
  dsimp only
  split
  · rename_i heq
    exact AddsOnly.of_emit_call heq (hp _ _ _)
  · rename_i heq
    exact (AddsOnly.of_emit_call heq (hp _ _ _)).trans (AddsOnly.emit_call _ _ _ (hp _ _ _))

/-! ## Retain halts deletion -/

/-- C1: for a Backup whose deletion policy is Retain, a deleting pass leaves the Backup
object (and so its finalizers) as it was, and everything it adds to the effect log is
neither a call of the repository deleter nor a patch of the object, whatever the
related-backup and external-workload deletion steps answer. -/
theorem handleDeletingPhase_retain {σ : Type} (env : Env σ) (w : World σ) (backup : Backup)
    (hretain : backup.spec.deletionPolicy = BackupDeletionPolicyRetain) :
    (handleDeletingPhase env w backup).backup = backup ∧
    ∃ evs : List Event,
      (handleDeletingPhase env w backup).world.trace = w.trace ++ evs ∧
      ∀ e ∈ evs, (!e.isDeleteBackupFiles && !e.isPatch) = true := by
  have h1 := deleteRelatedBackups_addsOnly env w backup
    (fun e => !e.isDeleteBackupFiles && !e.isPatch) (fun _ => rfl)
  unfold handleDeletingPhase
  split
  · rename_i w1 heq1
    rw [heq1] at h1
    exact ⟨rfl, h1⟩
  · rename_i w1 heq1
    have h2 := deleteExternalResources_addsOnly env w1 backup
      (fun e => !e.isDeleteBackupFiles && !e.isPatch) (fun _ _ _ => rfl)
    rw [heq1] at h1
    split
    · rename_i w2 heq2
      rw [heq2] at h2
      exact ⟨rfl, h1.trans h2⟩
    · rename_i w2 heq2
      rw [heq2] at h2
      rw [if_pos hretain]
      exact ⟨rfl, (h1.trans h2).trans (AddsOnly.emit _ _ rfl)⟩

/-- Witness of C1 on the sample Backup with policy Retain. -/
theorem handleDeletingPhase_retain_witness :
    retainedBackup.spec.deletionPolicy = BackupDeletionPolicyRetain ∧
    (handleDeletingPhase sampleEnv sampleWorld retainedBackup).backup = retainedBackup ∧
    ∃ evs : List Event,
      (handleDeletingPhase sampleEnv sampleWorld retainedBackup).world.trace
        = sampleWorld.trace ++ evs ∧
      ∀ e ∈ evs, (!e.isDeleteBackupFiles && !e.isPatch) = true :=
  ⟨rfl, handleDeletingPhase_retain sampleEnv sampleWorld retainedBackup rfl⟩

/-! ## The finalizer in deleteBackupFiles -/

theorem mem_RemoveFinalizer (o : Backup) (finalizer : String) :
    finalizer ∉ (RemoveFinalizer o finalizer).finalizers := by
  simp [RemoveFinalizer]

/-- C2: in `deleteBackupFiles` the finalizer is removed exactly when the repository
deleter is reached and answers Succeeded: then the object is the Backup without the
finalizer and that object is patched; in every other case (Failed, Deleting, Unknown,
any other status, or the deleter never reached) the finalizer list is unchanged and no
patch of the object is sent. -/
theorem deleteBackupFiles_finalizer {σ : Type} (env : Env σ) (w : World σ) (backup : Backup) :
    (deleterSucceeded env w backup = true →
      (deleteBackupFiles env w backup).2.1
        = RemoveFinalizer backup env.DataProtectionFinalizerName ∧
      env.DataProtectionFinalizerName ∉ (deleteBackupFiles env w backup).2.1.finalizers ∧
      Event.patch (RemoveFinalizer backup env.DataProtectionFinalizerName) backup
        ∈ (deleteBackupFiles env w backup).2.2.trace) ∧
    (deleterSucceeded env w backup = false →
      (deleteBackupFiles env w backup).2.1.finalizers = backup.finalizers ∧
      ∃ evs : List Event,
        (deleteBackupFiles env w backup).2.2.trace = w.trace ++ evs ∧
        ∀ e ∈ evs, e.isPatch = false) ∧
    (env.DataProtectionFinalizerName ∈ backup.finalizers →
      (env.DataProtectionFinalizerName ∉ (deleteBackupFiles env w backup).2.1.finalizers
        ↔ deleterSucceeded env w backup = true)) := by
  have key : (deleterSucceeded env w backup = true →
      (deleteBackupFiles env w backup).2.1
        = RemoveFinalizer backup env.DataProtectionFinalizerName ∧
      Event.patch (RemoveFinalizer backup env.DataProtectionFinalizerName) backup
        ∈ (deleteBackupFiles env w backup).2.2.trace) ∧
    (deleterSucceeded env w backup = false →
      (deleteBackupFiles env w backup).2.1.finalizers = backup.finalizers ∧
      ∃ evs : List Event,
        (deleteBackupFiles env w backup).2.2.trace = w.trace ++ evs ∧
        ∀ e ∈ evs, e.isPatch = false) := by
    have conv : ∀ w' : World σ, AddsOnly (fun e => !e.isPatch) w w' →
        ∃ evs : List Event, w'.trace = w.trace ++ evs ∧ ∀ e ∈ evs, e.isPatch = false := by
      intro w' h
      obtain ⟨evs, h1, h2⟩ := h
      exact ⟨evs, h1, fun e he => by simpa using h2 e he⟩
    unfold deleteBackupFiles deleterSucceeded
    rcases hsa : w.call (env.EnsureWorkerServiceAccount backup.ns) with ⟨r, w1⟩
    have a1 : AddsOnly (fun e => !e.isPatch) w w1 := AddsOnly.of_call hsa
    cases r with
    | error err => exact ⟨by simp, fun _ => ⟨rfl, conv _ a1⟩⟩
    | ok saName =>
      dsimp only
      rcases hdel : (w1.emit (Event.deleterDeleteBackupFiles backup)).call
        (env.DeleterDeleteBackupFiles saName backup) with ⟨⟨status, err⟩, w2⟩
      have a2 : AddsOnly (fun e => !e.isPatch) w w2 :=
        a1.trans (AddsOnly.of_emit_call hdel rfl)
      dsimp only
      by_cases hs : status = DeletionStatusSucceeded
      · simp [hs]
      · have hs2 : (status == DeletionStatusSucceeded) = false := by simpa using hs
        simp only [hs2, hs, if_false]
        refine ⟨by simp, fun _ => ?_⟩
        by_cases hf : status = DeletionStatusFailed
        · simp only [hf, if_true]
          cases err with
          | none => exact ⟨rfl, conv _ a2⟩
          | some e =>
            dsimp only
            split
            · exact ⟨rfl, conv _ a2⟩
            · refine ⟨rfl, conv _ ?_⟩
              refine (a2.trans (AddsOnly.emit _ _ ?_)).trans (AddsOnly.emit_call _ _ _ ?_) <;> rfl
        · simp only [hf, if_false]
          exact ⟨trivial, conv _ a2⟩
  refine ⟨fun h => ?_, key.2, fun hmem => ⟨fun hnot => ?_, fun h => ?_⟩⟩
  · have h1 := key.1 h
    exact ⟨h1.1, by rw [h1.1]; exact mem_RemoveFinalizer _ _, h1.2⟩
  · cases hd : deleterSucceeded env w backup with
    | true => rfl
    | false =>
      have h2 := (key.2 hd).1
      rw [h2] at hnot
      exact absurd hmem hnot
  · rw [(key.1 h).1]
    exact mem_RemoveFinalizer _ _

theorem SetExpirationTime_ok {σ : Type} (env : Env σ) (backup backup1 : Backup)
    (h : SetExpirationTime env backup = (none, backup1)) :
    ∃ t, backup1 = { backup with status := { backup.status with expiration := t } } := by
  unfold SetExpirationTime at h
  split at h
  · simp at h
  · rename_i t _
    simp only [Prod.mk.injEq, true_and] at h
    exact ⟨t, h.symm⟩

theorem patchBackupStatus_lineage {σ : Type} (env : Env σ) (w : World σ) (original : Backup)
    (request : Request) (P B : Backup) (hP : request.parentBackup = some P)
    (hB : request.baseBackup = some B) (obj orig : Backup)
    (hmem : Event.statusPatch obj orig ∈ (patchBackupStatus env w original request).world.trace) :
    Event.statusPatch obj orig ∈ w.trace ∨
      (obj.status.parentBackupName = P.name ∧ obj.status.baseBackupName = B.name) := by
  unfold patchBackupStatus at hmem
  split at hmem
  · exact Or.inl hmem
  · rename_i st6 _
    dsimp only at hmem
    rcases hba : w.call (env.BuildActions (setStatus request st6)) with ⟨r, w1⟩
    have t1 : w1.trace = w.trace := by
      have := World.call_trace w (env.BuildActions (setStatus request st6)); rw [hba] at this
      exact this
    rw [hba] at hmem
    cases r with
    | error err => left; simpa [t1] using hmem
    | ok actions =>
      dsimp only at hmem
      rcases hnow : w1.call env.Now with ⟨now, w2⟩
      have t2 : w2.trace = w.trace := by
        have := World.call_trace w1 env.Now; rw [hnow] at this; rw [this, t1]
      rw [hnow] at hmem
      dsimp only at hmem
      split at hmem
      · left; simpa [t2] using hmem
      · rename_i backup10 hexp
        obtain ⟨t, ht⟩ := SetExpirationTime_ok env _ _ hexp
        simp only [World.call_trace, World.emit_trace, t2, List.mem_append, List.mem_singleton,
          Event.statusPatch.injEq] at hmem
        rcases hmem with h | ⟨h1, _⟩
        · exact Or.inl h
        · right
          subst h1
          rw [ht]
          simp [statusAfterActions, hP, hB]

theorem patchBackupStatus_written {σ : Type} (env : Env σ) (w : World σ) (original : Backup)
    (request : Request) (h : (patchBackupStatus env w original request).err = GoErr.nil) :
    Event.statusPatch (patchBackupStatus env w original request).request.backup original
      ∈ (patchBackupStatus env w original request).world.trace := by
  revert h
  unfold patchBackupStatus
  split
  · simp
  · rename_i st6 _
    dsimp only
    rcases hba : w.call (env.BuildActions (setStatus request st6)) with ⟨r, w1⟩
    cases r with
    | error err => simp
    | ok actions =>
      dsimp only
      rcases hnow : w1.call env.Now with ⟨now, w2⟩
      dsimp only
      split
      · simp
      · simp

/-- The status `patchBackupStatus` ends with when it returns no error carries the names
of the request's parent and base. -/
theorem patchBackupStatus_lineage_ok {σ : Type} (env : Env σ) (w : World σ)
    (original : Backup) (request : Request) (P B : Backup)
    (hP : request.parentBackup = some P) (hB : request.baseBackup = some B)
    (h : (patchBackupStatus env w original request).err = GoErr.nil) :
    (patchBackupStatus env w original request).request.backup.status.parentBackupName
      = P.name ∧
    (patchBackupStatus env w original request).request.backup.status.baseBackupName
      = B.name := by
  have hw := patchBackupStatus_written env w original request h
  revert h hw
  unfold patchBackupStatus
  split
  · simp
  · rename_i st6 _
    dsimp only
    rcases hba : w.call (env.BuildActions (setStatus request st6)) with ⟨r, w1⟩
    cases r with
    | error err => simp
    | ok actions =>
      dsimp only
      rcases hnow : w1.call env.Now with ⟨now, w2⟩
      dsimp only
      split
      · simp
      · rename_i backup10 hexp
        obtain ⟨t, ht⟩ := SetExpirationTime_ok env _ _ hexp
        intro _ _
        dsimp only
        rw [ht]
        simp [statusAfterActions, hP, hB]

/-- What a successful `prepare4Incremental` has done: it has found a parent P and looked
up P's backup type, and the request carries P as parent and, as base, a backup named
`P.name` when P's type is Full and `P.status.baseBackupName` otherwise (a lookup by name
is assumed to return a record of that name). -/
theorem prepare4Incremental_ok {σ : Type} (env : Env σ) (w w1 : World σ)
    (request request1 : Request)
    (hprep : prepare4Incremental env w request = (Except.ok request1, w1))
    (hget : ∀ (ns name : String) (s : σ) (b : Backup),
      (env.GetBackup ns name s).1 = Except.ok b → b.name = name) :
    ∃ (repo : BackupRepo) (P B : Backup) (parentType : String) (wa wb : World σ),
      request.backupRepo = some repo ∧
      w.call (env.GetParentBackup request.backup request.backupMethod repo.name)
        = (Except.ok P, wa) ∧
      wa.call (env.GetBackupTypeByMethodName P.spec.backupMethod request.backupPolicy)
        = (Except.ok parentType, wb) ∧
      request1.parentBackup = some P ∧
      request1.baseBackup = some B ∧
      B.name = (if parentType = BackupTypeFull then P.name else P.status.baseBackupName) := by
  unfold prepare4Incremental at hprep
  split at hprep
  · simp at hprep
  · rename_i repo hrepo
    rcases hpar : w.call (env.GetParentBackup request.backup request.backupMethod repo.name)
      with ⟨r, wa⟩
    rw [hpar] at hprep
    cases r with
    | error err => simp at hprep
    | ok P =>
      dsimp only at hprep
      rcases hty : wa.call (env.GetBackupTypeByMethodName P.spec.backupMethod
        request.backupPolicy) with ⟨r2, wb⟩
      rw [hty] at hprep
      cases r2 with
      | error err => simp at hprep
      | ok parentType =>
        dsimp only at hprep
        by_cases hfull : parentType = BackupTypeFull
        · rw [if_pos hfull] at hprep
          simp only [Prod.mk.injEq, Except.ok.injEq] at hprep
          obtain ⟨h1, _⟩ := hprep
          subst h1
          exact ⟨repo, P, P, parentType, wa, wb, hrepo, hpar, hty, rfl, rfl,
            by rw [if_pos hfull]⟩
        · rw [if_neg hfull] at hprep
          split at hprep
          · split at hprep
            · simp at hprep
            · rcases hbase : wb.call (env.GetBackup P.ns P.status.baseBackupName) with ⟨r3, wc⟩
              rw [hbase] at hprep
              cases r3 with
              | error err => simp at hprep
              | ok B =>
                simp only [Prod.mk.injEq, Except.ok.injEq] at hprep
                obtain ⟨h1, _⟩ := hprep
                subst h1
                have hB : B.name = P.status.baseBackupName := by
                  apply hget P.ns P.status.baseBackupName wb.st B
                  have := congrArg Prod.fst hbase
                  simpa [World.call] using this
                exact ⟨repo, P, B, parentType, wa, wb, hrepo, hpar, hty, rfl, rfl,
                  by rw [if_neg hfull]; exact hB⟩
          · simp at hprep

theorem sampleEnv_GetBackup_name (ns name : String) (s : Unit) (b : Backup)
    (h : (sampleEnv.GetBackup ns name s).1 = Except.ok b) : b.name = name := by
  simp only [sampleEnv, Except.ok.injEq] at h
  rw [← h]

theorem mergeActionStatusLoop_split (marker : String) (status entry : ActionStatus)
    (post : List ActionStatus) (hname : entry.name = status.name) :
    ∀ (pre : List ActionStatus), (∀ a ∈ pre, a.name ≠ status.name) →
      mergeActionStatusLoop marker status (pre ++ entry :: post) =
        (pre ++ mergedEntry marker entry status :: post, true) := by
  intro pre
  induction pre with
  | nil =>
    intro _
    simp only [List.nil_append, mergeActionStatusLoop, hname, if_true]
  | cons a rest ih =>
    intro hpre
    have ha : a.name ≠ status.name := hpre a (List.mem_cons_self _ _)
    have hrest : ∀ b ∈ rest, b.name ≠ status.name :=
      fun b hb => hpre b (List.mem_cons_of_mem _ hb)
    have ih2 := ih hrest
    rw [List.cons_append, mergeActionStatusLoop, if_neg ha, ih2]
    rfl

theorem mergedEntry_phase (marker : String) (entry status : ActionStatus) :
    (mergedEntry marker entry status).phase = status.phase := by
  unfold mergedEntry
  split <;> (dsimp only; split <;> rfl)

theorem mergedEntry_startTimestamp (marker : String) (entry status : ActionStatus) :
    (mergedEntry marker entry status).startTimestamp =
      match entry.startTimestamp with
      | some t => some t
      | none => status.startTimestamp := by
  unfold mergedEntry
  cases entry.startTimestamp <;>
    by_cases h : HasPrefix entry.failureReason marker = true <;> simp [h]

/-- C4 fails as stated: merging a Running report into an entry that is Completed (with
no start instant recorded) leaves the entry Running with the report's start instant. -/
theorem mergeActionStatus_regresses_phase :
    doneAction.phase = ActionPhaseCompleted ∧ doneAction.startTimestamp = none ∧
    laterStatus.name = doneAction.name ∧
    (mergeActionStatus sampleEnv sampleWorld (setActions incrementalRequest [doneAction])
      laterStatus).1.backup.status.actions
      = [{ doneAction with phase := ActionPhaseRunning, startTimestamp := some 7,
                           completionTimestamp := none }] := by
  decide

/-- C4 as amended: merging a new status for an action that has an entry (the first of
that name, whatever its phase) gives that entry the new status's phase; its start instant
stays the recorded one when one was recorded, else it becomes the new status's. -/
theorem mergeActionStatus_existing_entry {σ : Type} (env : Env σ) (w : World σ)
    (request : Request) (status entry : ActionStatus) (pre post : List ActionStatus)
    (hsplit : request.backup.status.actions = pre ++ entry :: post)
    (hpre : ∀ a ∈ pre, a.name ≠ status.name) (hname : entry.name = status.name) :
    ∃ merged : ActionStatus,
      (mergeActionStatus env w request status).1.backup.status.actions
        = pre ++ merged :: post ∧
      merged.phase = status.phase ∧
      (∀ t, entry.startTimestamp = some t → merged.startTimestamp = some t) ∧
      (entry.startTimestamp = none → merged.startTimestamp = status.startTimestamp) := by
  have h := mergeActionStatusLoop_split env.LogCollectorOutput status entry post hname pre hpre
  refine ⟨mergedEntry env.LogCollectorOutput entry status, ?_,
    mergedEntry_phase _ _ _, ?_, ?_⟩
  · unfold mergeActionStatus
    rw [hsplit, h]
    simp only [if_true, setActions]
  · intro t ht; rw [mergedEntry_startTimestamp, ht]
  · intro ht; rw [mergedEntry_startTimestamp, ht]

/-- Witness of the amended C4 on the completed sample entry. -/
theorem mergeActionStatus_existing_entry_witness :
    ∃ merged : ActionStatus,
      (mergeActionStatus sampleEnv sampleWorld (setActions incrementalRequest [doneAction])
        laterStatus).1.backup.status.actions = [] ++ merged :: [] ∧
      merged.phase = laterStatus.phase ∧
      (∀ t, doneAction.startTimestamp = some t → merged.startTimestamp = some t) ∧
      (doneAction.startTimestamp = none → merged.startTimestamp = laterStatus.startTimestamp) :=
  mergeActionStatus_existing_entry sampleEnv sampleWorld
    (setActions incrementalRequest [doneAction]) laterStatus doneAction [] [] rfl
    (by simp) rfl

/-- C5, the code at the failing input: one target pod whose single action reports phase
New without error; the Running pass sets the Backup to Completed and patches it. -/
theorem handleRunningPhase_completes_on_new_action :
    (handleRunningPhase newPhaseEnv sampleWorld runningBackup).backup.status.phase
      = BackupPhaseCompleted ∧
    (handleRunningPhase newPhaseEnv sampleWorld runningBackup).backup.status.actions.map
      (fun a => (a.name, a.targetPodName, a.phase)) = [("dump", "pod-a", ActionPhaseNew)] ∧
    (handleRunningPhase newPhaseEnv sampleWorld runningBackup).result = Result.reconciled ∧
    Event.statusPatch (handleRunningPhase newPhaseEnv sampleWorld runningBackup).backup
      runningBackup ∈ (handleRunningPhase newPhaseEnv sampleWorld runningBackup).world.trace := by
  decide

/-! ## Frozen targets -/

/-- `prepareRequestTargetInfo` assigns only the target, the target pods and the worker
service account of the request. -/
theorem prepareRequestTargetInfo_frame {σ : Type} (env : Env σ) (w : World σ)
    (request : Request) (target : BackupTarget) :
    ∃ (t : Option BackupTarget) (pods : List Pod) (sa : String),
      (prepareRequestTargetInfo env w request target).2.1
        = { request with target := t, targetPods := pods, workerServiceAccount := sa } := by
  unfold prepareRequestTargetInfo
  split
  · exact ⟨request.target, request.targetPods, request.workerServiceAccount, rfl⟩
  · unfold prepareRequestTargetPods
    dsimp only
    split
    · exact ⟨_, _, _, rfl⟩
    · split
      · split
        · split <;> exact ⟨_, _, _, rfl⟩
        · exact ⟨_, _, _, rfl⟩
      · split
        · split <;> exact ⟨_, _, _, rfl⟩
        · exact ⟨_, _, _, rfl⟩

theorem prepareRequestTargetInfo_backup {σ : Type} (env : Env σ) (w : World σ)
    (request : Request) (target : BackupTarget) :
    (prepareRequestTargetInfo env w request target).2.1.backup = request.backup := by
  obtain ⟨t, pods, sa, h⟩ := prepareRequestTargetInfo_frame env w request target
  rw [h]

theorem buildStatusTarget_request {σ : Type} (env : Env σ) (w : World σ)
    (request : Request) (target : BackupTarget) :
    (buildStatusTarget env w request target).2.1
      = (prepareRequestTargetInfo env w request target).2.1 := by
  unfold buildStatusTarget
  split
  · rename_i heq; rw [heq]
  · rename_i heq; rw [heq]

theorem buildStatusTarget_backup {σ : Type} (env : Env σ) (w : World σ)
    (request : Request) (target : BackupTarget) :
    (buildStatusTarget env w request target).2.1.backup = request.backup := by
  rw [buildStatusTarget_request]
  exact prepareRequestTargetInfo_backup env w request target

/-- The failure `buildStatusTarget` passes on is an error or a panic. -/
theorem buildStatusTarget_failure {σ : Type} (env : Env σ) (w w1 : World σ)
    (request request1 : Request) (target : BackupTarget) (failure : GoErr)
    (h : buildStatusTarget env w request target = (Except.error failure, request1, w1)) :
    failure ≠ GoErr.nil := by
  unfold buildStatusTarget at h
  split at h
  · simp at h
  · rename_i f r v hne heq
    simp only [Prod.mk.injEq, Except.error.injEq] at h
    intro hf
    rw [← h.1] at hf
    subst hf
    exact hne rfl

theorem setStatusTarget_recorded {σ : Type} (env : Env σ) (w w1 : World σ)
    (request request1 : Request) (target : BackupTarget)
    (h : setStatusTarget env w request target = (GoErr.nil, request1, w1)) :
    request1.backup.status.target.isSome = true := by
  unfold setStatusTarget at h
  split at h
  · rename_i heq
    simp only [Prod.mk.injEq] at h
    exact absurd h.1 (buildStatusTarget_failure env w _ request _ target _ heq)
  · simp only [Prod.mk.injEq, true_and] at h
    rw [← h.1]
    rfl

theorem setStatusTargets_length {σ : Type} (env : Env σ) :
    ∀ (targets : List BackupTarget) (w w1 : World σ) (request request1 : Request),
      setStatusTargets env targets w request = (GoErr.nil, request1, w1) →
      request1.backup.status.targets.length
        = request.backup.status.targets.length + targets.length := by
  intro targets
  induction targets with
  | nil =>
    intro w w1 request request1 h
    simp only [setStatusTargets, Prod.mk.injEq, true_and] at h
    rw [← h.1]; rfl
  | cons target rest ih =>
    intro w w1 request request1 h
    unfold setStatusTargets at h
    have hb := buildStatusTarget_backup env w request target
    split at h
    · rename_i heq
      simp only [Prod.mk.injEq] at h
      exact absurd h.1 (buildStatusTarget_failure env w _ request _ target _ heq)
    · rename_i statusTarget request2 w2 heq
      rw [heq] at hb
      have := ih _ _ _ _ h
      rw [this]
      simp only [appendTarget, List.length_append, List.length_cons, List.length_nil]
      dsimp only at hb
      rw [hb]
      omega

theorem recordBackupStatusTargets_recorded {σ : Type} (env : Env σ) (w w1 : World σ)
    (request request1 : Request)
    (h : recordBackupStatusTargets env w request = (GoErr.nil, request1, w1)) :
    (request1.backup.status.target.isSome || request1.backup.status.targets.length > 0)
      = true := by
  unfold recordBackupStatusTargets at h
  split at h
  · rename_i hrec
    simp only [Prod.mk.injEq, true_and] at h
    rw [← h.1]; exact hrec
  · split at h
    · rw [setStatusTarget_recorded env w w1 request request1 _ h]; rfl
    · split at h
      · rename_i hlen
        have := setStatusTargets_length env _ _ _ _ _ h
        simp only [Bool.or_eq_true, decide_eq_true_eq]
        right
        have hl : request.backupMethod.targets.length > 0 := by simpa using hlen
        omega
      · split at h
        · rw [setStatusTarget_recorded env w w1 request request1 _ h]; rfl
        · split at h
          · rename_i hlen
            have := setStatusTargets_length env _ _ _ _ _ h
            simp only [Bool.or_eq_true, decide_eq_true_eq]
            right
            have hl : request.backupPolicy.targets.length > 0 := by simpa using hlen
            omega
          · simp at h

/-- C6: when the status already records a resolved target (`status.target` set or
`status.targets` non-empty), `recordBackupStatusTargets` returns no error and leaves the
request, and so `status.target`, `status.targets` and every `selectedTargetPods`, as it
is, in every environment and world (whatever the pod query would answer); and after a
first successful resolution a second one, in any environment and world, changes
nothing. -/
theorem recordBackupStatusTargets_frozen {σ : Type} (env : Env σ) (w : World σ)
    (request : Request) :
    ((request.backup.status.target.isSome = true ∨ request.backup.status.targets ≠ []) →
      recordBackupStatusTargets env w request = (GoErr.nil, request, w)) ∧
    (∀ (request1 : Request) (w1 : World σ),
      recordBackupStatusTargets env w request = (GoErr.nil, request1, w1) →
      ∀ (env2 : Env σ) (w2 : World σ),
        recordBackupStatusTargets env2 w2 request1 = (GoErr.nil, request1, w2)) := by
  have guard : ∀ (e : Env σ) (v : World σ) (r : Request),
      (r.backup.status.target.isSome || r.backup.status.targets.length > 0) = true →
      recordBackupStatusTargets e v r = (GoErr.nil, r, v) := by
    intro e v r hr
    unfold recordBackupStatusTargets
    rw [if_pos hr]
  refine ⟨fun h => guard env w request ?_, fun request1 w1 h env2 w2 =>
    guard env2 w2 request1 (recordBackupStatusTargets_recorded env w w1 request request1 h)⟩
  rcases h with h | h
  · simp [h]
  · have : request.backup.status.targets.length > 0 := List.length_pos.mpr h
    simp [this]

/-! ## Deletion preempts the dispatch -/

/-- C7 fails as stated: a Backup with a deletion timestamp and phase Running that carries
the skip-reconciliation annotation is left alone by `Reconcile`: nothing is patched and
the phase is still Running. -/
theorem Reconcile_skips_deleting_backup :
    timeIsZero skippedBackup.deletionTimestamp = false ∧
    skippedBackup.status.phase ≠ BackupPhaseDeleting ∧
    (Reconcile skipEnv sampleWorld "ns" "b").backup = skippedBackup ∧
    (Reconcile skipEnv sampleWorld "ns" "b").backup.status.phase = BackupPhaseRunning ∧
    (Reconcile skipEnv sampleWorld "ns" "b").result = Result.reconciled ∧
    (Reconcile skipEnv sampleWorld "ns" "b").world.trace = [] := by
  decide

/-- C7 as amended: for a fetched Backup that is not annotated to skip reconciliation, has
a non-zero deletion timestamp and a phase other than Deleting, a pass whose status patch
succeeds patches the phase to Deleting and is then exactly the deleting handler on that
object; the dispatch selects no other handler. -/
theorem Reconcile_deleting {σ : Type} (env : Env σ) (w w1 w2 : World σ)
    (reqNs reqName : String) (backup : Backup)
    (hget : w.call (env.GetBackup reqNs reqName) = (Except.ok backup, w1))
    (hskip : skipReconciliation env backup = false)
    (hdel : timeIsZero backup.deletionTimestamp = false)
    (hphase : backup.status.phase ≠ BackupPhaseDeleting)
    (hpatch : (w1.emit (Event.statusPatch
        (setPhase backup BackupPhaseDeleting)
        backup)).call (env.StatusPatch
        (setPhase backup BackupPhaseDeleting)
        backup) = (none, w2)) :
    selectHandler env (setPhase backup BackupPhaseDeleting) = Handler.handleDeletingPhase ∧
    w2.trace = w.trace ++ [Event.statusPatch
      (setPhase backup BackupPhaseDeleting) backup] ∧
    Reconcile env w reqNs reqName = handleDeletingPhase env w2
      (setPhase backup BackupPhaseDeleting) := by
  have hsel : selectHandler env (setPhase backup BackupPhaseDeleting) = Handler.handleDeletingPhase := by
    simp only [selectHandler, setPhase]
    rw [if_neg (by decide), if_neg (by decide), if_neg (by decide), if_pos trivial]
  refine ⟨hsel, ?_, ?_⟩
  · have h1 : w1.trace = w.trace := by
      have h0 := World.call_trace w (env.GetBackup reqNs reqName)
      rw [hget] at h0
      exact h0
    have h2 := World.call_trace (w1.emit (Event.statusPatch
        (setPhase backup BackupPhaseDeleting)
        backup)) (env.StatusPatch
        (setPhase backup BackupPhaseDeleting)
        backup)
    rw [hpatch] at h2
    simpa [h1] using h2
  · unfold Reconcile
    rw [hget]
    have hcond : (!timeIsZero backup.deletionTimestamp &&
        backup.status.phase != BackupPhaseDeleting) = true := by
      simp [hdel, hphase]
    simp only [hskip, hcond, if_true, hpatch, hsel, runHandler]
    try simp

/-- Witness of the amended C7: the sample Backup with a deletion timestamp. -/
theorem Reconcile_deleting_witness :
    selectHandler deletingEnv (setPhase retainedBackup BackupPhaseDeleting) = Handler.handleDeletingPhase ∧
    (sampleWorld.emit (Event.statusPatch
      (setPhase retainedBackup BackupPhaseDeleting) retainedBackup)).trace
      = sampleWorld.trace ++ [Event.statusPatch
        (setPhase retainedBackup BackupPhaseDeleting) retainedBackup] ∧
    Reconcile deletingEnv sampleWorld "ns" "b" = handleDeletingPhase deletingEnv
      (sampleWorld.emit (Event.statusPatch
        (setPhase retainedBackup BackupPhaseDeleting) retainedBackup))
      (setPhase retainedBackup BackupPhaseDeleting) :=
  Reconcile_deleting deletingEnv sampleWorld sampleWorld _ "ns" "b" retainedBackup
    rfl rfl rfl (by decide) rfl

/-! ## Error classification -/

/-- C8 fails as stated: an error that is not the fatal error (a plain `fmt.Errorf`
value) also sets the phase to Failed, with its text as failure reason. -/
theorem updateStatusIfFailed_plain_error_fails :
    IsTargetError (Errorf "boom") ErrorType.fatal = false ∧
    runningBackup.status.phase = BackupPhaseRunning ∧
    (updateStatusIfFailed sampleEnv sampleWorld runningBackup runningBackup
      (Errorf "boom")).backup.status.phase = BackupPhaseFailed ∧
    (updateStatusIfFailed sampleEnv sampleWorld runningBackup runningBackup
      (Errorf "boom")).backup.status.failureReason = "boom" := by
  decide

theorem updateStatusIfFailed_cases {σ : Type} (env : Env σ) (w : World σ)
    (original backup : Backup) (err : Error) :
    (IsTargetError err ErrorType.requeue = true →
      updateStatusIfFailed env w original backup err =
        { result := Result.checkedRequeueWithError err "", backup := backup, world := w }) ∧
    (IsTargetError err ErrorType.requeue = false →
      (updateStatusIfFailed env w original backup err).backup =
        (SetExpirationTime env { backup with status := { backup.status with
          phase := BackupPhaseFailed, failureReason := err.msg } }).2 ∧
      (updateStatusIfFailed env w original backup err).backup.status.phase
        = BackupPhaseFailed ∧
      (updateStatusIfFailed env w original backup err).backup.status.failureReason
        = err.msg ∧
      (updateStatusIfFailed env w original backup err).world.trace =
        w.trace ++ [Event.warningEventForError backup err,
          Event.statusPatch (updateStatusIfFailed env w original backup err).backup original] ∧
      ∃ e : Error, (updateStatusIfFailed env w original backup err).result
        = Result.checkedRequeueWithError e "") := by
  constructor
  · intro h
    unfold updateStatusIfFailed
    rw [if_pos h]
  · intro h
    have hexp : ∀ b : Backup, (SetExpirationTime env b).2.status.phase = b.status.phase ∧
        (SetExpirationTime env b).2.status.failureReason = b.status.failureReason := by
      intro b
      unfold SetExpirationTime
      split <;> exact ⟨rfl, rfl⟩
    have hb : (updateStatusIfFailed env w original backup err).backup =
        (SetExpirationTime env { backup with status := { backup.status with
          phase := BackupPhaseFailed, failureReason := err.msg } }).2 := by
      unfold updateStatusIfFailed
      simp only [h, Bool.false_eq_true, if_false]
      split <;> rfl
    refine ⟨hb, ?_, ?_, ?_, ?_⟩
    · rw [hb]; exact (hexp _).1
    · rw [hb]; exact (hexp _).2
    · rw [hb]
      unfold updateStatusIfFailed
      simp only [h, Bool.false_eq_true, if_false]
      split
      · rename_i heq
        have ht := World.trace_of_call heq
        simp [ht]
      · rename_i heq
        have ht := World.trace_of_call heq
        simp [ht]
    · unfold updateStatusIfFailed
      simp only [h, Bool.false_eq_true, if_false]
      split
      · exact ⟨_, rfl⟩
      · exact ⟨_, rfl⟩

/-- C8 as amended: only an error of the requeue type leaves the status alone, and then
the pass just hands the error back without any effect; every other error (the fatal
error, and any plain error) sets the phase to Failed, records the error text, computes
the expiration and patches the status. -/
theorem updateStatusIfFailed_classification {σ : Type} (env : Env σ) (w : World σ)
    (original backup : Backup) (err : Error) :
    (IsTargetError err ErrorType.requeue = true →
      updateStatusIfFailed env w original backup err =
        { result := Result.checkedRequeueWithError err "", backup := backup, world := w }) ∧
    (IsTargetError err ErrorType.requeue = false →
      (updateStatusIfFailed env w original backup err).backup =
        (SetExpirationTime env { backup with status := { backup.status with
          phase := BackupPhaseFailed, failureReason := err.msg } }).2 ∧
      (updateStatusIfFailed env w original backup err).backup.status.phase
        = BackupPhaseFailed ∧
      (updateStatusIfFailed env w original backup err).backup.status.failureReason
        = err.msg ∧
      (updateStatusIfFailed env w original backup err).world.trace =
        w.trace ++ [Event.warningEventForError backup err,
          Event.statusPatch (updateStatusIfFailed env w original backup err).backup original] ∧
      ∃ e : Error, (updateStatusIfFailed env w original backup err).result
        = Result.checkedRequeueWithError e "") :=
  updateStatusIfFailed_cases env w original backup err

/-! ## Mode check of the request builder -/

theorem prepareBackupRequest_neither {σ : Type} (env : Env σ) (w w1 : World σ)
    (backup : Backup) (policy : BackupPolicy) (method : BackupMethod)
    (hpol : w.call (env.GetBackupPolicyByName backup.spec.backupPolicyName)
      = (Except.ok policy, w1))
    (havail : policy.phase ≠ UnavailablePhase)
    (hm : env.GetBackupMethodByName backup.spec.backupMethod policy = some method)
    (hsnap : IsSetToTrue method.snapshotVolumes = false)
    (hasn : method.actionSetName = "") :
    prepareBackupRequest env w backup =
      (Except.error (Errorf ("backup method " ++ method.name
        ++ " should specify snapshotVolumes or actionSetName")), w1) := by
  unfold prepareBackupRequest
  rw [hpol]
  simp only [havail, if_false, hm, hsnap, hasn]
  simp

/-- C9 fails as stated: a method with both `snapshotVolumes` true and an action-set name
is accepted; the request is built in snapshot mode with the action set bound. -/
theorem prepareBackupRequest_accepts_both_modes :
    IsSetToTrue bothMethod.snapshotVolumes = true ∧ bothMethod.actionSetName ≠ "" ∧
    errorOf (prepareBackupRequest bothEnv sampleWorld sampleBackup).1 = none ∧
    (prepareBackupRequest bothEnv sampleWorld sampleBackup).1.toOption.map
      (fun r => (r.backupMethod, r.snapshotVolumes, r.actionSet.map (fun a => a.name)))
      = some (bothMethod, true, some "as") := by
  decide

/-- C9 as amended: once the policy is found and usable and the method exists,
`prepareBackupRequest` returns the mode error and no Request for a method with neither
`snapshotVolumes` true nor an action-set name, and whenever it returns a Request at least
one of the two holds (both may hold). -/
theorem prepareBackupRequest_mode {σ : Type} (env : Env σ) (w w1 : World σ)
    (backup : Backup) (policy : BackupPolicy) (method : BackupMethod)
    (hpol : w.call (env.GetBackupPolicyByName backup.spec.backupPolicyName)
      = (Except.ok policy, w1))
    (havail : policy.phase ≠ UnavailablePhase)
    (hm : env.GetBackupMethodByName backup.spec.backupMethod policy = some method) :
    ((IsSetToTrue method.snapshotVolumes = false ∧ method.actionSetName = "") →
      prepareBackupRequest env w backup =
        (Except.error (Errorf ("backup method " ++ method.name
          ++ " should specify snapshotVolumes or actionSetName")), w1)) ∧
    (∀ (request : Request) (w2 : World σ),
      prepareBackupRequest env w backup = (Except.ok request, w2) →
      IsSetToTrue method.snapshotVolumes = true ∨ method.actionSetName ≠ "") := by
  refine ⟨fun h => prepareBackupRequest_neither env w w1 backup policy method hpol havail hm
    h.1 h.2, fun request w2 hok => ?_⟩
  by_cases hs : IsSetToTrue method.snapshotVolumes = true
  · exact Or.inl hs
  · right
    intro hasn
    have hs2 : IsSetToTrue method.snapshotVolumes = false := by simpa using hs
    rw [prepareBackupRequest_neither env w w1 backup policy method hpol havail hm hs2 hasn]
      at hok
    simp at hok

/-- Witness of the amended C9: the sample policy and its snapshot method. -/
theorem prepareBackupRequest_mode_witness :
    ((IsSetToTrue sampleMethod.snapshotVolumes = false ∧ sampleMethod.actionSetName = "") →
      prepareBackupRequest sampleEnv sampleWorld sampleBackup =
        (Except.error (Errorf ("backup method " ++ sampleMethod.name
          ++ " should specify snapshotVolumes or actionSetName")), sampleWorld)) ∧
    (∀ (request : Request) (w2 : World Unit),
      prepareBackupRequest sampleEnv sampleWorld sampleBackup = (Except.ok request, w2) →
      IsSetToTrue sampleMethod.snapshotVolumes = true ∨ sampleMethod.actionSetName ≠ "") :=
  prepareBackupRequest_mode sampleEnv sampleWorld sampleWorld sampleBackup samplePolicy
    sampleMethod rfl (by decide) rfl

/-- C10 fails as stated: the error returned for a method with neither mode is a plain
error, not the fatal error. -/
theorem prepareBackupRequest_mode_error_not_fatal :
    IsSetToTrue neitherMethod.snapshotVolumes = false ∧ neitherMethod.actionSetName = "" ∧
    errorOf (prepareBackupRequest neitherEnv sampleWorld sampleBackup).1 =
      some { etype := none, apiNotFound := false,
             msg := "backup method m should specify snapshotVolumes or actionSetName" } ∧
    (errorOf (prepareBackupRequest neitherEnv sampleWorld sampleBackup).1).map
      (fun e => IsTargetError e ErrorType.fatal) = some false := by
  decide

/-- C10 as amended: for a Backup in phase "" or New whose policy is found and not
Unavailable and whose named method has neither `snapshotVolumes` true nor an action-set
name, `prepareBackupRequest` returns the plain (untyped) error "backup method <name>
should specify snapshotVolumes or actionSetName"; the dispatch runs the New handler,
which sets the phase to Failed with that message as failure reason and patches the
status. -/
theorem handleNewPhase_mode_error {σ : Type} (env : Env σ) (w w1 : World σ)
    (backup : Backup) (policy : BackupPolicy) (method : BackupMethod)
    (hphase : backup.status.phase = "" ∨ backup.status.phase = BackupPhaseNew)
    (hpol : w.call (env.GetBackupPolicyByName backup.spec.backupPolicyName)
      = (Except.ok policy, w1))
    (havail : policy.phase ≠ UnavailablePhase)
    (hm : env.GetBackupMethodByName backup.spec.backupMethod policy = some method)
    (hsnap : IsSetToTrue method.snapshotVolumes = false)
    (hasn : method.actionSetName = "") :
    prepareBackupRequest env w backup =
      (Except.error { etype := none, apiNotFound := false,
                      msg := "backup method " ++ method.name
                        ++ " should specify snapshotVolumes or actionSetName" }, w1) ∧
    selectHandler env backup = Handler.handleNewPhase ∧
    (handleNewPhase env w backup).backup.status.phase = BackupPhaseFailed ∧
    (handleNewPhase env w backup).backup.status.failureReason =
      "backup method " ++ method.name ++ " should specify snapshotVolumes or actionSetName" ∧
    Event.statusPatch (handleNewPhase env w backup).backup backup
      ∈ (handleNewPhase env w backup).world.trace := by
  have hprep := prepareBackupRequest_neither env w w1 backup policy method hpol havail hm
    hsnap hasn
  have hnew : handleNewPhase env w backup = updateStatusIfFailed env w1 backup backup
      (Errorf ("backup method " ++ method.name
        ++ " should specify snapshotVolumes or actionSetName")) := by
    unfold handleNewPhase
    rw [hprep]
  have hcls := (updateStatusIfFailed_cases env w1 backup backup
    (Errorf ("backup method " ++ method.name
      ++ " should specify snapshotVolumes or actionSetName"))).2 rfl
  refine ⟨hprep, ?_, ?_, ?_, ?_⟩
  · unfold selectHandler
    rw [if_pos hphase]
  · rw [hnew]; exact hcls.2.1
  · rw [hnew]; exact hcls.2.2.1
  · rw [hnew, hcls.2.2.2.1]
    simp

/-- Witness of the amended C10: the sample Backup against the method with neither mode. -/
theorem handleNewPhase_mode_error_witness :
    prepareBackupRequest neitherEnv sampleWorld sampleBackup =
      (Except.error { etype := none, apiNotFound := false,
                      msg := "backup method " ++ neitherMethod.name
                        ++ " should specify snapshotVolumes or actionSetName" }, sampleWorld) ∧
    selectHandler neitherEnv sampleBackup = Handler.handleNewPhase ∧
    (handleNewPhase neitherEnv sampleWorld sampleBackup).backup.status.phase
      = BackupPhaseFailed ∧
    (handleNewPhase neitherEnv sampleWorld sampleBackup).backup.status.failureReason =
      "backup method " ++ neitherMethod.name
        ++ " should specify snapshotVolumes or actionSetName" ∧
    Event.statusPatch (handleNewPhase neitherEnv sampleWorld sampleBackup).backup sampleBackup
      ∈ (handleNewPhase neitherEnv sampleWorld sampleBackup).world.trace :=
  handleNewPhase_mode_error neitherEnv sampleWorld sampleWorld sampleBackup
    { samplePolicy with backupMethods := [neitherMethod] } neitherMethod
    (Or.inl rfl) rfl (by decide) rfl rfl rfl

/-! ## Broken lineage -/

theorem handleNewPhase_prepare_error {σ : Type} (env : Env σ) (w w1 : World σ)
    (backup : Backup) (err : Error)
    (hprep : prepareBackupRequest env w backup = (Except.error err, w1))
    (hreq : IsTargetError err ErrorType.requeue = false) :
    (handleNewPhase env w backup).backup.status.phase = BackupPhaseFailed ∧
    (handleNewPhase env w backup).backup.status.failureReason = err.msg ∧
    Event.statusPatch (handleNewPhase env w backup).backup backup
      ∈ (handleNewPhase env w backup).world.trace := by
  have hnew : handleNewPhase env w backup = updateStatusIfFailed env w1 backup backup err := by
    unfold handleNewPhase
    rw [hprep]
  have hcls := (updateStatusIfFailed_cases env w1 backup backup err).2 hreq
  refine ⟨?_, ?_, ?_⟩
  · rw [hnew]; exact hcls.2.1
  · rw [hnew]; exact hcls.2.2.1
  · rw [hnew, hcls.2.2.2.1]
    simp

/-- The request builder hands over to the lineage resolution when the policy is found
and usable, the method names an action set that is found and accepts the parameters, the
encryption check passes, the repository binding succeeds and the backup type is
Incremental. -/
theorem prepareBackupRequest_incremental {σ : Type} (env : Env σ) (w0 w1 w2 w3 w : World σ)
    (backup : Backup) (policy : BackupPolicy) (method : BackupMethod) (actionSet : ActionSet)
    (request : Request)
    (hpol : w0.call (env.GetBackupPolicyByName backup.spec.backupPolicyName)
      = (Except.ok policy, w1))
    (havail : policy.phase ≠ UnavailablePhase)
    (hm : env.GetBackupMethodByName backup.spec.backupMethod policy = some method)
    (hasn : method.actionSetName ≠ "")
    (has : w1.call (env.GetActionSetByName method.actionSetName) = (Except.ok actionSet, w2))
    (hval : env.ValidateParameters actionSet backup.spec.parameters = none)
    (henc : checkPolicyEncryption env w2 policy = (none, w3))
    (hbind : bindBackupRepo env w3 (newRequest backup policy method
      (IsSetToTrue method.snapshotVolumes) (some actionSet)) = (Except.ok request, w))
    (hinc : env.GetBackupType request = BackupTypeIncremental) :
    prepareBackupRequest env w0 backup = prepare4Incremental env w request := by
  have hasn2 : (method.actionSetName != "") = true := by simpa using hasn
  have hmode : (!IsSetToTrue method.snapshotVolumes && method.actionSetName = "") = false := by
    simp [hasn]
  unfold prepareBackupRequest
  rw [hpol]
  dsimp only
  rw [if_neg havail, hm]
  dsimp only
  simp only [hmode, Bool.false_eq_true, if_false, hasn2, if_true]
  rw [has]
  dsimp only
  rw [hval]
  dsimp only
  unfold prepareBackupRequestTail
  rw [henc]
  dsimp only
  rw [hbind]
  dsimp only
  rw [if_pos hinc]

/-- A built request has a parent only when the tail of the request builder has handed
over to the lineage resolution. -/
theorem prepareBackupRequestTail_parent {σ : Type} (env : Env σ) (w w5 : World σ)
    (backup : Backup) (policy : BackupPolicy) (method : BackupMethod)
    (snapshotVolumes : Bool) (actionSet : Option ActionSet) (request1 : Request) (P : Backup)
    (h : prepareBackupRequestTail env w backup policy method snapshotVolumes actionSet
      = (Except.ok request1, w5))
    (hP : request1.parentBackup = some P) :
    ∃ (w3 w4 : World σ) (request : Request),
      checkPolicyEncryption env w policy = (none, w3) ∧
      bindBackupRepo env w3 (newRequest backup policy method snapshotVolumes actionSet)
        = (Except.ok request, w4) ∧
      env.GetBackupType request = BackupTypeIncremental ∧
      prepare4Incremental env w4 request = (Except.ok request1, w5) := by
  have hb : ∀ (r0 r2 : Request) (wa wb : World σ),
      bindBackupRepo env wa r0 = (Except.ok r2, wb) → r2.parentBackup = r0.parentBackup := by
    intro r0 r2 wa wb hbind
    unfold bindBackupRepo at hbind
    repeat' split at hbind
    all_goals first
      | (cases hbind; rfl)
      | (simp only [Prod.mk.injEq, reduceCtorEq, false_and] at hbind)
  unfold prepareBackupRequestTail at h
  rcases henc : checkPolicyEncryption env w policy with ⟨oe, w3⟩
  rw [henc] at h
  cases oe with
  | some err => cases h
  | none =>
    dsimp only at h
    rcases hbind : bindBackupRepo env w3
      (newRequest backup policy method snapshotVolumes actionSet) with ⟨rb, w4⟩
    rw [hbind] at h
    cases rb with
    | error err => cases h
    | ok request =>
      dsimp only at h
      have hnone : request.parentBackup = none := hb _ _ _ _ hbind
      by_cases hinc : env.GetBackupType request = BackupTypeIncremental
      · rw [if_pos hinc] at h
        exact ⟨w3, w4, request, rfl, hbind, hinc, h⟩
      · rw [if_neg hinc] at h
        exfalso
        split at h
        · split at h
          · cases h
          · cases h
            rw [hnone] at hP
            cases hP
        · cases h
          rw [hnone] at hP
          cases hP

/-- The conditions of `prepareBackupRequest_incremental` are met by every Backup whose
built request has a parent: no other path resolves one. -/
theorem prepareBackupRequest_parent {σ : Type} (env : Env σ) (w0 w5 : World σ)
    (backup : Backup) (request1 : Request) (P : Backup)
    (hbuilt : prepareBackupRequest env w0 backup = (Except.ok request1, w5))
    (hP : request1.parentBackup = some P) :
    ∃ (w1 w2 w3 w : World σ) (policy : BackupPolicy) (method : BackupMethod)
        (actionSet : ActionSet) (request : Request),
      w0.call (env.GetBackupPolicyByName backup.spec.backupPolicyName)
        = (Except.ok policy, w1) ∧
      policy.phase ≠ UnavailablePhase ∧
      env.GetBackupMethodByName backup.spec.backupMethod policy = some method ∧
      method.actionSetName ≠ "" ∧
      w1.call (env.GetActionSetByName method.actionSetName) = (Except.ok actionSet, w2) ∧
      env.ValidateParameters actionSet backup.spec.parameters = none ∧
      checkPolicyEncryption env w2 policy = (none, w3) ∧
      bindBackupRepo env w3 (newRequest backup policy method
        (IsSetToTrue method.snapshotVolumes) (some actionSet)) = (Except.ok request, w) ∧
      env.GetBackupType request = BackupTypeIncremental ∧
      prepare4Incremental env w request = (Except.ok request1, w5) := by
  unfold prepareBackupRequest at hbuilt
  rcases hpol : w0.call (env.GetBackupPolicyByName backup.spec.backupPolicyName)
    with ⟨rp, w1⟩
  rw [hpol] at hbuilt
  cases rp with
  | error err => cases hbuilt
  | ok policy =>
    dsimp only at hbuilt
    by_cases havail : policy.phase = UnavailablePhase
    · rw [if_pos havail] at hbuilt
      cases hbuilt
    · rw [if_neg havail] at hbuilt
      cases hm : env.GetBackupMethodByName backup.spec.backupMethod policy with
      | none =>
        rw [hm] at hbuilt
        cases hbuilt
      | some method =>
        rw [hm] at hbuilt
        dsimp only at hbuilt
        by_cases hasn : method.actionSetName = ""
        · exfalso
          cases hsv : IsSetToTrue method.snapshotVolumes with
          | false =>
            simp only [hsv, hasn, Bool.not_false, decide_True, Bool.and_self, if_true] at hbuilt
            cases hbuilt
          | true =>
            simp only [hsv, hasn, Bool.not_true, Bool.false_and, Bool.false_eq_true, if_false,
              bne_self_eq_false] at hbuilt
            obtain ⟨w3, w4, request, _, hbind, _, hprep⟩ :=
              prepareBackupRequestTail_parent env w1 w5 backup policy method true none
                request1 P hbuilt hP
            have hrepo : request.backupRepo = none := by
              unfold bindBackupRepo at hbind
              simp only [newRequest, Bool.not_true, Bool.false_eq_true, if_false,
                Prod.mk.injEq, Except.ok.injEq] at hbind
              rw [← hbind.1]
            unfold prepare4Incremental at hprep
            rw [hrepo] at hprep
            cases hprep
        · have hasn2 : (method.actionSetName != "") = true := by simpa using hasn
          have hmode : (!IsSetToTrue method.snapshotVolumes && method.actionSetName = "")
              = false := by simp [hasn]
          simp only [hmode, Bool.false_eq_true, if_false, hasn2, if_true] at hbuilt
          rcases has : w1.call (env.GetActionSetByName method.actionSetName) with ⟨ra, w2⟩
          rw [has] at hbuilt
          cases ra with
          | error err => cases hbuilt
          | ok actionSet =>
            dsimp only at hbuilt
            cases hval : env.ValidateParameters actionSet backup.spec.parameters with
            | some err =>
              rw [hval] at hbuilt
              cases hbuilt
            | none =>
              rw [hval] at hbuilt
              dsimp only at hbuilt
              obtain ⟨w3, w4, request, henc, hbind, hinc, hprep⟩ :=
                prepareBackupRequestTail_parent env w2 w5 backup policy method _ _
                  request1 P hbuilt hP
              exact ⟨w1, w2, w3, w4, policy, method, actionSet, request, rfl, havail, hm,
                hasn, has, hval, henc, hbind, hinc, hprep⟩

/-- C11: when the resolved parent P of an incremental request is itself of type
Incremental and records an empty base name, `prepare4Incremental` returns the error
"backup <P.ns>/<P.name> base backup name is empty" and no Request; the message contains
P's namespace/name; and for every Backup whose request is built up to this lineage
resolution (policy found and usable, method with an action set that is found and accepts
the parameters, encryption check passed, repository bound, backup type Incremental) the
New pass sets the phase to Failed with that message as failure reason and patches the
status. -/
theorem prepare4Incremental_broken_chain {σ : Type} (env : Env σ) (w wa wb : World σ)
    (request : Request) (repo : BackupRepo) (P : Backup)
    (hrepo : request.backupRepo = some repo)
    (hpar : w.call (env.GetParentBackup request.backup request.backupMethod repo.name)
      = (Except.ok P, wa))
    (hty : wa.call (env.GetBackupTypeByMethodName P.spec.backupMethod request.backupPolicy)
      = (Except.ok BackupTypeIncremental, wb))
    (hbase : P.status.baseBackupName = "") :
    prepare4Incremental env w request =
      (Except.error { etype := none, apiNotFound := false,
                      msg := "backup " ++ P.ns ++ "/" ++ P.name
                        ++ " base backup name is empty" }, wb) ∧
    (∃ pre post : String,
      "backup " ++ P.ns ++ "/" ++ P.name ++ " base backup name is empty"
        = pre ++ (P.ns ++ "/" ++ P.name) ++ post) ∧
    ∀ (w0 w1 w2 w3 : World σ) (backup : Backup) (policy : BackupPolicy)
      (method : BackupMethod) (actionSet : ActionSet),
      w0.call (env.GetBackupPolicyByName backup.spec.backupPolicyName)
        = (Except.ok policy, w1) →
      policy.phase ≠ UnavailablePhase →
      env.GetBackupMethodByName backup.spec.backupMethod policy = some method →
      method.actionSetName ≠ "" →
      w1.call (env.GetActionSetByName method.actionSetName) = (Except.ok actionSet, w2) →
      env.ValidateParameters actionSet backup.spec.parameters = none →
      checkPolicyEncryption env w2 policy = (none, w3) →
      bindBackupRepo env w3 (newRequest backup policy method
        (IsSetToTrue method.snapshotVolumes) (some actionSet)) = (Except.ok request, w) →
      env.GetBackupType request = BackupTypeIncremental →
      prepareBackupRequest env w0 backup =
        (Except.error { etype := none, apiNotFound := false,
                        msg := "backup " ++ P.ns ++ "/" ++ P.name
                          ++ " base backup name is empty" }, wb) ∧
      (handleNewPhase env w0 backup).backup.status.phase = BackupPhaseFailed ∧
      (handleNewPhase env w0 backup).backup.status.failureReason
        = "backup " ++ P.ns ++ "/" ++ P.name ++ " base backup name is empty" ∧
      Event.statusPatch (handleNewPhase env w0 backup).backup backup
        ∈ (handleNewPhase env w0 backup).world.trace := by
  have hprep : prepare4Incremental env w request =
      (Except.error (Errorf ("backup " ++ P.ns ++ "/" ++ P.name
        ++ " base backup name is empty")), wb) := by
    unfold prepare4Incremental
    rw [hrepo]
    dsimp only
    rw [hpar]
    dsimp only
    rw [hty]
    dsimp only
    rw [if_neg (by decide), if_pos rfl, if_pos hbase]
  refine ⟨hprep, ⟨"backup ", " base backup name is empty", ?_⟩,
    fun w0 w1 w2 w3 backup policy method actionSet hpol havail hm hasn has hval henc hbind
      hinc => ?_⟩
  · simp [String.append_assoc]
  · have h := prepareBackupRequest_incremental env w0 w1 w2 w3 w backup policy method
      actionSet request hpol havail hm hasn has hval henc hbind hinc
    rw [hprep] at h
    exact ⟨h, handleNewPhase_prepare_error env w0 wb backup _ h rfl⟩

/-- Witness of C11: the sample Backup against the environment with a broken chain. -/
theorem prepare4Incremental_broken_chain_witness :
    prepare4Incremental brokenChainEnv sampleWorld brokenChainRequest =
      (Except.error { etype := none, apiNotFound := false,
                      msg := "backup " ++ orphanParent.ns ++ "/" ++ orphanParent.name
                        ++ " base backup name is empty" }, sampleWorld) ∧
    (∃ pre post : String,
      "backup " ++ orphanParent.ns ++ "/" ++ orphanParent.name ++ " base backup name is empty"
        = pre ++ (orphanParent.ns ++ "/" ++ orphanParent.name) ++ post) ∧
    (handleNewPhase brokenChainEnv sampleWorld sampleBackup).backup.status.phase
      = BackupPhaseFailed ∧
    (handleNewPhase brokenChainEnv sampleWorld sampleBackup).backup.status.failureReason
      = "backup ns/parent base backup name is empty" :=
  have h := prepare4Incremental_broken_chain brokenChainEnv sampleWorld sampleWorld sampleWorld
    brokenChainRequest sampleRepo orphanParent rfl rfl rfl rfl
  have hnew := h.2.2 sampleWorld sampleWorld sampleWorld sampleWorld sampleBackup
    { samplePolicy with backupMethods := [actionSetMethod] } actionSetMethod
    { name := "as", backupType := BackupTypeIncremental }
    rfl (by decide) rfl (by decide) rfl rfl rfl rfl rfl
  ⟨h.1, h.2.1, hnew.2.1, hnew.2.2.1⟩

/-! ## Continuous backups need a schedule -/

/-- C12 fails as stated: a Backup labelled with an Available schedule that has no entry
for the Backup's method (no entries at all) passes `validateContinuousBackup`. -/
theorem validateContinuousBackup_ignores_method :
    (validateContinuousBackup sampleEnv sampleWorld scheduledBackup).1 = none ∧
    (sampleEnv.GetBackupSchedule scheduledBackup.ns "sched" ()).1.toOption.map
      (fun sch => (sch.phase, sch.schedules.any
        (fun m => m.backupMethod == scheduledBackup.spec.backupMethod)))
      = some (BackupSchedulePhaseAvailable, false) := by
  decide

/-- C12 as amended: `validateContinuousBackup` returns no error exactly when the Backup
carries the backup-schedule label, the lookup of the BackupSchedule of that name in the
Backup's namespace succeeds, and that schedule is in the Available phase; in every other
case it returns an error.  Whether the schedule references the Backup's method is not
looked at. -/
theorem validateContinuousBackup_iff {σ : Type} (env : Env σ) (w : World σ)
    (backup : Backup) :
    (validateContinuousBackup env w backup).1 = none ↔
      ∃ (scheduleName : String) (backupSchedule : BackupSchedule),
        (entries backup.labels).lookup env.BackupScheduleLabelKey = some scheduleName ∧
        (w.call (env.GetBackupSchedule backup.ns scheduleName)).1
          = Except.ok backupSchedule ∧
        backupSchedule.phase = BackupSchedulePhaseAvailable := by
  unfold validateContinuousBackup
  cases hl : (entries backup.labels).lookup env.BackupScheduleLabelKey with
  | none => simp
  | some scheduleName =>
    dsimp only
    rcases hg : w.call (env.GetBackupSchedule backup.ns scheduleName) with ⟨r, w1⟩
    cases r with
    | error err => simp [hg]
    | ok backupSchedule =>
      dsimp only
      by_cases hp : backupSchedule.phase = BackupSchedulePhaseAvailable
      · simp [hp, hg]
      · simp [hp, hg]

/-! ## A failed repository deletion -/

/-- C13: when the repository deleter is reached and answers Failed with error e: if
`status.failureReason` already equals e's message, `deleteBackupFiles` returns nil with
the Backup untouched and logs nothing beyond the deleter call (no event, no status
patch); otherwise the Backup gets exactly e's message as `status.failureReason`, a
warning event is recorded and the status is patched.  In both cases the finalizers are
as before. -/
theorem deleteBackupFiles_failed {σ : Type} (env : Env σ) (w w1 w2 : World σ)
    (backup : Backup) (saName : String) (e : Error)
    (hsa : w.call (env.EnsureWorkerServiceAccount backup.ns) = (Except.ok saName, w1))
    (hdel : (w1.emit (Event.deleterDeleteBackupFiles backup)).call
      (env.DeleterDeleteBackupFiles saName backup) = ((DeletionStatusFailed, some e), w2)) :
    (backup.status.failureReason = e.msg →
      deleteBackupFiles env w backup = (GoErr.nil, backup, w2) ∧
      w2.trace = w.trace ++ [Event.deleterDeleteBackupFiles backup]) ∧
    (backup.status.failureReason ≠ e.msg →
      (deleteBackupFiles env w backup).2.1 =
        { backup with status := { backup.status with failureReason := e.msg } } ∧
      (deleteBackupFiles env w backup).2.2.trace = w.trace ++
        [Event.deleterDeleteBackupFiles backup,
         Event.recorderEvent
           { backup with status := { backup.status with failureReason := e.msg } }
           "Warning" "DeleteBackupFilesFailed" e.msg,
         Event.statusPatch
           { backup with status := { backup.status with failureReason := e.msg } } backup]) ∧
    (deleteBackupFiles env w backup).2.1.finalizers = backup.finalizers := by
  have ht1 : w1.trace = w.trace := World.trace_of_call hsa
  have ht2 : w2.trace = w.trace ++ [Event.deleterDeleteBackupFiles backup] := by
    have := World.trace_of_call hdel
    simpa [ht1] using this
  have hne : ¬ (DeletionStatusFailed = DeletionStatusSucceeded) := by decide
  unfold deleteBackupFiles
  rw [hsa]
  dsimp only
  rw [hdel]
  dsimp only
  rw [if_neg hne, if_pos rfl]
  refine ⟨fun h => ?_, fun h => ?_, ?_⟩
  · rw [if_pos h]
    exact ⟨rfl, ht2⟩
  · rw [if_neg h]
    exact ⟨rfl, by simp [ht2]⟩
  · split <;> rfl

/-- Witness of C13: the sample Backup, whose failure reason is empty, against a deleter
that fails with "disk full". -/
theorem deleteBackupFiles_failed_witness :
    (sampleBackup.status.failureReason = (Errorf "disk full").msg →
      deleteBackupFiles failedDeleterEnv sampleWorld sampleBackup
        = (GoErr.nil, sampleBackup,
           sampleWorld.emit (Event.deleterDeleteBackupFiles sampleBackup)) ∧
      (sampleWorld.emit (Event.deleterDeleteBackupFiles sampleBackup)).trace
        = sampleWorld.trace ++ [Event.deleterDeleteBackupFiles sampleBackup]) ∧
    (sampleBackup.status.failureReason ≠ (Errorf "disk full").msg →
      (deleteBackupFiles failedDeleterEnv sampleWorld sampleBackup).2.1 =
        { sampleBackup with status := { sampleBackup.status with
            failureReason := (Errorf "disk full").msg } } ∧
      (deleteBackupFiles failedDeleterEnv sampleWorld sampleBackup).2.2.trace
        = sampleWorld.trace ++
        [Event.deleterDeleteBackupFiles sampleBackup,
         Event.recorderEvent
           { sampleBackup with status := { sampleBackup.status with
               failureReason := (Errorf "disk full").msg } }
           "Warning" "DeleteBackupFilesFailed" (Errorf "disk full").msg,
         Event.statusPatch
           { sampleBackup with status := { sampleBackup.status with
               failureReason := (Errorf "disk full").msg } } sampleBackup]) ∧
    (deleteBackupFiles failedDeleterEnv sampleWorld sampleBackup).2.1.finalizers
      = sampleBackup.finalizers :=
  deleteBackupFiles_failed failedDeleterEnv sampleWorld sampleWorld
    (sampleWorld.emit (Event.deleterDeleteBackupFiles sampleBackup)) sampleBackup
    "kb-worker" (Errorf "disk full") rfl rfl

/-! ## Related backups -/

theorem deleteRelatedBackupsLoop_deleted {σ : Type} (env : Env σ) (backup : Backup) :
    ∀ (items : List Backup) (w : World σ),
      ∃ deleted : List Backup,
        (deleteRelatedBackupsLoop env backup items w).2.trace
          = w.trace ++ deleted.map Event.backgroundDeleteObject ∧
        deleted <+: items.filter (isRelatedTo backup) ∧
        ((deleteRelatedBackupsLoop env backup items w).1 = none →
          deleted = items.filter (isRelatedTo backup)) ∧
        (∀ e, (deleteRelatedBackupsLoop env backup items w).1 = some e →
          ∃ (pre : List Backup) (bp : Backup) (wx : World σ),
            deleted = pre ++ [bp] ∧
            (wx.emit (Event.backgroundDeleteObject bp)).call (env.BackgroundDeleteObject bp)
              = (some e, (deleteRelatedBackupsLoop env backup items w).2)) := by
  intro items
  induction items with
  | nil =>
    intro w
    exact ⟨[], by simp [deleteRelatedBackupsLoop], by simp, by simp,
      by simp [deleteRelatedBackupsLoop]⟩
  | cons bp rest ih =>
    intro w
    unfold deleteRelatedBackupsLoop
    by_cases hskip : (bp.status.parentBackupName != backup.name &&
        bp.status.baseBackupName != backup.name) = true
    · have hrel : isRelatedTo backup bp = false := by
        simp only [Bool.and_eq_true, bne_iff_ne, ne_eq] at hskip
        simp [isRelatedTo, hskip.1, hskip.2]
      rw [if_pos hskip]
      simpa [List.filter_cons, hrel] using ih w
    · have hrel : isRelatedTo backup bp = true := by
        simp only [Bool.and_eq_true, bne_iff_ne, ne_eq, not_and, not_not] at hskip
        simp only [isRelatedTo, Bool.or_eq_true, beq_iff_eq]
        by_cases hp : bp.status.parentBackupName = backup.name
        · exact Or.inl hp
        · exact Or.inr (hskip hp)
      rw [if_neg hskip]
      rcases hc : (w.emit (Event.backgroundDeleteObject bp)).call
        (env.BackgroundDeleteObject bp) with ⟨r, w1⟩
      have ht : w1.trace = w.trace ++ [Event.backgroundDeleteObject bp] := by
        have := World.trace_of_call hc
        simpa using this
      cases r with
      | some e =>
        refine ⟨[bp], by simp [ht], ?_, by simp, ?_⟩
        · simp [List.filter_cons, hrel]
        · intro e' he'
          simp only [Option.some.injEq] at he'
          subst he'
          exact ⟨[], bp, w, by simp, hc⟩
      | none =>
        dsimp only
        obtain ⟨deleted, h1, h2, h3, h4⟩ := ih w1
        refine ⟨bp :: deleted, ?_, ?_, ?_, ?_⟩
        · rw [h1, ht]; simp
        · simp only [List.filter_cons, hrel, if_true]
          exact (List.prefix_cons_inj bp).mpr h2
        · intro hn
          simp only [List.filter_cons, hrel, if_true]
          rw [h3 hn]
        · intro e he
          obtain ⟨pre, bq, wx, hd, hcall⟩ := h4 e he
          exact ⟨bp :: pre, bq, wx, by simp [hd], hcall⟩

/-- C15: `deleteRelatedBackups` lists the Backups of the namespace that carry the policy
label.  When the listing fails (other than not-found) it returns that error and deletes
nothing.  Otherwise the Backups it asks to delete in the background are, in list order,
a prefix of the listed Backups whose `parentBackupName` or `baseBackupName` equals this
Backup's name: all of them when it returns no error, and when it returns an error that
error is the answer to the last deletion asked for, after which nothing more happens.
A listed Backup with neither name equal is never deleted. -/
theorem deleteRelatedBackups_exact {σ : Type} (env : Env σ) (w : World σ) (backup : Backup) :
    (∀ e, (w.call (env.ListBackups backup.ns
        [(env.BackupPolicyLabelKey, backup.spec.backupPolicyName)])).1.1 = some e →
      e.apiNotFound = false →
      deleteRelatedBackups env w backup = (some e, (w.call (env.ListBackups backup.ns
        [(env.BackupPolicyLabelKey, backup.spec.backupPolicyName)])).2) ∧
      (deleteRelatedBackups env w backup).2.trace = w.trace) ∧
    ((∀ e, (w.call (env.ListBackups backup.ns
        [(env.BackupPolicyLabelKey, backup.spec.backupPolicyName)])).1.1 = some e →
      e.apiNotFound = true) →
      ∃ deleted : List Backup,
        (deleteRelatedBackups env w backup).2.trace
          = w.trace ++ deleted.map Event.backgroundDeleteObject ∧
        deleted <+: (w.call (env.ListBackups backup.ns
          [(env.BackupPolicyLabelKey, backup.spec.backupPolicyName)])).1.2.filter
            (isRelatedTo backup) ∧
        (∀ bp ∈ deleted, bp.status.parentBackupName = backup.name ∨
          bp.status.baseBackupName = backup.name) ∧
        ((deleteRelatedBackups env w backup).1 = none →
          deleted = (w.call (env.ListBackups backup.ns
            [(env.BackupPolicyLabelKey, backup.spec.backupPolicyName)])).1.2.filter
              (isRelatedTo backup)) ∧
        (∀ e, (deleteRelatedBackups env w backup).1 = some e →
          ∃ (pre : List Backup) (bp : Backup) (wx : World σ),
            deleted = pre ++ [bp] ∧
            (wx.emit (Event.backgroundDeleteObject bp)).call (env.BackgroundDeleteObject bp)
              = (some e, (deleteRelatedBackups env w backup).2))) := by
  unfold deleteRelatedBackups
  dsimp only
  rcases hl : w.call (env.ListBackups backup.ns
    [(env.BackupPolicyLabelKey, backup.spec.backupPolicyName)]) with ⟨⟨lerr, items⟩, w1⟩
  have ht : w1.trace = w.trace := World.trace_of_call hl
  have hloop := deleteRelatedBackupsLoop_deleted env backup items w1
  have hmem : ∀ deleted : List Backup, deleted <+: items.filter (isRelatedTo backup) →
      ∀ bp ∈ deleted, bp.status.parentBackupName = backup.name ∨
        bp.status.baseBackupName = backup.name := by
    intro deleted hpre bp hbp
    have h1 := List.mem_filter.mp (hpre.subset hbp)
    simpa [isRelatedTo] using h1.2
  cases lerr with
  | none =>
    dsimp only
    refine ⟨by simp, fun _ => ?_⟩
    obtain ⟨deleted, h1, h2, h3, h4⟩ := hloop
    exact ⟨deleted, by rw [h1, ht], h2, hmem deleted h2, h3, h4⟩
  | some e =>
    dsimp only
    constructor
    · intro e' he' hnf
      simp only [Option.some.injEq] at he'
      subst he'
      simp [hnf, ht]
    · intro hnf
      have hnf' : e.apiNotFound = true := hnf e rfl
      rw [if_pos hnf']
      obtain ⟨deleted, h1, h2, h3, h4⟩ := hloop
      exact ⟨deleted, by rw [h1, ht], h2, hmem deleted h2, h3, h4⟩

/-- Witness of C15: of the two listed Backups only `child`, whose parent is the sample
Backup, is deleted. -/
theorem deleteRelatedBackups_exact_witness :
    (deleteRelatedBackups listingEnv sampleWorld sampleBackup).2.trace
      = [Event.backgroundDeleteObject
          { sampleBackup with
            name := "child",
            status := { sampleBackup.status with
              parentBackupName := "b", baseBackupName := "root" } }] ∧
    ∃ deleted : List Backup,
      (deleteRelatedBackups listingEnv sampleWorld sampleBackup).2.trace
        = sampleWorld.trace ++ deleted.map Event.backgroundDeleteObject ∧
      deleted <+: (sampleWorld.call (listingEnv.ListBackups sampleBackup.ns
        [(listingEnv.BackupPolicyLabelKey, sampleBackup.spec.backupPolicyName)])).1.2.filter
          (isRelatedTo sampleBackup) ∧
      (∀ bp ∈ deleted, bp.status.parentBackupName = sampleBackup.name ∨
        bp.status.baseBackupName = sampleBackup.name) ∧
      ((deleteRelatedBackups listingEnv sampleWorld sampleBackup).1 = none →
        deleted = (sampleWorld.call (listingEnv.ListBackups sampleBackup.ns
          [(listingEnv.BackupPolicyLabelKey, sampleBackup.spec.backupPolicyName)])).1.2.filter
            (isRelatedTo sampleBackup)) ∧
      (∀ e, (deleteRelatedBackups listingEnv sampleWorld sampleBackup).1 = some e →
        ∃ (pre : List Backup) (bp : Backup) (wx : World Unit),
          deleted = pre ++ [bp] ∧
          (wx.emit (Event.backgroundDeleteObject bp)).call
            (listingEnv.BackgroundDeleteObject bp)
            = (some e, (deleteRelatedBackups listingEnv sampleWorld sampleBackup).2)) :=
  ⟨by decide,
   (deleteRelatedBackups_exact listingEnv sampleWorld sampleBackup).2
     (fun e h => Option.noConfusion (show (none : Option Error) = some e from h))⟩

/-! ## Order of the deletion steps -/

theorem deleteBackupFiles_extends {σ : Type} (env : Env σ) (w : World σ) (backup : Backup) :
    AddsOnly (fun _ => true) w (deleteBackupFiles env w backup).2.2 := by
  unfold deleteBackupFiles
  split
  · rename_i heq
    exact AddsOnly.of_call heq
  · rename_i heq
    split
    · rename_i heq2
      have a2 := (AddsOnly.of_call heq).trans
        (AddsOnly.of_emit_call (p := fun _ => true) heq2 rfl)
      split
      · exact a2.trans (AddsOnly.emit_call _ _ _ rfl)
      · split
        · split
          · exact a2
          · dsimp only
            split
            · exact a2
            · exact (a2.trans (AddsOnly.emit _ _ rfl)).trans (AddsOnly.emit_call _ _ _ rfl)
        · exact a2

theorem waitForBackupPodsDeleted_eq {σ : Type} (env : Env σ) (w : World σ) (backup : Backup) :
    waitForBackupPodsDeleted env w backup =
      (match (w.call (env.ListPods backup.ns [(env.BackupNameLabelKey, backup.name)])).1 with
        | Except.error err => Except.error err
        | Except.ok items => Except.ok (items.length == 0),
       (w.call (env.ListPods backup.ns [(env.BackupNameLabelKey, backup.name)])).2) := by
  unfold waitForBackupPodsDeleted
  rcases h : w.call (env.ListPods backup.ns [(env.BackupNameLabelKey, backup.name)])
    with ⟨r, w1⟩
  cases r <;> rfl

/-- C14: in a deleting pass a call of the repository deleter is logged only if related
backup deletion and external workload deletion returned no error, the policy is not
Retain, the pod query answered with no pod, and the snapshot deletion returned no error;
the call then comes after the snapshot deletion in the log.  Whenever the pod query
(made after the workloads are deleted) answers with at least one pod, the pass logs no
snapshot deletion, no repository deleter call and no patch of the object, and the
Backup, with its finalizers, is as before. -/
theorem handleDeletingPhase_order {σ : Type} (env : Env σ) (w : World σ) (backup : Backup) :
    ∃ evs : List Event,
      (handleDeletingPhase env w backup).world.trace = w.trace ++ evs ∧
      ((∃ e ∈ evs, e.isDeleteBackupFiles = true) →
        (deleteRelatedBackups env w backup).1 = none ∧
        (deleteExternalResources env (deleteRelatedBackups env w backup).2 backup).1 = none ∧
        backup.spec.deletionPolicy ≠ BackupDeletionPolicyRetain ∧
        (podQuery env w backup).1 = Except.ok [] ∧
        (deleteVolumeSnapshots env (podQuery env w backup).2 backup).1 = none ∧
        ∃ pre post : List Event,
          evs = pre ++ Event.deleterDeleteVolumeSnapshots backup :: post ∧
          ∀ e ∈ pre, e.isDeleteBackupFiles = false) ∧
      (∀ pods : List Pod, (podQuery env w backup).1 = Except.ok pods → pods ≠ [] →
        (handleDeletingPhase env w backup).backup = backup ∧
        ∀ e ∈ evs, e.isDeleteVolumeSnapshots = false ∧ e.isDeleteBackupFiles = false ∧
          e.isPatch = false) := by
  -- events that delete nothing of the backup data
  have quiet : ∀ (w' : World σ),
      AddsOnly (fun e => !e.isDeleteVolumeSnapshots && !e.isDeleteBackupFiles && !e.isPatch)
        w w' →
      ∃ evs : List Event, w'.trace = w.trace ++ evs ∧
        (∀ e ∈ evs, e.isDeleteVolumeSnapshots = false ∧ e.isDeleteBackupFiles = false ∧
          e.isPatch = false) := by
    intro w' h
    obtain ⟨evs, h1, h2⟩ := h
    refine ⟨evs, h1, fun e he => ?_⟩
    have := h2 e he
    simpa [Bool.and_eq_true, and_assoc] using this
  have early : ∀ (w' : World σ) (b : Backup) (C : List Event → Prop) (H : List Pod → Prop),
      b = backup →
      AddsOnly (fun e => !e.isDeleteVolumeSnapshots && !e.isDeleteBackupFiles && !e.isPatch)
        w w' →
      ∃ evs : List Event, w'.trace = w.trace ++ evs ∧
        ((∃ e ∈ evs, e.isDeleteBackupFiles = true) → C evs) ∧
        (∀ pods : List Pod, H pods → pods ≠ [] →
          b = backup ∧
          ∀ e ∈ evs, e.isDeleteVolumeSnapshots = false ∧ e.isDeleteBackupFiles = false ∧
            e.isPatch = false) := by
    intro w' b C H hb h
    obtain ⟨evs, h1, h2⟩ := quiet w' h
    refine ⟨evs, h1, ?_, fun _ _ _ => ⟨hb, h2⟩⟩
    rintro ⟨e, he, hd⟩
    rw [(h2 e he).2.1] at hd
    exact absurd hd (by decide)
  have a1 := deleteRelatedBackups_addsOnly env w backup
    (fun e => !e.isDeleteVolumeSnapshots && !e.isDeleteBackupFiles && !e.isPatch)
    (fun _ => rfl)
  have a2 := deleteExternalResources_addsOnly env (deleteRelatedBackups env w backup).2 backup
    (fun e => !e.isDeleteVolumeSnapshots && !e.isDeleteBackupFiles && !e.isPatch)
    (fun _ _ _ => rfl)
  have a3 : AddsOnly
      (fun e => !e.isDeleteVolumeSnapshots && !e.isDeleteBackupFiles && !e.isPatch)
      w (podQuery env w backup).2 :=
    (a1.trans a2).trans (AddsOnly.call _ _ _)
  have hq : waitForBackupPodsDeleted env (worldAfterWorkloads env w backup) backup =
      (match (podQuery env w backup).1 with
        | Except.error err => Except.error err
        | Except.ok items => Except.ok (items.length == 0),
       (podQuery env w backup).2) :=
    waitForBackupPodsDeleted_eq env _ backup
  unfold handleDeletingPhase
  rcases h1 : deleteRelatedBackups env w backup with ⟨r1, w1⟩
  rw [h1] at a1 a2
  cases r1 with
  | some err => exact early w1 _ _ _ rfl a1
  | none =>
    dsimp only
    rcases h2 : deleteExternalResources env w1 backup with ⟨r2, w2⟩
    rw [h2] at a2
    have hw2 : worldAfterWorkloads env w backup = w2 := by
      simp [worldAfterWorkloads, h1, h2]
    cases r2 with
    | some err => exact early w2 _ _ _ rfl (a1.trans a2)
    | none =>
      dsimp only
      by_cases hret : backup.spec.deletionPolicy = BackupDeletionPolicyRetain
      · rw [if_pos hret]
        exact early _ _ _ _ rfl ((a1.trans a2).trans (AddsOnly.emit _ _ rfl))
      · rw [if_neg hret]
        rw [hw2] at hq
        rw [hq]
        rcases h3 : podQuery env w backup with ⟨r3, w3⟩
        rw [h3] at a3
        cases r3 with
        | error err => exact early w3 _ _ _ rfl a3
        | ok items =>
          dsimp only
          by_cases hempty : (items.length == 0) = true
          · have hnil : items = [] := by
              simpa [List.length_eq_zero] using hempty
            rw [hempty]
            dsimp only
            rcases h4 : deleteVolumeSnapshots env w3 backup with ⟨r4, w4⟩
            have ht4 : w4.trace = w3.trace ++ [Event.deleterDeleteVolumeSnapshots backup] := by
              have h := h4
              unfold deleteVolumeSnapshots at h
              have := World.trace_of_call h
              simpa using this
            obtain ⟨e3, he3, hp3⟩ := quiet w3 a3
            have nopods : ∀ (P : Prop) (pods : List Pod), items = pods → pods ≠ [] → P := by
              intro P pods hp hne
              rw [← hp, hnil] at hne
              exact absurd rfl hne
            cases r4 with
            | some err =>
              dsimp only
              refine ⟨e3 ++ [Event.deleterDeleteVolumeSnapshots backup],
                by rw [ht4, he3, List.append_assoc], ?_, fun pods hp hne =>
                  nopods _ pods (by simpa using hp) hne⟩
              rintro ⟨e, he, hd⟩
              rcases List.mem_append.mp he with h | h
              · rw [(hp3 e h).2.1] at hd; exact absurd hd (by decide)
              · simp only [List.mem_singleton] at h
                subst h
                exact absurd hd (by simp [Event.isDeleteBackupFiles])
            | none =>
              dsimp only
              obtain ⟨evsF, hF, _⟩ := deleteBackupFiles_extends env w4 backup
              have htr : (deleteBackupFiles env w4 backup).2.2.trace
                  = w.trace ++ (e3 ++ Event.deleterDeleteVolumeSnapshots backup :: evsF) := by
                rw [hF, ht4, he3]
                simp
              rcases h5 : deleteBackupFiles env w4 backup with ⟨r5, b5, w5⟩
              rw [h5] at htr
              have fin : ∀ (b : Backup), ∃ evs : List Event,
                  w5.trace = w.trace ++ evs ∧
                  ((∃ e ∈ evs, e.isDeleteBackupFiles = true) →
                    (none : Option Error) = none ∧ (none : Option Error) = none ∧
                    backup.spec.deletionPolicy ≠ BackupDeletionPolicyRetain ∧
                    (Except.ok items : Except Error (List Pod)) = Except.ok [] ∧
                    (none : Option Error) = none ∧
                    ∃ pre post : List Event,
                      evs = pre ++ Event.deleterDeleteVolumeSnapshots backup :: post ∧
                      ∀ e ∈ pre, e.isDeleteBackupFiles = false) ∧
                  (∀ pods : List Pod,
                    (Except.ok items : Except Error (List Pod)) = Except.ok pods →
                    pods ≠ [] →
                    b = backup ∧
                    ∀ e ∈ evs, e.isDeleteVolumeSnapshots = false ∧
                      e.isDeleteBackupFiles = false ∧ e.isPatch = false) := by
                intro b
                exact ⟨_, htr, fun _ => ⟨rfl, rfl, hret, by rw [hnil], rfl, e3, evsF, rfl,
                  fun e he => (hp3 e he).2.1⟩, fun pods hp hne =>
                    nopods _ pods (by simpa using hp) hne⟩
              cases r5 with
              | nil => exact fin _
              | err e => exact fin _
              | panic => exact fin _
          · have hfalse : (items.length == 0) = false := by simpa using hempty
            rw [hfalse]
            exact early w3 _ _ _ rfl a3

/-! ## What a merge keeps of the existing entry -/

theorem mergedEntry_name (marker : String) (entry status : ActionStatus) :
    (mergedEntry marker entry status).name = status.name := by
  unfold mergedEntry
  cases entry.startTimestamp <;>
    by_cases h : HasPrefix entry.failureReason marker = true <;> simp [h]

theorem mergedEntry_failureReason (marker : String) (entry status : ActionStatus) :
    (mergedEntry marker entry status).failureReason =
      if HasPrefix entry.failureReason marker then entry.failureReason
      else status.failureReason := by
  unfold mergedEntry
  cases entry.startTimestamp <;>
    by_cases h : HasPrefix entry.failureReason marker = true <;> simp [h]

theorem mergeActionStatusLoop_exist (marker : String) (status : ActionStatus) :
    ∀ (actions : List ActionStatus), (∃ a ∈ actions, a.name = status.name) →
      (mergeActionStatusLoop marker status actions).2 = true := by
  intro actions
  induction actions with
  | nil => intro h; simp at h
  | cons a rest ih =>
    intro h
    unfold mergeActionStatusLoop
    by_cases ha : a.name = status.name
    · rw [if_pos ha]
    · rw [if_neg ha]
      apply ih
      obtain ⟨b, hb, hn⟩ := h
      rcases List.mem_cons.mp hb with h1 | h1
      · subst h1; exact absurd hn ha
      · exact ⟨b, h1, hn⟩

theorem mergeActionStatusLoop_keeps_start (marker : String) (status : ActionStatus) :
    ∀ (actions : List ActionStatus) (i : Nat) (entry : ActionStatus) (t : Time),
      actions[i]? = some entry → entry.name = status.name →
      entry.startTimestamp = some t →
      ∃ merged : ActionStatus,
        (mergeActionStatusLoop marker status actions).1[i]? = some merged ∧
        merged.name = status.name ∧ merged.startTimestamp = some t := by
  intro actions
  induction actions with
  | nil => intro i entry t h; simp at h
  | cons a rest ih =>
    intro i entry t hget hname hstart
    unfold mergeActionStatusLoop
    by_cases ha : a.name = status.name
    · rw [if_pos ha]
      cases i with
      | zero =>
        simp only [List.getElem?_cons_zero, Option.some.injEq] at hget
        subst hget
        refine ⟨mergedEntry marker a status, by simp, mergedEntry_name _ _ _, ?_⟩
        rw [mergedEntry_startTimestamp, hstart]
      | succ k =>
        simp only [List.getElem?_cons_succ] at hget
        exact ⟨entry, by simpa using hget, hname, hstart⟩
    · rw [if_neg ha]
      cases i with
      | zero =>
        simp only [List.getElem?_cons_zero, Option.some.injEq] at hget
        subst hget
        exact absurd hname ha
      | succ k =>
        simp only [List.getElem?_cons_succ] at hget
        obtain ⟨merged, h1, h2, h3⟩ := ih k entry t hget hname hstart
        exact ⟨merged, by simpa using h1, h2, h3⟩

theorem mergeActionStatus_actions_of_split {σ : Type} (env : Env σ) (w : World σ)
    (request : Request) (status entry : ActionStatus) (pre post : List ActionStatus)
    (hsplit : request.backup.status.actions = pre ++ entry :: post)
    (hpre : ∀ a ∈ pre, a.name ≠ status.name) (hname : entry.name = status.name) :
    (mergeActionStatus env w request status).1.backup.status.actions
      = pre ++ mergedEntry env.LogCollectorOutput entry status :: post := by
  have h := mergeActionStatusLoop_split env.LogCollectorOutput status entry post hname pre hpre
  unfold mergeActionStatus
  rw [hsplit, h]
  simp only [if_true, setActions]

/-- C18: after `mergeActionStatus`, every entry that carried the new status's name n and
a recorded start instant t still sits at its position with name n and start instant t,
whatever the new status's own start instant; and when the entry that is merged (the
first of that name) has no start instant, the merged entry takes the new status's. -/
theorem mergeActionStatus_startTimestamp {σ : Type} (env : Env σ) (w : World σ)
    (request : Request) (status : ActionStatus) :
    (∀ (i : Nat) (entry : ActionStatus) (t : Time),
      request.backup.status.actions[i]? = some entry → entry.name = status.name →
      entry.startTimestamp = some t →
      ∃ merged : ActionStatus,
        (mergeActionStatus env w request status).1.backup.status.actions[i]? = some merged ∧
        merged.name = status.name ∧ merged.startTimestamp = some t) ∧
    (∀ (pre post : List ActionStatus) (entry : ActionStatus),
      request.backup.status.actions = pre ++ entry :: post →
      (∀ a ∈ pre, a.name ≠ status.name) → entry.name = status.name →
      entry.startTimestamp = none →
      ∃ merged : ActionStatus,
        (mergeActionStatus env w request status).1.backup.status.actions
          = pre ++ merged :: post ∧
        merged.startTimestamp = status.startTimestamp) := by
  constructor
  · intro i entry t hget hname hstart
    have hex : (mergeActionStatusLoop env.LogCollectorOutput status
        request.backup.status.actions).2 = true :=
      mergeActionStatusLoop_exist _ _ _ ⟨entry, List.getElem?_mem hget, hname⟩
    obtain ⟨merged, h1, h2, h3⟩ := mergeActionStatusLoop_keeps_start env.LogCollectorOutput
      status request.backup.status.actions i entry t hget hname hstart
    refine ⟨merged, ?_, h2, h3⟩
    unfold mergeActionStatus
    rw [if_pos hex]
    exact h1
  · intro pre post entry hsplit hpre hname hstart
    refine ⟨mergedEntry env.LogCollectorOutput entry status,
      mergeActionStatus_actions_of_split env w request status entry pre post hsplit hpre hname,
      ?_⟩
    rw [mergedEntry_startTimestamp, hstart]

/-- Witness of C18: the entry started at instant 3 keeps it against a report started at
instant 7, and the entry without a start instant takes instant 7. -/
theorem mergeActionStatus_startTimestamp_witness :
    (∃ merged : ActionStatus,
      (mergeActionStatus sampleEnv sampleWorld (setActions incrementalRequest [collectedAction])
        laterStatus).1.backup.status.actions[0]? = some merged ∧
      merged.name = laterStatus.name ∧ merged.startTimestamp = some 3) ∧
    (∃ merged : ActionStatus,
      (mergeActionStatus sampleEnv sampleWorld (setActions incrementalRequest [doneAction])
        laterStatus).1.backup.status.actions = [] ++ merged :: [] ∧
      merged.startTimestamp = laterStatus.startTimestamp) :=
  ⟨(mergeActionStatus_startTimestamp sampleEnv sampleWorld
      (setActions incrementalRequest [collectedAction]) laterStatus).1 0 collectedAction 3
      rfl rfl rfl,
   (mergeActionStatus_startTimestamp sampleEnv sampleWorld
      (setActions incrementalRequest [doneAction]) laterStatus).2 [] [] doneAction
      rfl (by simp) rfl rfl⟩

/-- C19: when a new status is merged into the existing entry of its name (the first of
that name), the merged entry's failure reason is the existing one if that begins with the
log-collector marker, whatever the new status's failure reason; otherwise it is the new
status's failure reason. -/
theorem mergeActionStatus_failureReason {σ : Type} (env : Env σ) (w : World σ)
    (request : Request) (status entry : ActionStatus) (pre post : List ActionStatus)
    (hsplit : request.backup.status.actions = pre ++ entry :: post)
    (hpre : ∀ a ∈ pre, a.name ≠ status.name) (hname : entry.name = status.name) :
    ∃ merged : ActionStatus,
      (mergeActionStatus env w request status).1.backup.status.actions
        = pre ++ merged :: post ∧
      (HasPrefix entry.failureReason env.LogCollectorOutput = true →
        merged.failureReason = entry.failureReason) ∧
      (HasPrefix entry.failureReason env.LogCollectorOutput = false →
        merged.failureReason = status.failureReason) := by
  refine ⟨mergedEntry env.LogCollectorOutput entry status,
    mergeActionStatus_actions_of_split env w request status entry pre post hsplit hpre hname,
    fun h => ?_, fun h => ?_⟩
  · rw [mergedEntry_failureReason, if_pos h]
  · rw [mergedEntry_failureReason, h]; simp

/-- Witness of C19: the entry with a log-collector diagnostic keeps it. -/
theorem mergeActionStatus_failureReason_witness :
    HasPrefix collectedAction.failureReason sampleEnv.LogCollectorOutput = true ∧
    ∃ merged : ActionStatus,
      (mergeActionStatus sampleEnv sampleWorld (setActions incrementalRequest [collectedAction])
        laterStatus).1.backup.status.actions = [] ++ merged :: [] ∧
      (HasPrefix collectedAction.failureReason sampleEnv.LogCollectorOutput = true →
        merged.failureReason = collectedAction.failureReason) ∧
      (HasPrefix collectedAction.failureReason sampleEnv.LogCollectorOutput = false →
        merged.failureReason = laterStatus.failureReason) :=
  ⟨by decide,
   mergeActionStatus_failureReason sampleEnv sampleWorld
     (setActions incrementalRequest [collectedAction]) laterStatus collectedAction [] []
     rfl (by simp) rfl⟩

/-! ## Aggregating sizes and time ranges -/

theorem aggregate_foldl (actions : List ActionStatus) :
    ∀ (acc : BackupStatus),
      actions.foldl (fun (st : BackupStatus) (act : ActionStatus) =>
        let st1 : BackupStatus :=
          if act.totalSize != "" && st.totalSize == "" then { st with totalSize := act.totalSize }
          else st
        if act.timeRange.isSome && st1.timeRange.isNone then
          { st1 with timeRange := act.timeRange }
        else st1) acc =
      { acc with
        totalSize := (if acc.totalSize = "" then firstTotalSize actions else acc.totalSize),
        timeRange := (if acc.timeRange = none then firstTimeRange actions
                      else acc.timeRange) } := by
  induction actions with
  | nil =>
    intro acc
    cases hr : acc.timeRange <;> by_cases hs : acc.totalSize = "" <;>
      simp [firstTotalSize, firstTimeRange, hr, hs] <;>
      (cases acc; simp_all)
  | cons a rest ih =>
    intro acc
    rw [List.foldl_cons, ih]
    by_cases hs : acc.totalSize = "" <;> by_cases ha : a.totalSize = "" <;>
      cases hr : acc.timeRange <;> cases har : a.timeRange <;>
      simp [firstTotalSize, firstTimeRange, List.find?_cons, hs, ha, hr, har]

theorem updateBackupStatusByActionStatus_eq (st : BackupStatus) :
    updateBackupStatusByActionStatus st =
      { st with
        totalSize := (if st.totalSize = "" then firstTotalSize st.actions else st.totalSize),
        timeRange := (if st.timeRange = none then firstTimeRange st.actions
                      else st.timeRange) } := by
  unfold updateBackupStatusByActionStatus
  exact aggregate_foldl st.actions st

theorem firstTotalSize_split (pre post : List ActionStatus) (a : ActionStatus)
    (hpre : ∀ b ∈ pre, b.totalSize = "") (ha : a.totalSize ≠ "") :
    firstTotalSize (pre ++ a :: post) = a.totalSize := by
  induction pre with
  | nil => simp [firstTotalSize, List.find?_cons, ha]
  | cons b rest ih =>
    have hb : b.totalSize = "" := hpre b (List.mem_cons_self _ _)
    have := ih (fun c hc => hpre c (List.mem_cons_of_mem _ hc))
    simpa [firstTotalSize, List.find?_cons, hb] using this

theorem firstTotalSize_none (actions : List ActionStatus)
    (h : ∀ b ∈ actions, b.totalSize = "") : firstTotalSize actions = "" := by
  induction actions with
  | nil => simp [firstTotalSize]
  | cons b rest ih =>
    have hb : b.totalSize = "" := h b (List.mem_cons_self _ _)
    have := ih (fun c hc => h c (List.mem_cons_of_mem _ hc))
    simpa [firstTotalSize, List.find?_cons, hb] using this

theorem firstTimeRange_split (pre post : List ActionStatus) (a : ActionStatus)
    (hpre : ∀ b ∈ pre, b.timeRange = none) (ha : a.timeRange ≠ none) :
    firstTimeRange (pre ++ a :: post) = a.timeRange := by
  have ha2 : a.timeRange.isSome = true := Option.isSome_iff_ne_none.mpr ha
  induction pre with
  | nil => simp [firstTimeRange, List.find?_cons, ha2]
  | cons b rest ih =>
    have hb : b.timeRange = none := hpre b (List.mem_cons_self _ _)
    have := ih (fun c hc => hpre c (List.mem_cons_of_mem _ hc))
    simpa [firstTimeRange, List.find?_cons, hb] using this

theorem firstTimeRange_none (actions : List ActionStatus)
    (h : ∀ b ∈ actions, b.timeRange = none) : firstTimeRange actions = none := by
  induction actions with
  | nil => simp [firstTimeRange]
  | cons b rest ih =>
    have hb : b.timeRange = none := h b (List.mem_cons_self _ _)
    have := ih (fun c hc => h c (List.mem_cons_of_mem _ hc))
    simpa [firstTimeRange, List.find?_cons, hb] using this

/-- C20: `updateBackupStatusByActionStatus` leaves an aggregate total size or time range
that is set as it is; an unset total size (time range) becomes that of the first action in
list order that has one, and stays unset when no action has one; no other field of the
status changes; and applying it twice gives what applying it once gives. -/
theorem updateBackupStatusByActionStatus_spec (st : BackupStatus) :
    (st.totalSize ≠ "" → (updateBackupStatusByActionStatus st).totalSize = st.totalSize) ∧
    (st.timeRange ≠ none → (updateBackupStatusByActionStatus st).timeRange = st.timeRange) ∧
    (∀ (pre post : List ActionStatus) (a : ActionStatus),
      st.totalSize = "" → st.actions = pre ++ a :: post →
      (∀ b ∈ pre, b.totalSize = "") → a.totalSize ≠ "" →
      (updateBackupStatusByActionStatus st).totalSize = a.totalSize) ∧
    (∀ (pre post : List ActionStatus) (a : ActionStatus),
      st.timeRange = none → st.actions = pre ++ a :: post →
      (∀ b ∈ pre, b.timeRange = none) → a.timeRange ≠ none →
      (updateBackupStatusByActionStatus st).timeRange = a.timeRange) ∧
    (st.totalSize = "" → (∀ b ∈ st.actions, b.totalSize = "") →
      (updateBackupStatusByActionStatus st).totalSize = "") ∧
    (st.timeRange = none → (∀ b ∈ st.actions, b.timeRange = none) →
      (updateBackupStatusByActionStatus st).timeRange = none) ∧
    updateBackupStatusByActionStatus st =
      { st with totalSize := (updateBackupStatusByActionStatus st).totalSize,
                timeRange := (updateBackupStatusByActionStatus st).timeRange } ∧
    updateBackupStatusByActionStatus (updateBackupStatusByActionStatus st)
      = updateBackupStatusByActionStatus st := by
  have heq := updateBackupStatusByActionStatus_eq st
  refine ⟨?_, ?_, ?_, ?_, ?_, ?_, ?_, ?_⟩
  · intro h; rw [heq]; simp [h]
  · intro h; rw [heq]; simp [h]
  · intro pre post a hs hsplit hpre ha
    rw [heq, hsplit]
    simp only [hs, if_true]
    exact firstTotalSize_split pre post a hpre ha
  · intro pre post a hr hsplit hpre ha
    rw [heq, hsplit]
    simp only [hr, if_true]
    exact firstTimeRange_split pre post a hpre ha
  · intro hs hall
    rw [heq]
    simp only [hs, if_true]
    exact firstTotalSize_none _ hall
  · intro hr hall
    rw [heq]
    simp only [hr, if_true]
    exact firstTimeRange_none _ hall
  · rw [heq]
  · rw [updateBackupStatusByActionStatus_eq (updateBackupStatusByActionStatus st), heq]
    by_cases hs : st.totalSize = "" <;> cases hr : st.timeRange <;>
      by_cases hf : firstTotalSize st.actions = "" <;>
      cases hg : firstTimeRange st.actions <;> simp [hs, hr, hf, hg]

/-! ## The end of a Running-phase pass -/

theorem tmod_second (d : Int) :
    (0 ≤ d → Int.tmod d 1000000000 = d % 1000000000) ∧
    (d < 0 → Int.tmod d 1000000000 = -((-d) % 1000000000)) := by
  constructor
  · intro h
    exact Int.tmod_eq_emod h (by decide)
  · intro h
    have h1 : (-(-d)).tdiv 1000000000 = -((-d).tdiv 1000000000) := Int.neg_tdiv (-d) 1000000000
    have h2 : (-d).tdiv 1000000000 = (-d) / 1000000000 :=
      Int.tdiv_eq_ediv (by omega) (by decide)
    rw [neg_neg] at h1
    rw [Int.tmod_def, h1, h2]
    omega

theorem durationRound_neg (d : Int) (hd : d < 0) (hlo : -9223372036000000000 ≤ d) :
    durationRound d 1000000000 =
      if (-d) % 1000000000 + (-d) % 1000000000 < 1000000000 then d + (-d) % 1000000000
      else d - 1000000000 + (-d) % 1000000000 := by
  unfold durationRound
  rw [if_neg (by decide : ¬ ((1000000000 : Int) ≤ 0))]
  simp only [(tmod_second d).2 hd, hd, if_true, neg_neg]
  by_cases hc : (-d) % 1000000000 + (-d) % 1000000000 < (1000000000 : Int)
  · rw [if_pos hc, if_pos hc]
  · rw [if_neg hc, if_neg hc, if_pos]
    show (-9223372036854775808 : Int) ≤ d - 1000000000 + (-d) % 1000000000
    omega

theorem durationRound_nonneg (d : Int) (hd : 0 ≤ d) (hhi : d ≤ 9223372036000000000) :
    durationRound d 1000000000 =
      if d % 1000000000 + d % 1000000000 < 1000000000 then d - d % 1000000000
      else d + 1000000000 - d % 1000000000 := by
  unfold durationRound
  rw [if_neg (by decide : ¬ ((1000000000 : Int) ≤ 0))]
  have hd1 : ¬ d < 0 := by omega
  simp only [(tmod_second d).1 hd, hd1, if_false]
  by_cases hc : d % 1000000000 + d % 1000000000 < (1000000000 : Int)
  · rw [if_pos hc, if_pos hc]
  · rw [if_neg hc, if_neg hc, if_pos]
    show d + 1000000000 - d % 1000000000 ≤ (9223372036854775807 : Int)
    omega

theorem durationRound_second (d : Int) (hlo : -9223372036000000000 ≤ d)
    (hhi : d ≤ 9223372036000000000) :
    ∃ r : Int, durationRound d 1000000000 = r ∧ r % 1000000000 = 0 ∧
      -500000000 ≤ r - d ∧ r - d ≤ 500000000 ∧
      (0 ≤ d → d % 1000000000 = 500000000 → r = d + 500000000) ∧
      (d < 0 → (-d) % 1000000000 = 500000000 → r = d - 500000000) := by
  by_cases hd : d < 0
  · refine ⟨_, durationRound_neg d hd hlo, ?_⟩
    split <;> omega
  · refine ⟨_, durationRound_nonneg d (by omega) hhi, ?_⟩
    split <;> omega

theorem timeSub_exact (t u : Int) (hlo : -9223372036000000000 ≤ t - u)
    (hhi : t - u ≤ 9223372036000000000) : timeSub t u = t - u := by
  unfold timeSub
  simp only
  rw [if_pos]
  constructor
  · show (-9223372036854775808 : Int) ≤ t - u
    omega
  · show t - u ≤ (9223372036854775807 : Int)
    omega

theorem SetExpirationTime_frame {σ : Type} (env : Env σ) (b : Backup) :
    ∃ t, (SetExpirationTime env b).2 = { b with status := { b.status with expiration := t } } := by
  unfold SetExpirationTime
  split
  · exact ⟨b.status.expiration, rfl⟩
  · exact ⟨_, rfl⟩

theorem updateStatusIfFailed_keeps {σ : Type} (env : Env σ) (w : World σ)
    (original backup : Backup) (err : Error) :
    (updateStatusIfFailed env w original backup err).backup.status.duration
      = backup.status.duration ∧
    (updateStatusIfFailed env w original backup err).backup.status.completionTimestamp
      = backup.status.completionTimestamp := by
  cases hreq : IsTargetError err ErrorType.requeue
  · have h := ((updateStatusIfFailed_cases env w original backup err).2 hreq).1
    obtain ⟨t, ht⟩ := SetExpirationTime_frame env { backup with status := { backup.status with
          phase := BackupPhaseFailed, failureReason := err.msg } }
    rw [h, ht]
    exact ⟨rfl, rfl⟩
  · have h := (updateStatusIfFailed_cases env w original backup err).1 hreq
    rw [h]
    exact ⟨rfl, rfl⟩

theorem patchRunning_backup {σ : Type} (env : Env σ) (w : World σ) (obj original : Backup) :
    (patchRunning env w obj original).backup = obj := by
  unfold patchRunning
  split <;> rfl

/-- The completion branch of `finishRunning`: the Backup it returns. -/
theorem finishRunning_completes {σ : Type} (env : Env σ) (backup : Backup) (st : RunState σ)
    (now : Time) (w1 : World σ) (hw : st.waiting = false) (hf : st.existFailedAction = false)
    (hnow : st.world.call env.Now = (now, w1)) :
    (finishRunning env backup st).backup.status.completionTimestamp = some now ∧
    (finishRunning env backup st).backup.status.duration =
      (setDuration st.request.backup
        (completionDuration st.request.backup.status.startTimestamp now)).status.duration ∧
    ((∀ b, (SetExpirationTime env b).1 = none) →
      (finishRunning env backup st).backup.status.phase = BackupPhaseCompleted) := by
  unfold finishRunning
  simp only [hw, hf, hnow, Bool.false_eq_true, if_false]
  have hd : ∀ (b : Backup) (d : Option Duration) (ph : String) (c : Option Time),
      (setDuration { b with status := { b.status with phase := ph, completionTimestamp := c } }
        d).status.duration = (setDuration b d).status.duration ∧
      (setDuration { b with status := { b.status with phase := ph, completionTimestamp := c } }
        d).status.completionTimestamp = c ∧
      (setDuration { b with status := { b.status with phase := ph, completionTimestamp := c } }
        d).status.phase = ph := by
    intro b d ph c
    cases d <;> exact ⟨rfl, rfl, rfl⟩
  obtain ⟨hd1, hd2, hd3⟩ := hd st.request.backup
    (completionDuration st.request.backup.status.startTimestamp now) BackupPhaseCompleted
    (some now)
  generalize hb2 : setDuration { st.request.backup with status := { st.request.backup.status with
      phase := BackupPhaseCompleted, completionTimestamp := some now } }
      (completionDuration st.request.backup.status.startTimestamp now) = b2 at hd1 hd2 hd3 ⊢
  obtain ⟨t, ht⟩ := SetExpirationTime_frame env b2
  rcases hs : SetExpirationTime env b2 with ⟨e, b3⟩
  rw [hs] at ht
  dsimp only at ht
  subst ht
  cases e with
  | some err =>
    dsimp only
    have hk := updateStatusIfFailed_keeps env w1 backup
      { b2 with status := { b2.status with expiration := t } }
      (Errorf ("failed to set expiration time, " ++ err.msg))
    refine ⟨by rw [hk.2]; exact hd2, by rw [hk.1]; exact hd1, ?_⟩
    intro hall
    have := hall b2
    rw [hs] at this
    exact absurd this (by simp)
  | none =>
    dsimp only
    rw [patchRunning_backup]
    exact ⟨hd2, hd1, fun _ => hd3⟩

/-- C17, as stated, fails: for a Backup started one second after the zero instant and
completed in the year 2026 the pass completes the Backup and writes the largest
`Duration`, which is no multiple of a second and is far from the exact difference. -/
theorem handleRunningPhase_duration_saturates :
    (handleRunningPhase farFutureEnv sampleWorld ancientBackup).backup.status.phase
      = BackupPhaseCompleted ∧
    ancientBackup.status.startTimestamp = some 1000000000 ∧
    (handleRunningPhase farFutureEnv sampleWorld ancientBackup).backup.status.completionTimestamp
      = some 63900000000000000000 ∧
    (handleRunningPhase farFutureEnv sampleWorld ancientBackup).backup.status.duration
      = some 9223372036854775807 ∧
    (9223372036854775807 : Int) % 1000000000 = 854775807 ∧
    (63900000000000000000 - 1000000000 : Int) - 9223372036854775807 > 500000000 := by
  decide

/-- C17 (amended): when the end of a Running-phase pass completes the Backup at instant
`now` (no action failed, none is running), the completion instant is `now`, and the phase
is Completed when the expiration time computes.  If the start instant is set, is not the
zero instant, and lies within 9223372036 seconds of `now`, the duration written is a
multiple of 10^9 nanoseconds that differs from `now - start` by at most 5*10^8, an exact
half being rounded away from zero.  If the start instant is unset or is the zero instant,
the duration is left as it was. -/
theorem finishRunning_duration {σ : Type} (env : Env σ) (backup : Backup) (st : RunState σ)
    (now : Int) (w1 : World σ) (hw : st.waiting = false) (hf : st.existFailedAction = false)
    (hnow : st.world.call env.Now = (now, w1)) :
    (finishRunning env backup st).backup.status.completionTimestamp = some now ∧
    ((∀ b, (SetExpirationTime env b).1 = none) →
      (finishRunning env backup st).backup.status.phase = BackupPhaseCompleted) ∧
    (∀ start : Int, st.request.backup.status.startTimestamp = some start → start ≠ 0 →
      -9223372036000000000 ≤ now - start → now - start ≤ 9223372036000000000 →
      ∃ d : Int, (finishRunning env backup st).backup.status.duration = some d ∧
        d % 1000000000 = 0 ∧
        -500000000 ≤ d - (now - start) ∧ d - (now - start) ≤ 500000000 ∧
        (0 ≤ now - start → (now - start) % 1000000000 = 500000000 →
          d = now - start + 500000000) ∧
        (now - start < 0 → (-(now - start)) % 1000000000 = 500000000 →
          d = now - start - 500000000)) ∧
    (timeIsZero st.request.backup.status.startTimestamp = true →
      (finishRunning env backup st).backup.status.duration
        = st.request.backup.status.duration) := by
  obtain ⟨hc, hd, hp⟩ := finishRunning_completes env backup st now w1 hw hf hnow
  refine ⟨hc, hp, ?_, ?_⟩
  · intro start hs hne hlo hhi
    obtain ⟨r, hr, hrest⟩ := durationRound_second (now - start) hlo hhi
    refine ⟨r, ?_, hrest⟩
    rw [hd, hs]
    have hz : timeIsZero (some start) = false := by
      simp [timeIsZero, hne]
    simp only [completionDuration, hz, Bool.not_false, if_true, setDuration]
    rw [timeSub_exact now start hlo hhi]
    exact congrArg some hr
  · intro hz
    rw [hd]
    cases hs : st.request.backup.status.startTimestamp with
    | none => rfl
    | some t =>
      rw [hs] at hz
      simp only [completionDuration, hz, Bool.not_true, setDuration]
      rfl

/-- Witness of C17: the sample Backup started at instant 400 and completed at instant
1000 gets a whole number of seconds as its duration. -/
theorem finishRunning_duration_witness :
    ∃ d : Int, (finishRunning sampleEnv runningBackup finishedRunState).backup.status.duration
        = some d ∧
      d % 1000000000 = 0 ∧
      -500000000 ≤ d - (1000 - 400) ∧ d - (1000 - 400) ≤ 500000000 ∧
      (0 ≤ (1000 : Int) - 400 → ((1000 : Int) - 400) % 1000000000 = 500000000 →
        d = 1000 - 400 + 500000000) ∧
      ((1000 : Int) - 400 < 0 → (-((1000 : Int) - 400)) % 1000000000 = 500000000 →
        d = 1000 - 400 - 500000000) :=
  (finishRunning_duration sampleEnv runningBackup finishedRunState 1000 sampleWorld
    rfl rfl rfl).2.2.1 400 rfl (by decide) (by decide) (by decide)

/-! ## Running and failed actions in one pass -/

theorem phase_mem_cons {a x : String} {l : List String} (h : ¬ a = x) :
    a ∈ x :: l ↔ a ∈ l := by
  simp [h]

theorem mergeActionStatus_phase {σ : Type} (env : Env σ) (w : World σ) (request : Request)
    (status : ActionStatus) :
    (mergeActionStatus env w request status).1.backup.status.phase
      = request.backup.status.phase := by
  unfold mergeActionStatus
  split <;> rfl

theorem runPodActions_flags {σ : Type} (env : Env σ) (backup : Backup) (pod : String)
    (acts : List Action) :
    ∀ (st st1 : RunState σ), runPodActions env backup pod acts st = Except.ok st1 →
      (st1.waiting = true ↔
        st.waiting = true ∨ ActionPhaseRunning ∈ podReports env pod acts st) ∧
      (st1.existFailedAction = true ↔
        st.existFailedAction = true ∨ ActionPhaseFailed ∈ podReports env pod acts st) ∧
      st1.request.backup.status.phase = st.request.backup.status.phase := by
  induction acts with
  | nil =>
    intro st st1 h
    unfold runPodActions at h
    cases h
    simp [podReports]
  | cons act rest ih =>
    intro st st1 h
    unfold runPodActions at h
    unfold podReports
    generalize (st.world.emit (Event.execute act pod)).call (env.Execute act) = p at h ⊢
    rcases p with ⟨r, w1⟩
    cases r with
    | error err => cases h
    | ok status0 =>
      dsimp only at h ⊢
      have hm := mergeActionStatus_phase env w1 st.request { status0 with targetPodName := pod }
      generalize mergeActionStatus env w1 st.request { status0 with targetPodName := pod }
        = q at h hm ⊢
      rcases q with ⟨request1, w2⟩
      dsimp only at h hm ⊢
      by_cases h1 : status0.phase = ActionPhaseCompleted
      · rw [if_pos h1] at h ⊢
        obtain ⟨a, b, c⟩ := ih _ _ h
        dsimp only at a b c
        refine ⟨?_, ?_, ?_⟩
        · rw [a, h1, phase_mem_cons (by decide)]
        · rw [b, h1, phase_mem_cons (by decide)]
        · rw [c]
          show (updateBackupStatusByActionStatus request1.backup.status).phase = _
          rw [updateBackupStatusByActionStatus_eq]
          exact hm
      · rw [if_neg h1] at h ⊢
        by_cases h2 : status0.phase = ActionPhaseFailed
        · rw [if_pos h2] at h ⊢
          cases h
          refine ⟨?_, ?_, hm⟩
          · rw [h2, phase_mem_cons (by decide)]; simp
          · rw [h2]; simp
        · rw [if_neg h2] at h ⊢
          by_cases h3 : status0.phase = ActionPhaseRunning
          · rw [if_pos h3] at h ⊢
            cases h
            refine ⟨?_, ?_, hm⟩
            · rw [h3]; simp
            · rw [h3, phase_mem_cons (by decide)]; simp
          · rw [if_neg h3] at h ⊢
            obtain ⟨a, b, c⟩ := ih _ _ h
            dsimp only at a b c
            refine ⟨?_, ?_, ?_⟩
            · rw [a, phase_mem_cons (fun x => h3 x.symm)]
            · rw [b, phase_mem_cons (fun x => h2 x.symm)]
            · rw [c]; exact hm

theorem runActions_flags {σ : Type} (env : Env σ) (backup : Backup)
    (entries : List (String × List Action)) :
    ∀ (st st1 : RunState σ), runActions env backup entries st = Except.ok st1 →
      (st1.waiting = true ↔
        st.waiting = true ∨ ActionPhaseRunning ∈ actionsReports env backup entries st) ∧
      (st1.existFailedAction = true ↔
        st.existFailedAction = true ∨
          ActionPhaseFailed ∈ actionsReports env backup entries st) ∧
      st1.request.backup.status.phase = st.request.backup.status.phase := by
  induction entries with
  | nil =>
    intro st st1 h
    unfold runActions at h
    cases h
    simp [actionsReports]
  | cons entry rest ih =>
    intro st st1 h
    unfold runActions at h
    unfold actionsReports
    have hp := runPodActions_flags env backup entry.1 entry.2 st
    generalize runPodActions env backup entry.1 entry.2 st = p at h hp ⊢
    cases p with
    | error out => cases h
    | ok st2 =>
      dsimp only at h ⊢
      obtain ⟨a, b, c⟩ := hp st2 rfl
      obtain ⟨a1, b1, c1⟩ := ih _ _ h
      refine ⟨?_, ?_, ?_⟩
      · rw [a1, a, List.mem_append, or_assoc]
      · rw [b1, b, List.mem_append, or_assoc]
      · rw [c1, c]

theorem runTargets_flags {σ : Type} (env : Env σ) (backup : Backup)
    (targets : List BackupTarget) :
    ∀ (st st1 : RunState σ), runTargets env backup targets st = Except.ok st1 →
      (st1.waiting = true ↔
        st.waiting = true ∨ ActionPhaseRunning ∈ targetsReports env backup targets st) ∧
      (st1.existFailedAction = true ↔
        st.existFailedAction = true ∨
          ActionPhaseFailed ∈ targetsReports env backup targets st) ∧
      st1.request.backup.status.phase = st.request.backup.status.phase := by
  induction targets with
  | nil =>
    intro st st1 h
    unfold runTargets at h
    cases h
    simp [targetsReports]
  | cons target rest ih =>
    intro st st1 h
    unfold runTargets at h
    unfold targetsReports
    have hb := prepareRequestTargetInfo_backup env st.world st.request target
    generalize prepareRequestTargetInfo env st.world st.request target = p at h hb ⊢
    rcases p with ⟨e, request1, w1⟩
    cases e with
    | panic => cases h
    | err e => cases h
    | nil =>
      dsimp only at h hb ⊢
      generalize w1.call (env.BuildActions request1) = q at h ⊢
      rcases q with ⟨r, w2⟩
      cases r with
      | error err => cases h
      | ok actions =>
        dsimp only at h ⊢
        have hp := runActions_flags env backup actions
          { request := request1, existFailedAction := st.existFailedAction,
            waiting := st.waiting, world := w2 }
        generalize runActions env backup actions
          { request := request1, existFailedAction := st.existFailedAction,
            waiting := st.waiting, world := w2 } = p2 at h hp ⊢
        cases p2 with
        | error out => cases h
        | ok st2 =>
          dsimp only at h ⊢
          obtain ⟨a, b, c⟩ := hp st2 rfl
          obtain ⟨a1, b1, c1⟩ := ih _ _ h
          dsimp only at a b c
          refine ⟨?_, ?_, ?_⟩
          · rw [a1, a, List.mem_append, or_assoc]
          · rw [b1, b, List.mem_append, or_assoc]
          · rw [c1, c, hb]

theorem prepare4Incremental_backup {σ : Type} (env : Env σ) (w w1 : World σ)
    (request request1 : Request)
    (h : prepare4Incremental env w request = (Except.ok request1, w1)) :
    request1.backup = request.backup := by
  unfold prepare4Incremental at h
  repeat' (first | split at h | (dsimp only at h; split at h))
  all_goals first
    | (cases h; rfl)
    | (simp only [Prod.mk.injEq, reduceCtorEq, false_and] at h)

theorem prepareBackupRequestTail_backup {σ : Type} (env : Env σ) (w w1 : World σ)
    (backup : Backup) (backupPolicy : BackupPolicy) (backupMethod : BackupMethod)
    (snapshotVolumes : Bool) (actionSet : Option ActionSet) (request : Request)
    (h : prepareBackupRequestTail env w backup backupPolicy backupMethod snapshotVolumes
      actionSet = (Except.ok request, w1)) :
    request.backup = requestBackup backup := by
  unfold prepareBackupRequestTail at h
  split at h
  · cases h
  · dsimp only at h
    have hb : ∀ (r0 r2 : Request) (wa wb : World σ),
        bindBackupRepo env wa r0 = (Except.ok r2, wb) → r2.backup = r0.backup := by
      intro r0 r2 wa wb hbind
      unfold bindBackupRepo at hbind
      repeat' split at hbind
      all_goals first
        | (cases hbind; rfl)
        | (simp only [Prod.mk.injEq, reduceCtorEq, false_and] at hbind)
    split at h
    · cases h
    · rename_i request2 w2 hbind
      have hb2 : request2.backup = requestBackup backup := hb _ _ _ _ hbind
      split at h
      · rw [prepare4Incremental_backup env w2 w1 request2 request h, hb2]
      · split at h
        · split at h
          · cases h
          · cases h
            exact hb2
        · cases h
          exact hb2

theorem prepareBackupRequest_backup {σ : Type} (env : Env σ) (w w1 : World σ)
    (backup : Backup) (request : Request)
    (h : prepareBackupRequest env w backup = (Except.ok request, w1)) :
    request.backup = requestBackup backup := by
  unfold prepareBackupRequest at h
  repeat' (first | split at h | (dsimp only at h; split at h))
  all_goals first
    | exact prepareBackupRequestTail_backup env _ _ backup _ _ _ _ request h
    | (simp only [Prod.mk.injEq, reduceCtorEq, false_and] at h)

theorem patchRunning_trace {σ : Type} (env : Env σ) (w : World σ) (obj original : Backup) :
    (patchRunning env w obj original).world.trace
      = w.trace ++ [Event.statusPatch obj original] := by
  unfold patchRunning
  split
  · rename_i heq
    exact World.trace_of_call heq
  · rename_i heq
    exact World.trace_of_call heq

/-- The waiting branch of `finishRunning`. -/
theorem finishRunning_waiting {σ : Type} (env : Env σ) (backup : Backup) (st : RunState σ)
    (hw : st.waiting = true) :
    (finishRunning env backup st).backup.status.completionTimestamp = none ∧
    (finishRunning env backup st).backup.status.duration = none ∧
    ((∀ b, (SetExpirationTime env b).1 = none) →
      (finishRunning env backup st).backup.status.phase = st.request.backup.status.phase ∧
      Event.statusPatch (finishRunning env backup st).backup backup
        ∈ (finishRunning env backup st).world.trace) := by
  unfold finishRunning
  simp only [hw, if_true]
  obtain ⟨t, ht⟩ := SetExpirationTime_frame env { st.request.backup with
    status := { st.request.backup.status with completionTimestamp := none, duration := none } }
  rcases hs : SetExpirationTime env { st.request.backup with
    status := { st.request.backup.status with completionTimestamp := none, duration := none } }
    with ⟨e, b2⟩
  rw [hs] at ht
  dsimp only at ht
  subst ht
  cases e with
  | some err =>
    dsimp only
    have hk := updateStatusIfFailed_keeps env st.world backup
      { st.request.backup with status := { st.request.backup.status with
          completionTimestamp := none, duration := none, expiration := t } }
      (Errorf ("failed to set expiration time, " ++ err.msg))
    refine ⟨hk.2, hk.1, ?_⟩
    intro hall
    have := hall { st.request.backup with
      status := { st.request.backup.status with completionTimestamp := none, duration := none } }
    rw [hs] at this
    exact absurd this (by simp)
  | none =>
    dsimp only
    rw [patchRunning_backup, patchRunning_trace]
    exact ⟨rfl, rfl, fun _ => ⟨rfl, by simp⟩⟩

/-- The failed-actions branch of `finishRunning`. -/
theorem finishRunning_failed {σ : Type} (env : Env σ) (backup : Backup) (st : RunState σ)
    (hw : st.waiting = false) (hf : st.existFailedAction = true) :
    (finishRunning env backup st).backup.status.phase = BackupPhaseFailed ∧
    (finishRunning env backup st).backup.status.failureReason = failedActionsError.msg ∧
    Event.warningEventForError st.request.backup failedActionsError
      ∈ (finishRunning env backup st).world.trace := by
  have h : finishRunning env backup st
      = updateStatusIfFailed env st.world backup st.request.backup failedActionsError := by
    unfold finishRunning
    simp only [hw, hf, Bool.false_eq_true, if_false, if_true]
    rfl
  obtain ⟨_, h2, h3, h4, _⟩ := (updateStatusIfFailed_cases env st.world backup
    st.request.backup failedActionsError).2 (by decide)
  rw [h]
  refine ⟨h2, h3, ?_⟩
  rw [h4]
  simp

/-- C16, as stated, fails: the action of the first pod reports Running, the execution for
the second pod returns an error, and the pass sets the Backup, which was Running, to
Failed. -/
theorem handleRunningPhase_fails_while_running :
    runningBackup.status.phase = BackupPhaseRunning ∧
    (handleRunningPhase runningThenErrorEnv sampleWorld runningBackup).backup.status.actions.map
      (fun a => (a.name, a.phase)) = [("dump", ActionPhaseRunning)] ∧
    (handleRunningPhase runningThenErrorEnv sampleWorld runningBackup).backup.status.phase
      = BackupPhaseFailed ∧
    (handleRunningPhase runningThenErrorEnv sampleWorld runningBackup).backup.status.failureReason
      = "exec failed" := by
  decide

/-- C16 (amended): in a Running-phase pass that reaches the end of its loops (the request
is prepared, the encryption config is in sync, and no step of the loops returns an error),
with `reports` the phases the executed actions report: if some action reports Running,
the pass clears the completion instant and the duration and, when the expiration time
computes, leaves the phase as it was and patches the status, whether or not another
action reported Failed; if none reports Running and some action reports Failed, the
Backup is set to Failed with the failed-actions error; if none reports Running or Failed,
the Backup is completed when the expiration time computes. -/
theorem runBackup_partial_failure {σ : Type} (env : Env σ) (w w1 w2 : World σ)
    (backup backup1 : Backup) (request : Request) (st : RunState σ)
    (hprep : prepareBackupRequest env w backup = (Except.ok request, w1))
    (hsync : syncContinuousBackupEncryptionConfig env w1 backup request.backupPolicy
      = (none, backup1, w2))
    (hrun : runTargets env backup1
      (env.GetBackupTargets request.backupPolicy request.backupMethod)
      { request := request, existFailedAction := false, waiting := false, world := w2 }
      = Except.ok st) :
    (ActionPhaseRunning ∈ targetsReports env backup1
        (env.GetBackupTargets request.backupPolicy request.backupMethod)
        { request := request, existFailedAction := false, waiting := false, world := w2 } →
      (runBackup env w backup).backup.status.completionTimestamp = none ∧
      (runBackup env w backup).backup.status.duration = none ∧
      ((∀ b, (SetExpirationTime env b).1 = none) →
        (runBackup env w backup).backup.status.phase = backup.status.phase ∧
        Event.statusPatch (runBackup env w backup).backup backup1
          ∈ (runBackup env w backup).world.trace)) ∧
    (ActionPhaseRunning ∉ targetsReports env backup1
        (env.GetBackupTargets request.backupPolicy request.backupMethod)
        { request := request, existFailedAction := false, waiting := false, world := w2 } →
      ActionPhaseFailed ∈ targetsReports env backup1
        (env.GetBackupTargets request.backupPolicy request.backupMethod)
        { request := request, existFailedAction := false, waiting := false, world := w2 } →
      (runBackup env w backup).backup.status.phase = BackupPhaseFailed ∧
      (runBackup env w backup).backup.status.failureReason = failedActionsError.msg ∧
      Event.warningEventForError st.request.backup failedActionsError
        ∈ (runBackup env w backup).world.trace) ∧
    (ActionPhaseRunning ∉ targetsReports env backup1
        (env.GetBackupTargets request.backupPolicy request.backupMethod)
        { request := request, existFailedAction := false, waiting := false, world := w2 } →
      ActionPhaseFailed ∉ targetsReports env backup1
        (env.GetBackupTargets request.backupPolicy request.backupMethod)
        { request := request, existFailedAction := false, waiting := false, world := w2 } →
      (∀ b, (SetExpirationTime env b).1 = none) →
      (runBackup env w backup).backup.status.phase = BackupPhaseCompleted) := by
  have hout : runBackup env w backup = finishRunning env backup1 st := by
    unfold runBackup
    rw [hprep]
    dsimp only
    rw [hsync]
    dsimp only
    rw [hrun]
  obtain ⟨hwait, hfail, hphase⟩ := runTargets_flags env backup1 _ _ st hrun
  dsimp only at hwait hfail hphase
  have hreq := prepareBackupRequest_backup env w w1 backup request hprep
  rw [hout]
  refine ⟨?_, ?_, ?_⟩
  · intro hr
    have hw : st.waiting = true := hwait.2 (Or.inr hr)
    obtain ⟨a, b, c⟩ := finishRunning_waiting env backup1 st hw
    refine ⟨a, b, fun hexp => ?_⟩
    obtain ⟨c1, c2⟩ := c hexp
    exact ⟨by rw [c1, hphase, hreq]; rfl, c2⟩
  · intro hr hf
    have hw : st.waiting = false := by
      cases h : st.waiting
      · rfl
      · rcases hwait.1 h with x | x
        · exact absurd x (by simp)
        · exact absurd x hr
    exact finishRunning_failed env backup1 st hw (hfail.2 (Or.inr hf))
  · intro hr hf hexp
    have hw : st.waiting = false := by
      cases h : st.waiting
      · rfl
      · rcases hwait.1 h with x | x
        · exact absurd x (by simp)
        · exact absurd x hr
    have he : st.existFailedAction = false := by
      cases h : st.existFailedAction
      · rfl
      · rcases hfail.1 h with x | x
        · exact absurd x (by simp)
        · exact absurd x hf
    rcases hn : st.world.call env.Now with ⟨now, w3⟩
    exact (finishRunning_completes env backup1 st now w3 hw he hn).2.2 hexp

/-- Witness of C16: the action of the first pod reports Failed and the action of the
second reports Running; the pass leaves the sample Backup in phase Running. -/
theorem runBackup_partial_failure_witness :
    (runBackup failedAndRunningEnv sampleWorld runningBackup).backup.status.actions.map
      (fun a => (a.name, a.phase))
      = [("dump", ActionPhaseFailed), ("verify", ActionPhaseRunning)] ∧
    (runBackup failedAndRunningEnv sampleWorld runningBackup).backup.status.phase
      = runningBackup.status.phase :=
  ⟨by decide,
   (((runBackup_partial_failure failedAndRunningEnv sampleWorld _ _ runningBackup _ _ _
    rfl rfl rfl).1 (by decide)).2.2 (fun _ => rfl)).1⟩

/-! ## Failed backups in `Reconcile` -/

/-- C21 fails as stated: a Continuous backup in phase Failed, without deletion timestamp
and never started, that carries the skip-reconciliation annotation is not handed to the
New handling: the pass logs nothing, whereas the New handling would. -/
theorem Reconcile_skips_failed_continuous :
    skippedFailedBackup.status.phase = BackupPhaseFailed ∧
    skippedFailedBackup.deletionTimestamp = none ∧
    skippedFailedBackup.status.startTimestamp = none ∧
    labelOf skippedFailedBackup skippedFailedEnv.BackupTypeLabelKey = BackupTypeContinuous ∧
    (Reconcile skippedFailedEnv sampleWorld "ns" "b").result = Result.reconciled ∧
    (Reconcile skippedFailedEnv sampleWorld "ns" "b").backup = skippedFailedBackup ∧
    (Reconcile skippedFailedEnv sampleWorld "ns" "b").world.trace = [] ∧
    (handleNewPhase skippedFailedEnv sampleWorld skippedFailedBackup).world.trace ≠ [] ∧
    (handleNewPhase skippedFailedEnv sampleWorld skippedFailedBackup).backup
      ≠ skippedFailedBackup := by
  decide

/-- C21 as amended: for a fetched Backup in phase Failed with no deletion timestamp: if it
is annotated to skip reconciliation, or its backup-type label is not Continuous, the pass
runs no handler, returns the Backup as fetched and logs nothing; otherwise (Continuous, not
annotated) the pass is the New handling when `status.startTimestamp` is unset (nil or the
zero instant) and the Running handling when it is set. -/
theorem Reconcile_failed {σ : Type} (env : Env σ) (w w1 : World σ) (reqNs reqName : String)
    (backup : Backup)
    (hget : w.call (env.GetBackup reqNs reqName) = (Except.ok backup, w1))
    (hdel : timeIsZero backup.deletionTimestamp = true)
    (hph : backup.status.phase = BackupPhaseFailed) :
    ((skipReconciliation env backup = true ∨
        labelOf backup env.BackupTypeLabelKey ≠ BackupTypeContinuous) →
      Reconcile env w reqNs reqName
        = { result := Result.reconciled, backup := backup, world := w1 } ∧
      w1.trace = w.trace) ∧
    (skipReconciliation env backup = false →
      labelOf backup env.BackupTypeLabelKey = BackupTypeContinuous →
      (timeIsZero backup.status.startTimestamp = true →
        Reconcile env w reqNs reqName = handleNewPhase env w1 backup) ∧
      (timeIsZero backup.status.startTimestamp = false →
        Reconcile env w reqNs reqName = handleRunningPhase env w1 backup)) := by
  have hsel : selectHandler env backup =
      if labelOf backup env.BackupTypeLabelKey = BackupTypeContinuous then
        (if timeIsZero backup.status.startTimestamp then Handler.handleNewPhase
         else Handler.handleRunningPhase)
      else Handler.noHandler := by
    unfold selectHandler
    rw [hph]
    rw [if_neg (by decide), if_neg (by decide), if_neg (by decide), if_neg (by decide),
      if_pos rfl]
  have hrec : skipReconciliation env backup = false →
      Reconcile env w reqNs reqName = runHandler env w1 backup (selectHandler env backup) := by
    intro hskip
    unfold Reconcile
    rw [hget]
    simp only [hskip, hdel, Bool.false_eq_true, if_false, Bool.not_true, Bool.false_and]
  constructor
  · intro h
    refine ⟨?_, World.trace_of_call hget⟩
    cases hskip : skipReconciliation env backup
    · rcases h with h | h
      · rw [hskip] at h; exact absurd h (by simp)
      · rw [hrec hskip, hsel, if_neg h]
        rfl
    · unfold Reconcile
      rw [hget]
      simp only [hskip, if_true]
  · intro hskip hl
    constructor
    · intro hz
      rw [hrec hskip, hsel, if_pos hl, hz]
      rfl
    · intro hz
      rw [hrec hskip, hsel, if_pos hl, hz]
      rfl

/-- Witness of the amended C21: the failed Continuous backup, not annotated and never
started, is handed to the New handling. -/
theorem Reconcile_failed_witness :
    Reconcile failedContinuousEnv sampleWorld "ns" "b"
      = handleNewPhase failedContinuousEnv sampleWorld failedContinuousBackup :=
  ((Reconcile_failed failedContinuousEnv sampleWorld sampleWorld "ns" "b"
    failedContinuousBackup rfl rfl rfl).2 rfl rfl).1 rfl

/-! ## Target resolution -/

theorem prepareRequestTargetInfo_of_selection {σ : Type} (env : Env σ) (w : World σ)
    (request : Request) (target : BackupTarget) (selected : List String)
    (hsel : selectedPodsFor env request target = some selected) :
    prepareRequestTargetInfo env w request target
      = prepareRequestTargetPods env w request target selected := by
  unfold prepareRequestTargetInfo
  rw [hsel]

/-- C22: `prepareRequestTargetInfo` reaches target resolution unless the request has a
parent backup and the target has no pod selector (then the pass panics on the nil
dereference and nothing is handed over).  The selection it hands to `GetTargetPods` is the
Backup's own recorded selection for the target name when that is non-empty; otherwise the
parent's recorded selection for the same name when there is a parent, the target asks for
the parent's selection and that selection is non-empty; otherwise it is empty.  The answer
to the call made with this selection decides the result. -/
theorem prepareRequestTargetInfo_selection {σ : Type} (env : Env σ) (w : World σ)
    (request : Request) (target : BackupTarget) :
    (∀ own, env.GetBackupStatusTarget request.backup target.name = some own →
      own.selectedTargetPods ≠ [] →
      (request.parentBackup = none ∨ target.podSelector ≠ none) →
      selectedPodsFor env request target = some own.selectedTargetPods) ∧
    ((∀ own, env.GetBackupStatusTarget request.backup target.name = some own →
        own.selectedTargetPods = []) →
      (∀ parent selector recorded, request.parentBackup = some parent →
        target.podSelector = some selector →
        selector.useParentSelectedPods = true →
        env.GetBackupStatusTarget parent target.name = some recorded →
        recorded.selectedTargetPods ≠ [] →
        selectedPodsFor env request target = some recorded.selectedTargetPods) ∧
      (request.parentBackup = none → selectedPodsFor env request target = some []) ∧
      (∀ selector, target.podSelector = some selector →
        selector.useParentSelectedPods = false →
        selectedPodsFor env request target = some []) ∧
      (∀ parent selector, request.parentBackup = some parent →
        target.podSelector = some selector →
        (∀ recorded, env.GetBackupStatusTarget parent target.name = some recorded →
          recorded.selectedTargetPods = []) →
        selectedPodsFor env request target = some [])) ∧
    ((selectedPodsFor env request target = none ↔
        (request.parentBackup ≠ none ∧ target.podSelector = none)) ∧
      (selectedPodsFor env request target = none →
        prepareRequestTargetInfo env w request target = (GoErr.panic, request, w))) ∧
    (∀ selected err w1, selectedPodsFor env request target = some selected →
      w.call (env.GetTargetPods selected request.backupPolicy
        target (targetBackupType request)) = (Except.error err, w1) →
      prepareRequestTargetInfo env w request target
        = (GoErr.err err, { request with target := some target }, w1)) ∧
    (∀ selected pods w1, selectedPodsFor env request target = some selected →
      w.call (env.GetTargetPods selected request.backupPolicy
        target (targetBackupType request)) = (Except.ok pods, w1) →
      pods ≠ [] →
      (prepareRequestTargetInfo env w request target).2.1.targetPods = pods) := by
  refine ⟨?_, ?_, ⟨?_, ?_⟩, ?_, ?_⟩
  · intro own hown hne hreach
    unfold selectedPodsFor
    simp only [hown]
    have hlen : (own.selectedTargetPods.length == 0) = false := by
      cases h : own.selectedTargetPods with
      | nil => exact absurd h hne
      | cons a l => rfl
    cases hp : request.parentBackup with
    | none => rfl
    | some parent =>
      cases hs : target.podSelector with
      | none =>
        rcases hreach with h | h
        · rw [hp] at h; cases h
        · exact absurd hs h
      | some selector => simp only [hlen, Bool.and_false, Bool.false_eq_true, if_false]
  · intro hown
    have hsel : ∀ (rest : List String → Option (List String)),
        rest (match env.GetBackupStatusTarget request.backup target.name with
          | some backupStatusTarget => backupStatusTarget.selectedTargetPods
          | none => ([] : List String)) = rest [] := by
      intro rest
      cases h : env.GetBackupStatusTarget request.backup target.name with
      | none => rfl
      | some own => simp only [hown own h]
    have hunf : selectedPodsFor env request target =
        (match request.parentBackup with
         | some parentBackup =>
           match target.podSelector with
           | none => none
           | some podSelector =>
             if podSelector.useParentSelectedPods && ([] : List String).length == 0 then
               match env.GetBackupStatusTarget parentBackup target.name with
               | some parentBackupStatusTarget =>
                 if parentBackupStatusTarget.selectedTargetPods.length > 0 then
                   some parentBackupStatusTarget.selectedTargetPods
                 else some []
               | none => some []
             else some []
         | none => some []) := by
      unfold selectedPodsFor
      exact hsel (fun selectedPods =>
        match request.parentBackup with
        | some parentBackup =>
          match target.podSelector with
          | none => none
          | some podSelector =>
            if podSelector.useParentSelectedPods && selectedPods.length == 0 then
              match env.GetBackupStatusTarget parentBackup target.name with
              | some parentBackupStatusTarget =>
                if parentBackupStatusTarget.selectedTargetPods.length > 0 then
                  some parentBackupStatusTarget.selectedTargetPods
                else some selectedPods
              | none => some selectedPods
            else some selectedPods
        | none => some selectedPods)
    rw [hunf]
    refine ⟨?_, ?_, ?_, ?_⟩
    · intro parent selector recorded hp hs hu hr hne
      have hpos : recorded.selectedTargetPods.length > 0 := by
        cases h : recorded.selectedTargetPods with
        | nil => exact absurd h hne
        | cons a l => simp
      simp only [hp, hs, hu, hr, List.length_nil, beq_self_eq_true, Bool.and_self, if_true,
        hpos]
    · intro hp
      simp only [hp]
    · intro selector hs hu
      simp only [hs, hu, Bool.false_and, Bool.false_eq_true, if_false]
      cases request.parentBackup <;> rfl
    · intro parent selector hp hs hrec
      simp only [hp, hs]
      split
      · cases hr : env.GetBackupStatusTarget parent target.name with
        | none => rfl
        | some recorded =>
          have := hrec recorded hr
          simp [this]
      · rfl
  · unfold selectedPodsFor
    dsimp only
    cases hp : request.parentBackup with
    | none => simp
    | some parent =>
      cases hs : target.podSelector with
      | none => simp
      | some selector =>
        dsimp only
        constructor
        · intro h
          exfalso
          revert h
          repeat' split
          all_goals simp
        · intro h
          exact absurd h.2 (by simp)
  · intro hnone
    unfold prepareRequestTargetInfo
    rw [hnone]
  · intro selected err w1 hsel hcall
    rw [prepareRequestTargetInfo_of_selection env w request target selected hsel]
    unfold prepareRequestTargetPods
    dsimp only
    have hcall2 : w.call (env.GetTargetPods selected
        request.backupPolicy target (targetBackupType { request with target := some target }))
        = (Except.error err, w1) := hcall
    rw [hcall2]
  · intro selected pods w1 hsel hcall hne
    rw [prepareRequestTargetInfo_of_selection env w request target selected hsel]
    unfold prepareRequestTargetPods
    dsimp only
    have hcall2 : w.call (env.GetTargetPods selected
        request.backupPolicy target (targetBackupType { request with target := some target }))
        = (Except.ok pods, w1) := hcall
    rw [hcall2]
    dsimp only
    have hlen : (pods.length == 0) = false := by
      cases h : pods with
      | nil => exact absurd h hne
      | cons a l => rfl
    simp only [hlen, Bool.false_eq_true, if_false]
    split
    · split <;> rfl
    · rfl

/-- Witness of C22: a request whose parent records the selection `pod-x`, for a target
that asks for the parent's selection while the Backup has recorded none; and the same
request for a target without pod selector, where the pass panics. -/
theorem prepareRequestTargetInfo_selection_witness :
    selectedPodsFor sampleEnv childRequest inheritingTarget = some ["pod-x"] ∧
    prepareRequestTargetInfo sampleEnv sampleWorld childRequest bareTarget
      = (GoErr.panic, childRequest, sampleWorld) :=
  have h := prepareRequestTargetInfo_selection sampleEnv sampleWorld childRequest
    inheritingTarget
  have hbare := prepareRequestTargetInfo_selection sampleEnv sampleWorld childRequest
    bareTarget
  ⟨(h.2.1 (fun own hown => by cases hown)).1 selectingParent
      { useParentSelectedPods := true }
      { backupTarget := inheritingTarget, selectedTargetPods := ["pod-x"] }
      rfl rfl rfl rfl (by decide),
   hbare.2.2.1.2 (hbare.2.2.1.1.2 ⟨by decide, rfl⟩)⟩

/-- C23: when target resolution is reached (the selection is computed) and `GetTargetPods`
answers with no pod, `prepareRequestTargetInfo` returns an error and does not assign
`request.TargetPods`.  For the Continuous type the stop of the stateful workloads is
called first (its error, if any, is the one returned); for every other type the result
is the plain error, with nothing logged: the stop is logged exactly when the type is
Continuous. -/
theorem prepareRequestTargetInfo_no_pods {σ : Type} (env : Env σ) (w w1 : World σ)
    (request : Request) (target : BackupTarget) (selected : List String) (pods : List Pod)
    (hsel : selectedPodsFor env request target = some selected)
    (hcall : w.call (env.GetTargetPods selected
      request.backupPolicy target (targetBackupType request)) = (Except.ok pods, w1))
    (hlen : pods.length = 0) :
    (∃ e, (prepareRequestTargetInfo env w request target).1 = GoErr.err e) ∧
    (prepareRequestTargetInfo env w request target).2.1.targetPods = request.targetPods ∧
    (targetBackupType request = BackupTypeContinuous →
      (prepareRequestTargetInfo env w request target).2.2.trace
        = w.trace ++ [Event.stopStatefulSetsWhenFailed request.backup target.name] ∧
      (∀ e w2, (w1.emit (Event.stopStatefulSetsWhenFailed request.backup target.name)).call
          (env.StopStatefulSetsWhenFailed request.backup target.name) = (some e, w2) →
        (prepareRequestTargetInfo env w request target).1 = GoErr.err e) ∧
      (∀ w2, (w1.emit (Event.stopStatefulSetsWhenFailed request.backup target.name)).call
          (env.StopStatefulSetsWhenFailed request.backup target.name) = (none, w2) →
        (prepareRequestTargetInfo env w request target).1
          = GoErr.err (noTargetPodsError request))) ∧
    (targetBackupType request ≠ BackupTypeContinuous →
      prepareRequestTargetInfo env w request target
        = (GoErr.err (noTargetPodsError request), { request with target := some target },
           w1) ∧
      w1.trace = w.trace) ∧
    ((∃ e ∈ (prepareRequestTargetInfo env w request target).2.2.trace.drop w.trace.length,
        e = Event.stopStatefulSetsWhenFailed request.backup target.name) ↔
      targetBackupType request = BackupTypeContinuous) := by
  have hcall2 : w.call (env.GetTargetPods selected
      request.backupPolicy target (targetBackupType { request with target := some target }))
      = (Except.ok pods, w1) := hcall
  have hty : targetBackupType { request with target := some target }
      = targetBackupType request := rfl
  have hw1 : w1.trace = w.trace := World.trace_of_call hcall
  have hzero : (pods.length == 0) = true := by simp [hlen]
  have hunf : prepareRequestTargetInfo env w request target =
      if targetBackupType request = BackupTypeContinuous then
        match (w1.emit (Event.stopStatefulSetsWhenFailed request.backup target.name)).call
            (env.StopStatefulSetsWhenFailed request.backup target.name) with
        | (some e, w2) => (GoErr.err e, { request with target := some target }, w2)
        | (none, w2) =>
          (GoErr.err (noTargetPodsError request), { request with target := some target }, w2)
      else
        (GoErr.err (noTargetPodsError request), { request with target := some target },
          w1) := by
    rw [prepareRequestTargetInfo_of_selection env w request target selected hsel]
    unfold prepareRequestTargetPods
    dsimp only
    rw [hcall2]
    dsimp only
    rw [hzero, if_pos rfl, hty]
    rfl
  rw [hunf]
  by_cases hc : targetBackupType request = BackupTypeContinuous
  · rw [if_pos hc]
    rcases hs : (w1.emit (Event.stopStatefulSetsWhenFailed request.backup target.name)).call
      (env.StopStatefulSetsWhenFailed request.backup target.name) with ⟨r, w2⟩
    have hw2 : w2.trace = w.trace ++ [Event.stopStatefulSetsWhenFailed request.backup
        target.name] := by
      rw [World.trace_of_call hs, World.emit_trace, hw1]
    cases r with
    | some e =>
      dsimp only
      refine ⟨⟨e, rfl⟩, rfl, fun _ => ⟨hw2, ?_, ?_⟩, fun h => absurd hc h, ?_⟩
      · intro e2 w3 h
        simp only [Prod.mk.injEq, Option.some.injEq] at h
        rw [h.1]
      · intro w3 h
        simp only [Prod.mk.injEq, reduceCtorEq, false_and] at h
      · rw [hw2]
        simp [hc]
    | none =>
      dsimp only
      refine ⟨⟨_, rfl⟩, rfl, fun _ => ⟨hw2, ?_, ?_⟩, fun h => absurd hc h, ?_⟩
      · intro e2 w3 h
        simp only [Prod.mk.injEq, reduceCtorEq, false_and] at h
      · intro w3 _
        rfl
      · rw [hw2]
        simp [hc]
  · rw [if_neg hc]
    refine ⟨⟨_, rfl⟩, rfl, fun h => absurd h hc, fun _ => ⟨rfl, hw1⟩, ?_⟩
    dsimp only
    rw [hw1]
    simp [hc]

/-- Witness of C23: the Continuous sample request when no pod is found: the stop of the
stateful workloads is logged and the plain error is returned. -/
theorem prepareRequestTargetInfo_no_pods_witness :
    (prepareRequestTargetInfo noPodsEnv sampleWorld continuousRequest sampleTarget).2.2.trace
      = sampleWorld.trace ++
        [Event.stopStatefulSetsWhenFailed continuousRequest.backup sampleTarget.name] ∧
    (prepareRequestTargetInfo noPodsEnv sampleWorld continuousRequest sampleTarget).1
      = GoErr.err (noTargetPodsError continuousRequest) :=
  have h := (prepareRequestTargetInfo_no_pods noPodsEnv sampleWorld sampleWorld
    continuousRequest sampleTarget [] [] rfl rfl rfl).2.2.1 rfl
  ⟨h.1, h.2.2 _ rfl⟩

/-! ## The identity `mergeActionStatus` matches on -/

theorem mergeActionStatusLoop_none (marker : String) (status : ActionStatus) :
    ∀ (actions : List ActionStatus), (∀ a ∈ actions, a.name ≠ status.name) →
      mergeActionStatusLoop marker status actions = (actions, false) := by
  intro actions
  induction actions with
  | nil => intro _; rfl
  | cons a rest ih =>
    intro h
    have ha : a.name ≠ status.name := h a (List.mem_cons_self _ _)
    have hrest := ih (fun b hb => h b (List.mem_cons_of_mem _ hb))
    rw [mergeActionStatusLoop, if_neg ha, hrest]

theorem mergeActionStatusLoop_other (marker : String) (status : ActionStatus) :
    ∀ (actions : List ActionStatus) (i : Nat) (entry : ActionStatus),
      actions[i]? = some entry → entry.name ≠ status.name →
      (mergeActionStatusLoop marker status actions).1[i]? = some entry := by
  intro actions
  induction actions with
  | nil => intro i entry h; simp at h
  | cons a rest ih =>
    intro i entry hget hname
    unfold mergeActionStatusLoop
    by_cases ha : a.name = status.name
    · rw [if_pos ha]
      cases i with
      | zero =>
        simp only [List.getElem?_cons_zero, Option.some.injEq] at hget
        subst hget
        exact absurd ha hname
      | succ k =>
        simp only [List.getElem?_cons_succ] at hget ⊢
        exact hget
    · rw [if_neg ha]
      cases i with
      | zero =>
        simp only [List.getElem?_cons_zero] at hget ⊢
        exact hget
      | succ k =>
        simp only [List.getElem?_cons_succ] at hget ⊢
        exact ih k entry hget hname

theorem mergeActionStatusLoop_length (marker : String) (status : ActionStatus) :
    ∀ (actions : List ActionStatus),
      (mergeActionStatusLoop marker status actions).1.length = actions.length := by
  intro actions
  induction actions with
  | nil => rfl
  | cons a rest ih =>
    unfold mergeActionStatusLoop
    by_cases ha : a.name = status.name
    · rw [if_pos ha]; rfl
    · rw [if_neg ha]
      simp only [List.length_cons, ih]

theorem mergedEntry_targetPodName (marker : String) (entry status : ActionStatus) :
    (mergedEntry marker entry status).targetPodName = status.targetPodName := by
  unfold mergedEntry
  cases entry.startTimestamp <;>
    by_cases h : HasPrefix entry.failureReason marker = true <;> simp [h]

theorem mergeActionStatus_other {σ : Type} (env : Env σ) (w : World σ) (request : Request)
    (status entry : ActionStatus) (i : Nat)
    (hget : request.backup.status.actions[i]? = some entry)
    (hname : entry.name ≠ status.name) :
    (mergeActionStatus env w request status).1.backup.status.actions[i]? = some entry := by
  unfold mergeActionStatus
  split
  · exact mergeActionStatusLoop_other env.LogCollectorOutput status _ i entry hget hname
  · show (request.backup.status.actions ++ _)[i]? = some entry
    have hlt : i < request.backup.status.actions.length := by
      by_contra hge
      rw [List.getElem?_eq_none (by omega)] at hget
      exact absurd hget (by simp)
    rw [List.getElem?_append_left hlt]
    exact hget

/-- C24 fails as stated: merging a report for the action `dump` on `pod-b` into a list
that holds `dump` for `pod-a` replaces that entry, which now names `pod-b`; no entry is
appended and the entry for `pod-a` is gone. -/
theorem mergeActionStatus_replaces_other_pod :
    doneAction.name = otherPodStatus.name ∧
    doneAction.targetPodName = "pod-a" ∧ otherPodStatus.targetPodName = "pod-b" ∧
    (mergeActionStatus sampleEnv sampleWorld (setActions incrementalRequest [doneAction])
      otherPodStatus).1.backup.status.actions.map (fun a => (a.name, a.targetPodName, a.phase))
      = [("dump", "pod-b", ActionPhaseRunning)] := by
  decide

/-- C24 as amended: `mergeActionStatus` matches on the action name alone.  Every entry
whose name differs from the new status's name stays at its position, unchanged.  The
entry the new status replaces is the first entry of its name, whatever target pod that
entry is bound to, and the replacing entry carries the new status's target pod. -/
theorem mergeActionStatus_by_name {σ : Type} (env : Env σ) (w : World σ) (request : Request)
    (status : ActionStatus) :
    (∀ (i : Nat) (entry : ActionStatus), request.backup.status.actions[i]? = some entry →
      entry.name ≠ status.name →
      (mergeActionStatus env w request status).1.backup.status.actions[i]? = some entry) ∧
    (∀ (pre post : List ActionStatus) (entry : ActionStatus),
      request.backup.status.actions = pre ++ entry :: post →
      (∀ a ∈ pre, a.name ≠ status.name) → entry.name = status.name →
      (mergeActionStatus env w request status).1.backup.status.actions
        = pre ++ mergedEntry env.LogCollectorOutput entry status :: post ∧
      (mergedEntry env.LogCollectorOutput entry status).name = status.name ∧
      (mergedEntry env.LogCollectorOutput entry status).targetPodName
        = status.targetPodName) := by
  constructor
  · intro i entry hget hname
    exact mergeActionStatus_other env w request status entry i hget hname
  · intro pre post entry hsplit hpre hname
    exact ⟨mergeActionStatus_actions_of_split env w request status entry pre post hsplit
      hpre hname, mergedEntry_name _ _ _, mergedEntry_targetPodName _ _ _⟩

/-- C27: if no entry carries the new status's name, `mergeActionStatus` appends one entry,
the new status with its start instant set to the clock reading, and the existing entries
stay as they are; if an entry carries the name, the first such entry is replaced by the
merged entry, every other entry stays as it is and the length is unchanged. -/
theorem mergeActionStatus_append_or_replace {σ : Type} (env : Env σ) (w : World σ)
    (request : Request) (status : ActionStatus) :
    ((∀ a ∈ request.backup.status.actions, a.name ≠ status.name) →
      (mergeActionStatus env w request status).1.backup.status.actions
        = request.backup.status.actions ++
          [{ status with startTimestamp := some (w.call env.Now).1 }]) ∧
    (∀ (pre post : List ActionStatus) (entry : ActionStatus),
      request.backup.status.actions = pre ++ entry :: post →
      (∀ a ∈ pre, a.name ≠ status.name) → entry.name = status.name →
      (mergeActionStatus env w request status).1.backup.status.actions
        = pre ++ mergedEntry env.LogCollectorOutput entry status :: post ∧
      (mergeActionStatus env w request status).1.backup.status.actions.length
        = request.backup.status.actions.length) := by
  constructor
  · intro hno
    have h := mergeActionStatusLoop_none env.LogCollectorOutput status _ hno
    unfold mergeActionStatus
    rw [h]
    simp only [Bool.false_eq_true, if_false]
    rfl
  · intro pre post entry hsplit hpre hname
    have h := mergeActionStatus_actions_of_split env w request status entry pre post hsplit
      hpre hname
    refine ⟨h, ?_⟩
    rw [h, hsplit]
    simp

/-- Witness of C27: a report for `verify` is appended after the entry for `dump`, with
the clock reading 1000 as its start instant. -/
theorem mergeActionStatus_append_or_replace_witness :
    (mergeActionStatus sampleEnv sampleWorld (setActions incrementalRequest [doneAction])
      freshStatus).1.backup.status.actions
      = [doneAction] ++ [{ freshStatus with startTimestamp := some 1000 }] :=
  (mergeActionStatus_append_or_replace sampleEnv sampleWorld
    (setActions incrementalRequest [doneAction]) freshStatus).1 (by decide)

/-! ## Natural completion of a Continuous backup -/

theorem completeDuringRunning_completes {σ : Type} (env : Env σ) (w : World σ)
    (backup : Backup) :
    (completeDuringRunning env w backup).2.1.status.phase = BackupPhaseCompleted ∧
    (completeDuringRunning env w backup).2.1.status.completionTimestamp
      = some (w.call env.Now).1 ∧
    (completeDuringRunning env w backup).1 ≠ Except.ok false ∧
    (completeDuringRunning env w backup).2.2.trace
      = w.trace ++ [Event.statusPatch (completeDuringRunning env w backup).2.1 backup] ∧
    (∀ w2, ((w.call env.Now).2.emit
        (Event.statusPatch (completeDuringRunning env w backup).2.1 backup)).call
        (env.StatusPatch (completeDuringRunning env w backup).2.1 backup) = (none, w2) →
      (completeDuringRunning env w backup).1 = Except.ok true) := by
  have hexp : ∀ b : Backup, (SetExpirationTime env b).2.status.phase = b.status.phase ∧
      (SetExpirationTime env b).2.status.completionTimestamp
        = b.status.completionTimestamp := by
    intro b
    obtain ⟨t, ht⟩ := SetExpirationTime_frame env b
    rw [ht]
    exact ⟨rfl, rfl⟩
  have hdur : ∀ (b : Backup) (d : Option Duration),
      (setDuration b d).status.phase = b.status.phase ∧
      (setDuration b d).status.completionTimestamp = b.status.completionTimestamp := by
    intro b d
    cases d <;> exact ⟨rfl, rfl⟩
  unfold completeDuringRunning
  rcases hn : w.call env.Now with ⟨now, w1⟩
  have hw1 : w1.trace = w.trace := World.trace_of_call hn
  dsimp only
  split
  · rename_i err w2 heq
    have hw2 := World.trace_of_call heq
    rw [World.emit_trace, hw1] at hw2
    refine ⟨?_, ?_, by simp, hw2, ?_⟩
    · dsimp only
      rw [(hdur _ _).1, (hexp _).1]
    · dsimp only
      rw [(hdur _ _).2, (hexp _).2]
    · intro w3 h
      rw [heq] at h
      simp only [Prod.mk.injEq, reduceCtorEq, false_and] at h
  · rename_i w2 heq
    have hw2 := World.trace_of_call heq
    rw [World.emit_trace, hw1] at hw2
    refine ⟨?_, ?_, by simp, hw2, fun _ _ => rfl⟩
    · dsimp only
      rw [(hdur _ _).1, (hexp _).1]
    · dsimp only
      rw [(hdur _ _).2, (hexp _).2]

theorem any_enabled_iff (sch : BackupSchedule) (backup : Backup) :
    sch.schedules.any (fun (method : SchedulePolicy) =>
        method.backupMethod == backup.spec.backupMethod && IsSetToTrue method.enabled) = true ↔
      ∃ m ∈ sch.schedules, m.backupMethod = backup.spec.backupMethod ∧
        IsSetToTrue m.enabled = true := by
  simp [List.any_eq_true]

/-- C26: in `checkIsCompletedDuringRunning`, with the cluster lookup answered (when the
Backup names a cluster): the target counts as gone when the named cluster is not found,
is being deleted or is Stopped.  If the target is gone, or if the schedule named by the
schedule label is read and has no enabled entry for the Backup's method, the Backup is
completed: phase Completed, completion instant stamped, the status patched, never the
answer "not completed".  If the target is live and the schedule has an enabled entry for
the method, the answer is "not completed", and the Backup and the log are as before. -/
theorem checkIsCompletedDuringRunning_iff {σ : Type} (env : Env σ) (w w1 : World σ)
    (backup : Backup) (targetExists stoppedOrDeleting : Bool)
    (hcl : lookupBackupTarget env w backup
      = (Except.ok (targetExists, stoppedOrDeleting), w1)) :
    (labelOf backup env.AppInstanceLabelKey = "" →
      targetExists = true ∧ stoppedOrDeleting = false) ∧
    (labelOf backup env.AppInstanceLabelKey ≠ "" →
      ∃ found, (w.call (env.CheckClusterExists backup.ns
          (labelOf backup env.AppInstanceLabelKey))).1 = Except.ok found ∧
        (targetExists = false ↔ found = none) ∧
        (stoppedOrDeleting = true ↔
          ((found.getD emptyCluster).isDeleting = true ∨
           (found.getD emptyCluster).phase = StoppedClusterPhase))) ∧
    ((targetExists = false ∨ stoppedOrDeleting = true) →
      checkIsCompletedDuringRunning env w backup = completeDuringRunning env w1 backup) ∧
    (targetExists = true → stoppedOrDeleting = false →
      ∀ sch w2, w1.call (env.GetBackupSchedule backup.ns
          (labelOf backup env.BackupScheduleLabelKey)) = (Except.ok sch, w2) →
        ((∃ m ∈ sch.schedules, m.backupMethod = backup.spec.backupMethod ∧
            IsSetToTrue m.enabled = true) →
          checkIsCompletedDuringRunning env w backup = (Except.ok false, backup, w2) ∧
          w2.trace = w.trace) ∧
        ((¬ ∃ m ∈ sch.schedules, m.backupMethod = backup.spec.backupMethod ∧
            IsSetToTrue m.enabled = true) →
          checkIsCompletedDuringRunning env w backup
            = completeDuringRunning env w2 backup)) ∧
    (∀ w3 : World σ,
      (completeDuringRunning env w3 backup).2.1.status.phase = BackupPhaseCompleted ∧
      (completeDuringRunning env w3 backup).2.1.status.completionTimestamp
        = some (w3.call env.Now).1 ∧
      (completeDuringRunning env w3 backup).1 ≠ Except.ok false ∧
      (completeDuringRunning env w3 backup).2.2.trace
        = w3.trace ++ [Event.statusPatch (completeDuringRunning env w3 backup).2.1 backup]) := by
  have hw1 : w1.trace = w.trace := by
    unfold lookupBackupTarget at hcl
    split at hcl
    · split at hcl
      · simp only [Prod.mk.injEq, reduceCtorEq, false_and] at hcl
      · rename_i heq
        simp only [Prod.mk.injEq] at hcl
        rw [← hcl.2]
        exact World.trace_of_call heq
    · simp only [Prod.mk.injEq] at hcl
      rw [← hcl.2]
  refine ⟨?_, ?_, ?_, ?_, ?_⟩
  · intro hl
    unfold lookupBackupTarget at hcl
    rw [hl] at hcl
    simp only [bne_self_eq_false, Bool.false_eq_true, if_false, Prod.mk.injEq,
      Except.ok.injEq] at hcl
    exact ⟨hcl.1.1.symm, hcl.1.2.symm⟩
  · intro hl
    unfold lookupBackupTarget at hcl
    have hne : (labelOf backup env.AppInstanceLabelKey != "") = true := by
      simp [hl]
    rw [if_pos hne] at hcl
    rcases hc : w.call (env.CheckClusterExists backup.ns
      (labelOf backup env.AppInstanceLabelKey)) with ⟨r, w2⟩
    rw [hc] at hcl
    cases r with
    | error err => simp only [Prod.mk.injEq, reduceCtorEq, false_and] at hcl
    | ok found =>
      simp only [Prod.mk.injEq, Except.ok.injEq] at hcl
      obtain ⟨⟨h1, h2⟩, _⟩ := hcl
      refine ⟨found, rfl, ?_, ?_⟩
      · rw [← h1]
        cases found <;> simp
      · rw [← h2]
        simp
  · intro h
    unfold checkIsCompletedDuringRunning
    rw [hcl]
    dsimp only
    have hcond : (targetExists && !stoppedOrDeleting) = false := by
      rcases h with h | h <;> simp [h]
    rw [hcond]
    simp only [Bool.false_eq_true, if_false]
  · intro hex hst sch w2 hsch
    have hcond : (targetExists && !stoppedOrDeleting) = true := by
      simp [hex, hst]
    have hunf : checkIsCompletedDuringRunning env w backup =
        if sch.schedules.any (fun (method : SchedulePolicy) =>
            method.backupMethod == backup.spec.backupMethod && IsSetToTrue method.enabled) then
          (Except.ok false, backup, w2)
        else completeDuringRunning env w2 backup := by
      unfold checkIsCompletedDuringRunning
      rw [hcl]
      dsimp only
      rw [hcond, if_pos rfl, hsch]
    constructor
    · intro hany
      rw [hunf, if_pos ((any_enabled_iff sch backup).2 hany)]
      exact ⟨rfl, by rw [World.trace_of_call hsch, hw1]⟩
    · intro hnone
      rw [hunf, if_neg (fun h => hnone ((any_enabled_iff sch backup).1 h))]
  · intro w3
    obtain ⟨a, b, c, d, _⟩ := completeDuringRunning_completes env w3 backup
    exact ⟨a, b, c, d⟩

/-- Witness of C26: the sample Backup names no cluster and the sample schedule has no
entry, so the Running handling completes it. -/
theorem checkIsCompletedDuringRunning_iff_witness :
    checkIsCompletedDuringRunning sampleEnv sampleWorld runningBackup
      = completeDuringRunning sampleEnv sampleWorld runningBackup ∧
    (completeDuringRunning sampleEnv sampleWorld runningBackup).2.1.status.phase
      = BackupPhaseCompleted :=
  have h := checkIsCompletedDuringRunning_iff sampleEnv sampleWorld sampleWorld runningBackup
    true false rfl
  ⟨(h.2.2.2.1 rfl rfl _ _ rfl).2 (by decide), (h.2.2.2.2 sampleWorld).1⟩

/-! ## The New phase: what the steps before the status patch keep -/

theorem setStatusTarget_keeps {σ : Type} (env : Env σ) (w : World σ) (request : Request)
    (target : BackupTarget) :
    (setStatusTarget env w request target).2.1.backup.status.phase
      = request.backup.status.phase ∧
    (setStatusTarget env w request target).2.1.backup.status.actions
      = request.backup.status.actions := by
  have hb := buildStatusTarget_backup env w request target
  unfold setStatusTarget
  split
  · rename_i heq
    rw [heq] at hb
    dsimp only at hb ⊢
    rw [hb]
    exact ⟨rfl, rfl⟩
  · rename_i heq
    rw [heq] at hb
    dsimp only at hb ⊢
    simp [setTarget, hb]

theorem setStatusTargets_keeps {σ : Type} (env : Env σ) :
    ∀ (targets : List BackupTarget) (w : World σ) (request : Request),
      (setStatusTargets env targets w request).2.1.backup.status.phase
        = request.backup.status.phase ∧
      (setStatusTargets env targets w request).2.1.backup.status.actions
        = request.backup.status.actions := by
  intro targets
  induction targets with
  | nil => intro w request; exact ⟨rfl, rfl⟩
  | cons target rest ih =>
    intro w request
    have hb := buildStatusTarget_backup env w request target
    unfold setStatusTargets
    split
    · rename_i heq
      rw [heq] at hb
      dsimp only at hb ⊢
      rw [hb]
      exact ⟨rfl, rfl⟩
    · rename_i statusTarget request2 w2 heq
      rw [heq] at hb
      dsimp only at hb
      obtain ⟨a, b⟩ := ih w2 (appendTarget request2 statusTarget)
      rw [a, b]
      simp [appendTarget, hb]

theorem recordBackupStatusTargets_keeps {σ : Type} (env : Env σ) (w : World σ)
    (request : Request) :
    (recordBackupStatusTargets env w request).2.1.backup.status.phase
      = request.backup.status.phase ∧
    (recordBackupStatusTargets env w request).2.1.backup.status.actions
      = request.backup.status.actions := by
  unfold recordBackupStatusTargets
  split
  · exact ⟨rfl, rfl⟩
  · split
    · exact setStatusTarget_keeps env w request _
    · split
      · exact setStatusTargets_keeps env _ w request
      · split
        · exact setStatusTarget_keeps env w request _
        · split
          · exact setStatusTargets_keeps env _ w request
          · exact ⟨rfl, rfl⟩

theorem AddFinalizer_status (o : Backup) (finalizer : String) :
    (AddFinalizer o finalizer).status = o.status := by
  unfold AddFinalizer
  split <;> rfl

theorem metaLabels_status {σ : Type} (env : Env σ) (request : Request) (targetPod : Pod) :
    (metaLabels env request targetPod).1.backup.status = request.backup.status := by
  have hfold : ∀ (keys : List String) (r : Request),
      (keys.foldl (fun (r : Request) (v : String) =>
        match targetPod.labels.lookup v with
        | some labelValue => setLabel r v labelValue
        | none => r) r).backup.status = r.backup.status := by
    intro keys
    induction keys with
    | nil => intro r; rfl
    | cons k rest ih =>
      intro r
      rw [List.foldl_cons, ih]
      split <;> rfl
  have h2 : ∀ r : Request, (match (entries r.backup.labels).lookup env.AppManagedByLabelKey with
      | some _ => r
      | none => setLabel r env.AppManagedByLabelKey env.AppName).backup.status
      = r.backup.status := by
    intro r
    split <;> rfl
  unfold metaLabels
  dsimp only
  rw [AddFinalizer_status]
  split
  · split
    · simp only [setLabel]
      exact (h2 _).trans (hfold _ _)
    · simp only [setLabel]
      exact (h2 _).trans (hfold _ _)
  · simp only [setLabel]
    exact (h2 _).trans (hfold _ _)

theorem patchMetaLabels_status {σ : Type} (env : Env σ) (w : World σ) (original : Backup)
    (request : Request) (targetPod : Pod) :
    (patchMetaLabels env w original request targetPod).2.1.backup.status
      = request.backup.status := by
  unfold patchMetaLabels
  split
  · rfl
  · dsimp only
    split
    · exact metaLabels_status env request targetPod
    · exact metaLabels_status env request targetPod

theorem PatchBackupObjectMeta_status {σ : Type} (env : Env σ) (w : World σ)
    (original : Backup) (request : Request) :
    (PatchBackupObjectMeta env w original request).2.1.backup.status
      = request.backup.status := by
  unfold PatchBackupObjectMeta
  split
  · rfl
  · split
    · exact patchMetaLabels_status env _ original request _
    · rename_i cluster w0 _
      have h1 : ( setClusterSnapshotAnnotation env w0 request cluster).2.1.backup.status
          = request.backup.status := by
        unfold setClusterSnapshotAnnotation
        split <;> rfl
      split
      · rename_i heq
        rw [heq] at h1
        exact h1
      · rename_i request1 w1 heq
        rw [heq] at h1
        dsimp only at h1
        have h2 : ( setEncryptedSystemAccountsAnnotation env w1 request1 cluster).2.1.backup.status
            = request1.backup.status := by
          unfold setEncryptedSystemAccountsAnnotation
          split
          · rfl
          · rfl
          · split
            · split <;> rfl
            · rfl
        split
        · rename_i heq2
          rw [heq2] at h2
          exact h2.trans h1
        · rename_i heq2
          rw [heq2] at h2
          exact h2.trans h1
        · rename_i request2 w2 heq2
          rw [heq2] at h2
          dsimp only at h2
          split
          · exact h2.trans h1
          · rw [patchMetaLabels_status]
            exact h2.trans h1

theorem statusBeforeActions_actions {σ : Type} (env : Env σ) (request : Request)
    (st6 : BackupStatus) (h : statusBeforeActions env request = some st6) :
    st6.actions = request.backup.status.actions := by
  unfold statusBeforeActions at h
  cases hsv : request.snapshotVolumes <;> cases hrepo : request.backupRepo <;>
    cases hpvc : request.backupRepoPVC <;> cases hpar : request.parentBackup <;>
    cases henc : request.backupPolicy.encryptionConfig <;>
    cases hk : request.backupPolicy.useKopia <;>
    simp only [hsv, hrepo, hpvc, hpar, henc, hk, Bool.not_true, Bool.not_false,
      Bool.false_eq_true, if_true, if_false, Bool.and_true, Bool.and_false, Bool.true_and,
      Bool.false_and, Option.some.injEq, reduceCtorEq] at h <;>
    rw [← h]

theorem statusAfterActions_fields (request : Request) (st6 : BackupStatus)
    (actions : List (String × List Action)) (now : Time) :
    (statusAfterActions request st6 actions now).phase = BackupPhaseRunning ∧
    (statusAfterActions request st6 actions now).startTimestamp = some now ∧
    (statusAfterActions request st6 actions now).actions
      = st6.actions ++ initActionStatus actions := by
  unfold statusAfterActions
  dsimp only
  split <;> split <;> exact ⟨rfl, rfl, rfl⟩

/-- What `patchBackupStatus` has done when it returns no error. -/
theorem patchBackupStatus_ok {σ : Type} (env : Env σ) (w : World σ) (original : Backup)
    (request : Request) (h : (patchBackupStatus env w original request).err = GoErr.nil) :
    ∃ (st6 : BackupStatus) (actions : List (String × List Action)) (w1 w2 : World σ)
        (now : Time),
      statusBeforeActions env request = some st6 ∧
      w.call (env.BuildActions (setStatus request st6)) = (Except.ok actions, w1) ∧
      w1.call env.Now = (now, w2) ∧
      (patchBackupStatus env w original request).request.backup.status.phase
        = BackupPhaseRunning ∧
      (patchBackupStatus env w original request).request.backup.status.startTimestamp
        = some now ∧
      (patchBackupStatus env w original request).request.backup.status.actions
        = request.backup.status.actions ++ initActionStatus actions := by
  revert h
  unfold patchBackupStatus
  cases hst : statusBeforeActions env request with
  | none => simp
  | some st6 =>
    dsimp only
    rcases hba : w.call (env.BuildActions (setStatus request st6)) with ⟨r, w1⟩
    cases r with
    | error err => simp
    | ok actions =>
      dsimp only
      rcases hnow : w1.call env.Now with ⟨now, w2⟩
      dsimp only
      obtain ⟨t, ht⟩ := SetExpirationTime_frame env
        { request.backup with status := statusAfterActions request st6 actions now }
      obtain ⟨f1, f2, f3⟩ := statusAfterActions_fields request st6 actions now
      rcases hs : SetExpirationTime env
        { request.backup with status := statusAfterActions request st6 actions now }
        with ⟨e, b10⟩
      rw [hs] at ht
      dsimp only at ht
      subst ht
      cases e with
      | some err => simp
      | none =>
        dsimp only
        intro _
        refine ⟨st6, actions, w1, w2, now, rfl, hba, hnow, f1, f2, ?_⟩
        dsimp only
        rw [f3, statusBeforeActions_actions env request st6 hst]

theorem initActionStatus_new (actions : List (String × List Action)) :
    (∀ a ∈ initActionStatus actions, a.phase = ActionPhaseNew) ∧
    (initActionStatus actions).map (fun a => (a.targetPodName, a.name, a.actionType))
      = actions.flatMap (fun entry =>
          entry.2.map (fun act => (entry.1, act.name, act.actionType))) := by
  constructor
  · intro a ha
    unfold initActionStatus at ha
    simp only [List.mem_flatMap, List.mem_map] at ha
    obtain ⟨entry, _, act, _, h⟩ := ha
    rw [← h]
  · unfold initActionStatus
    induction actions with
    | nil => rfl
    | cons entry rest ih =>
      simp only [List.flatMap_cons, List.map_append, List.map_map]
      rw [ih]
      rfl

/-- C25 fails as stated: with request building, target recording and the metadata patch
succeeding and no repository wait, the pass ends with phase Failed when the expiration
time cannot be computed; and for a Backup whose status already lists an action, the list
afterwards holds that entry besides the one for the single pair returned by
`BuildActions`. -/
theorem handleNewPhase_fails_after_meta_patch :
    (∃ request w1 request1 w2 request2 w3,
      prepareBackupRequest badRetentionEnv sampleWorld sampleBackup = (Except.ok request, w1) ∧
      recordBackupStatusTargets badRetentionEnv w1 request = (GoErr.nil, request1, w2) ∧
      PatchBackupObjectMeta badRetentionEnv w2 sampleBackup request1
        = ((false, GoErr.nil), request2, w3)) ∧
    sampleBackup.status.phase = "" ∧
    (handleNewPhase badRetentionEnv sampleWorld sampleBackup).backup.status.phase
      = BackupPhaseFailed ∧
    staleActionsBackup.status.phase = "" ∧
    (handleNewPhase sampleEnv sampleWorld staleActionsBackup).backup.status.phase
      = BackupPhaseRunning ∧
    (handleNewPhase sampleEnv sampleWorld staleActionsBackup).backup.status.actions.map
      (fun a => (a.targetPodName, a.name, a.phase))
      = [("pod-a", "dump", ActionPhaseCompleted), ("pod-a", "dump", ActionPhaseNew)] :=
  ⟨⟨_, _, _, _, _, _, rfl, rfl, rfl⟩, by decide, by decide, by decide, by decide, by decide⟩

/-- C25 as amended: when request building, target recording and the metadata patch
succeed: if a repository wait is needed, the pass ends reconciled with the phase as it
was; if none is needed and `patchBackupStatus` returns no error (the actions are built,
the expiration time computes, the status patch succeeds), the pass ends reconciled with
phase Running, the start instant stamped with the clock reading, and `status.actions`
holding its previous entries followed by one entry with phase New for each (target pod,
action) pair returned by `BuildActions`, in order. -/
theorem handleNewPhase_running {σ : Type} (env : Env σ) (w w1 w2 w3 : World σ)
    (backup : Backup) (request request1 request2 : Request) (wait : Bool)
    (hprep : prepareBackupRequest env w backup = (Except.ok request, w1))
    (hrec : recordBackupStatusTargets env w1 request = (GoErr.nil, request1, w2))
    (hmeta : PatchBackupObjectMeta env w2 backup request1
      = ((wait, GoErr.nil), request2, w3)) :
    (wait = true →
      (handleNewPhase env w backup).result = Result.reconciled ∧
      (handleNewPhase env w backup).backup.status.phase = backup.status.phase) ∧
    (wait = false →
      (patchBackupStatus env w3 backup (setStatus request2 request1.backup.status)).err
        = GoErr.nil →
      ∃ (st6 : BackupStatus) (actions : List (String × List Action)) (wa wb : World σ)
          (now : Time),
        w3.call (env.BuildActions (setStatus (setStatus request2 request1.backup.status) st6))
          = (Except.ok actions, wa) ∧
        wa.call env.Now = (now, wb) ∧
        (handleNewPhase env w backup).result = Result.reconciled ∧
        (handleNewPhase env w backup).backup.status.phase = BackupPhaseRunning ∧
        (handleNewPhase env w backup).backup.status.startTimestamp = some now ∧
        (handleNewPhase env w backup).backup.status.actions
          = backup.status.actions ++ initActionStatus actions ∧
        (∀ a ∈ initActionStatus actions, a.phase = ActionPhaseNew) ∧
        (initActionStatus actions).map (fun a => (a.targetPodName, a.name, a.actionType))
          = actions.flatMap (fun entry =>
              entry.2.map (fun act => (entry.1, act.name, act.actionType)))) := by
  have hreq := prepareBackupRequest_backup env w w1 backup request hprep
  have hkeep := recordBackupStatusTargets_keeps env w1 request
  rw [hrec] at hkeep
  dsimp only at hkeep
  have hmst := PatchBackupObjectMeta_status env w2 backup request1
  rw [hmeta] at hmst
  dsimp only at hmst
  constructor
  · intro hwait
    subst hwait
    have hout : handleNewPhase env w backup
        = { result := Result.reconciled, backup := request2.backup, world := w3 } := by
      unfold handleNewPhase
      rw [hprep]
      dsimp only
      rw [hrec]
      dsimp only
      rw [hmeta]
    rw [hout]
    refine ⟨rfl, ?_⟩
    dsimp only
    rw [hmst, hkeep.1, hreq]
    rfl
  · intro hwait hpatch
    subst hwait
    have hout : handleNewPhase env w backup
        = { result := Result.reconciled,
            backup := (patchBackupStatus env w3 backup
              (setStatus request2 request1.backup.status)).request.backup,
            world := (patchBackupStatus env w3 backup
              (setStatus request2 request1.backup.status)).world } := by
      unfold handleNewPhase
      rw [hprep]
      dsimp only
      rw [hrec]
      dsimp only
      rw [hmeta]
      dsimp only
      rw [hpatch]
    obtain ⟨st6, actions, wa, wb, now, _, hba, hnow, f1, f2, f3⟩ :=
      patchBackupStatus_ok env w3 backup (setStatus request2 request1.backup.status) hpatch
    obtain ⟨i1, i2⟩ := initActionStatus_new actions
    refine ⟨st6, actions, wa, wb, now, hba, hnow, ?_, ?_, ?_, ?_, i1, i2⟩
    · rw [hout]
    · rw [hout]; exact f1
    · rw [hout]; exact f2
    · rw [hout]
      dsimp only
      rw [f3]
      show request1.backup.status.actions ++ _ = _
      rw [hkeep.2, hreq]
      rfl

/-- Witness of the amended C25: the sample Backup against the sample environment ends the
pass in phase Running with the one action entry in phase New. -/
theorem handleNewPhase_running_witness :
    ∃ (actions : List (String × List Action)) (wa wb : World Unit) (now : Time),
      wa.call sampleEnv.Now = (now, wb) ∧
      (handleNewPhase sampleEnv sampleWorld sampleBackup).result = Result.reconciled ∧
      (handleNewPhase sampleEnv sampleWorld sampleBackup).backup.status.phase
        = BackupPhaseRunning ∧
      (handleNewPhase sampleEnv sampleWorld sampleBackup).backup.status.startTimestamp
        = some now ∧
      (handleNewPhase sampleEnv sampleWorld sampleBackup).backup.status.actions
        = sampleBackup.status.actions ++ initActionStatus actions :=
  have h := (handleNewPhase_running sampleEnv sampleWorld _ _ _ sampleBackup _ _ _ false
    rfl rfl rfl).2 rfl rfl
  match h with
  | ⟨_, actions, wa, wb, now, _, h2, h3, h4, h5, h6, _⟩ =>
    ⟨actions, wa, wb, now, h2, h3, h4, h5, h6⟩

/-! ## A recorded target and the first target pod -/

theorem prepare4Incremental_targetPods {σ : Type} (env : Env σ) (w w1 : World σ)
    (request request1 : Request)
    (h : prepare4Incremental env w request = (Except.ok request1, w1)) :
    request1.targetPods = request.targetPods := by
  unfold prepare4Incremental at h
  repeat' (first | split at h | (dsimp only at h; split at h))
  all_goals first
    | (cases h; rfl)
    | (simp only [Prod.mk.injEq, reduceCtorEq, false_and] at h)

theorem prepareBackupRequestTail_targetPods {σ : Type} (env : Env σ) (w w1 : World σ)
    (backup : Backup) (backupPolicy : BackupPolicy) (backupMethod : BackupMethod)
    (snapshotVolumes : Bool) (actionSet : Option ActionSet) (request : Request)
    (h : prepareBackupRequestTail env w backup backupPolicy backupMethod snapshotVolumes
      actionSet = (Except.ok request, w1)) :
    request.targetPods = [] := by
  unfold prepareBackupRequestTail at h
  split at h
  · cases h
  · dsimp only at h
    have hb : ∀ (r0 r2 : Request) (wa wb : World σ),
        bindBackupRepo env wa r0 = (Except.ok r2, wb) → r2.targetPods = r0.targetPods := by
      intro r0 r2 wa wb hbind
      unfold bindBackupRepo at hbind
      repeat' split at hbind
      all_goals first
        | (cases hbind; rfl)
        | (simp only [Prod.mk.injEq, reduceCtorEq, false_and] at hbind)
    split at h
    · cases h
    · rename_i request2 w2 hbind
      have hb2 : request2.targetPods = [] := hb _ _ _ _ hbind
      split at h
      · rw [prepare4Incremental_targetPods env w2 w1 request2 request h, hb2]
      · split at h
        · split at h
          · cases h
          · cases h
            exact hb2
        · cases h
          exact hb2

theorem prepareBackupRequest_targetPods {σ : Type} (env : Env σ) (w w1 : World σ)
    (backup : Backup) (request : Request)
    (h : prepareBackupRequest env w backup = (Except.ok request, w1)) :
    request.targetPods = [] := by
  unfold prepareBackupRequest at h
  repeat' (first | split at h | (dsimp only at h; split at h))
  all_goals first
    | exact prepareBackupRequestTail_targetPods env _ _ backup _ _ _ _ request h
    | (simp only [Prod.mk.injEq, reduceCtorEq, false_and] at h)

/-- Every New-phase pass over a Backup whose status already records a target, and whose
request is built, ends in the panic of `PatchBackupObjectMeta`. -/
theorem handleNewPhase_recorded_target_panics {σ : Type} (env : Env σ) (w w1 : World σ)
    (backup : Backup) (request : Request)
    (hprep : prepareBackupRequest env w backup = (Except.ok request, w1))
    (hrec : (backup.status.target.isSome || backup.status.targets.length > 0) = true) :
    (handleNewPhase env w backup).result = Result.panicked := by
  have hb := prepareBackupRequest_backup env w w1 backup request hprep
  have ht := prepareBackupRequest_targetPods env w w1 backup request hprep
  have hrecord : recordBackupStatusTargets env w1 request = (GoErr.nil, request, w1) := by
    have hrec2 : (request.backup.status.target.isSome ||
        request.backup.status.targets.length > 0) = true := by
      rw [hb]; exact hrec
    unfold recordBackupStatusTargets
    rw [if_pos hrec2]
  have hmeta : PatchBackupObjectMeta env w1 backup request
      = ((false, GoErr.panic), request, w1) := by
    unfold PatchBackupObjectMeta
    rw [ht]
  unfold handleNewPhase
  rw [hprep]
  dsimp only
  rw [hrecord]
  dsimp only
  rw [hmeta]

/-- C30, the code at a failing input: a first New-phase pass over a Continuous backup
records the target and then fails because the actions cannot be built; it leaves the
Backup in phase Failed, never started, with `status.target` set.  The next pass hands it
to the New handling again, `recordBackupStatusTargets` returns early without resolving
any pod, and `PatchBackupObjectMeta` reads `request.TargetPods[0]` of an empty list. -/
theorem handleNewPhase_panics_on_recorded_target :
    failedAfterRecording.status.phase = BackupPhaseFailed ∧
    failedAfterRecording.status.target.isSome = true ∧
    failedAfterRecording.status.startTimestamp = none ∧
    failedAfterRecording.deletionTimestamp = none ∧
    labelOf failedAfterRecording retryEnv.BackupTypeLabelKey = BackupTypeContinuous ∧
    selectHandler retryEnv failedAfterRecording = Handler.handleNewPhase ∧
    (∃ request w1,
      prepareBackupRequest retryEnv sampleWorld failedAfterRecording = (Except.ok request, w1) ∧
      recordBackupStatusTargets retryEnv w1 request = (GoErr.nil, request, w1) ∧
      request.targetPods = []) ∧
    (handleNewPhase retryEnv sampleWorld failedAfterRecording).result = Result.panicked ∧
    (Reconcile retryEnv sampleWorld "ns" "b").result = Result.panicked :=
  ⟨by decide, by decide, by decide, by decide, by decide, by decide,
   ⟨_, _, rfl, rfl, rfl⟩, by decide, by decide⟩

/-! ## Lineage: from the request builder to the status patch -/

theorem setStatusTarget_lineage {σ : Type} (env : Env σ) (w : World σ) (request : Request)
    (target : BackupTarget) :
    (setStatusTarget env w request target).2.1.parentBackup = request.parentBackup ∧
    (setStatusTarget env w request target).2.1.baseBackup = request.baseBackup := by
  have hb := buildStatusTarget_request env w request target
  obtain ⟨t, pods, sa, hf⟩ := prepareRequestTargetInfo_frame env w request target
  rw [hf] at hb
  unfold setStatusTarget
  split
  · rename_i heq
    rw [heq] at hb
    dsimp only at hb ⊢
    rw [hb]
    exact ⟨rfl, rfl⟩
  · rename_i heq
    rw [heq] at hb
    dsimp only at hb ⊢
    rw [hb]
    exact ⟨rfl, rfl⟩

theorem setStatusTargets_lineage {σ : Type} (env : Env σ) :
    ∀ (targets : List BackupTarget) (w : World σ) (request : Request),
      (setStatusTargets env targets w request).2.1.parentBackup = request.parentBackup ∧
      (setStatusTargets env targets w request).2.1.baseBackup = request.baseBackup := by
  intro targets
  induction targets with
  | nil => intro w request; exact ⟨rfl, rfl⟩
  | cons target rest ih =>
    intro w request
    have hb := buildStatusTarget_request env w request target
    obtain ⟨t, pods, sa, hf⟩ := prepareRequestTargetInfo_frame env w request target
    rw [hf] at hb
    unfold setStatusTargets
    split
    · rename_i heq
      rw [heq] at hb
      dsimp only at hb ⊢
      rw [hb]
      exact ⟨rfl, rfl⟩
    · rename_i statusTarget request2 w2 heq
      rw [heq] at hb
      dsimp only at hb
      obtain ⟨a, b⟩ := ih w2 (appendTarget request2 statusTarget)
      rw [a, b, hb]
      exact ⟨rfl, rfl⟩

theorem recordBackupStatusTargets_lineage {σ : Type} (env : Env σ) (w : World σ)
    (request : Request) :
    (recordBackupStatusTargets env w request).2.1.parentBackup = request.parentBackup ∧
    (recordBackupStatusTargets env w request).2.1.baseBackup = request.baseBackup := by
  unfold recordBackupStatusTargets
  split
  · exact ⟨rfl, rfl⟩
  · split
    · exact setStatusTarget_lineage env w request _
    · split
      · exact setStatusTargets_lineage env _ w request
      · split
        · exact setStatusTarget_lineage env w request _
        · split
          · exact setStatusTargets_lineage env _ w request
          · exact ⟨rfl, rfl⟩

theorem metaLabels_lineage {σ : Type} (env : Env σ) (request : Request) (targetPod : Pod) :
    (metaLabels env request targetPod).1.parentBackup = request.parentBackup ∧
    (metaLabels env request targetPod).1.baseBackup = request.baseBackup := by
  have hfold : ∀ (keys : List String) (r : Request),
      (keys.foldl (fun (r : Request) (v : String) =>
        match targetPod.labels.lookup v with
        | some labelValue => setLabel r v labelValue
        | none => r) r).parentBackup = r.parentBackup ∧
      (keys.foldl (fun (r : Request) (v : String) =>
        match targetPod.labels.lookup v with
        | some labelValue => setLabel r v labelValue
        | none => r) r).baseBackup = r.baseBackup := by
    intro keys
    induction keys with
    | nil => intro r; exact ⟨rfl, rfl⟩
    | cons k rest ih =>
      intro r
      rw [List.foldl_cons, (ih _).1, (ih _).2]
      split <;> exact ⟨rfl, rfl⟩
  have h2 : ∀ r : Request,
      (match (entries r.backup.labels).lookup env.AppManagedByLabelKey with
      | some _ => r
      | none => setLabel r env.AppManagedByLabelKey env.AppName).parentBackup
        = r.parentBackup ∧
      (match (entries r.backup.labels).lookup env.AppManagedByLabelKey with
      | some _ => r
      | none => setLabel r env.AppManagedByLabelKey env.AppName).baseBackup
        = r.baseBackup := by
    intro r
    split <;> exact ⟨rfl, rfl⟩
  unfold metaLabels
  dsimp only
  split
  · split
    · simp only [setLabel]
      exact ⟨(h2 _).1.trans (hfold _ _).1, (h2 _).2.trans (hfold _ _).2⟩
    · simp only [setLabel]
      exact ⟨(h2 _).1.trans (hfold _ _).1, (h2 _).2.trans (hfold _ _).2⟩
  · simp only [setLabel]
    exact ⟨(h2 _).1.trans (hfold _ _).1, (h2 _).2.trans (hfold _ _).2⟩

theorem patchMetaLabels_lineage {σ : Type} (env : Env σ) (w : World σ) (original : Backup)
    (request : Request) (targetPod : Pod) :
    (patchMetaLabels env w original request targetPod).2.1.parentBackup
      = request.parentBackup ∧
    (patchMetaLabels env w original request targetPod).2.1.baseBackup
      = request.baseBackup := by
  unfold patchMetaLabels
  split
  · exact ⟨rfl, rfl⟩
  · dsimp only
    split
    · exact metaLabels_lineage env request targetPod
    · exact metaLabels_lineage env request targetPod

theorem PatchBackupObjectMeta_lineage {σ : Type} (env : Env σ) (w : World σ)
    (original : Backup) (request : Request) :
    (PatchBackupObjectMeta env w original request).2.1.parentBackup = request.parentBackup ∧
    (PatchBackupObjectMeta env w original request).2.1.baseBackup = request.baseBackup := by
  unfold PatchBackupObjectMeta
  split
  · exact ⟨rfl, rfl⟩
  · split
    · exact patchMetaLabels_lineage env _ original request _
    · rename_i cluster w0 _
      have h1 : ( setClusterSnapshotAnnotation env w0 request cluster).2.1.parentBackup
            = request.parentBackup ∧
          ( setClusterSnapshotAnnotation env w0 request cluster).2.1.baseBackup
            = request.baseBackup := by
        unfold setClusterSnapshotAnnotation
        split <;> exact ⟨rfl, rfl⟩
      split
      · rename_i heq
        rw [heq] at h1
        exact h1
      · rename_i request1 w1 heq
        rw [heq] at h1
        dsimp only at h1
        have h2 : ( setEncryptedSystemAccountsAnnotation env w1 request1 cluster).2.1.parentBackup
              = request1.parentBackup ∧
            ( setEncryptedSystemAccountsAnnotation env w1 request1 cluster).2.1.baseBackup
              = request1.baseBackup := by
          unfold setEncryptedSystemAccountsAnnotation
          split
          · exact ⟨rfl, rfl⟩
          · exact ⟨rfl, rfl⟩
          · split
            · split <;> exact ⟨rfl, rfl⟩
            · exact ⟨rfl, rfl⟩
        split
        · rename_i heq2
          rw [heq2] at h2
          exact ⟨h2.1.trans h1.1, h2.2.trans h1.2⟩
        · rename_i heq2
          rw [heq2] at h2
          exact ⟨h2.1.trans h1.1, h2.2.trans h1.2⟩
        · rename_i request2 w2 heq2
          rw [heq2] at h2
          dsimp only at h2
          split
          · exact ⟨h2.1.trans h1.1, h2.2.trans h1.2⟩
          · obtain ⟨a, b⟩ := patchMetaLabels_lineage env w2 original
              (setLabel request2 env.ClusterUIDLabelKey cluster.uid) _
            rw [a, b]
            exact ⟨h2.1.trans h1.1, h2.2.trans h1.2⟩

/-- C3: for a Backup whose request is built up to the lineage resolution (policy found and
usable, method with an action set that is found and accepts the parameters, encryption
check passed, repository bound, backup type Incremental) and for which
`prepare4Incremental` succeeds: it has found a parent P and looked up P's backup type;
target recording and the metadata patch keep the parent and the base of the request; and
when the New pass reaches `patchBackupStatus`, every status this call writes carries
`parentBackupName = P.name`, and `baseBackupName = P.name` when P's type is Full, else
`baseBackupName = P.status.baseBackupName` (a lookup by name is assumed to return a
record of that name).  When `patchBackupStatus` returns no error it has written that
status, and it is the status the pass ends with. -/
theorem prepare4Incremental_lineage {σ : Type} (env : Env σ)
    (w0 w1 w2 w3 w w5 w6 w7 : World σ)
    (backup : Backup) (policy : BackupPolicy) (method : BackupMethod) (actionSet : ActionSet)
    (request request1 request2 request3 : Request)
    (hpol : w0.call (env.GetBackupPolicyByName backup.spec.backupPolicyName)
      = (Except.ok policy, w1))
    (havail : policy.phase ≠ UnavailablePhase)
    (hm : env.GetBackupMethodByName backup.spec.backupMethod policy = some method)
    (hasn : method.actionSetName ≠ "")
    (has : w1.call (env.GetActionSetByName method.actionSetName) = (Except.ok actionSet, w2))
    (hval : env.ValidateParameters actionSet backup.spec.parameters = none)
    (henc : checkPolicyEncryption env w2 policy = (none, w3))
    (hbind : bindBackupRepo env w3 (newRequest backup policy method
      (IsSetToTrue method.snapshotVolumes) (some actionSet)) = (Except.ok request, w))
    (hinc : env.GetBackupType request = BackupTypeIncremental)
    (hprep : prepare4Incremental env w request = (Except.ok request1, w5))
    (hget : ∀ (ns name : String) (s : σ) (b : Backup),
      (env.GetBackup ns name s).1 = Except.ok b → b.name = name)
    (hrec : recordBackupStatusTargets env w5 request1 = (GoErr.nil, request2, w6))
    (hmeta : PatchBackupObjectMeta env w6 backup request2
      = ((false, GoErr.nil), request3, w7)) :
    ∃ (repo : BackupRepo) (P : Backup) (parentType : String) (wa wb : World σ),
      request.backupRepo = some repo ∧
      w.call (env.GetParentBackup request.backup request.backupMethod repo.name)
        = (Except.ok P, wa) ∧
      wa.call (env.GetBackupTypeByMethodName P.spec.backupMethod request.backupPolicy)
        = (Except.ok parentType, wb) ∧
      request1.parentBackup = some P ∧
      request3.parentBackup = request1.parentBackup ∧
      request3.baseBackup = request1.baseBackup ∧
      (∀ obj orig : Backup,
        Event.statusPatch obj orig ∈ (patchBackupStatus env w7 backup
          (setStatus request3 request2.backup.status)).world.trace →
        Event.statusPatch obj orig ∈ w7.trace ∨
          (obj.status.parentBackupName = P.name ∧
           obj.status.baseBackupName =
             if parentType = BackupTypeFull then P.name else P.status.baseBackupName)) ∧
      ((patchBackupStatus env w7 backup (setStatus request3 request2.backup.status)).err
          = GoErr.nil →
        (handleNewPhase env w0 backup).result = Result.reconciled ∧
        Event.statusPatch (handleNewPhase env w0 backup).backup backup
          ∈ (handleNewPhase env w0 backup).world.trace ∧
        (handleNewPhase env w0 backup).backup.status.parentBackupName = P.name ∧
        (handleNewPhase env w0 backup).backup.status.baseBackupName =
          if parentType = BackupTypeFull then P.name else P.status.baseBackupName) := by
  obtain ⟨repo, P, B, parentType, wa, wb, hrepo, hpar, hty, hP, hB, hname⟩ :=
    prepare4Incremental_ok env w w5 request request1 hprep hget
  have hbuilt : prepareBackupRequest env w0 backup = (Except.ok request1, w5) := by
    rw [prepareBackupRequest_incremental env w0 w1 w2 w3 w backup policy method actionSet
      request hpol havail hm hasn has hval henc hbind hinc, hprep]
  have hl2 := recordBackupStatusTargets_lineage env w5 request1
  rw [hrec] at hl2
  dsimp only at hl2
  have hl3 := PatchBackupObjectMeta_lineage env w6 backup request2
  rw [hmeta] at hl3
  dsimp only at hl3
  have hP3 : (setStatus request3 request2.backup.status).parentBackup = some P := by
    show request3.parentBackup = some P
    rw [hl3.1, hl2.1, hP]
  have hB3 : (setStatus request3 request2.backup.status).baseBackup = some B := by
    show request3.baseBackup = some B
    rw [hl3.2, hl2.2, hB]
  have hall : ∀ obj orig : Backup,
      Event.statusPatch obj orig ∈ (patchBackupStatus env w7 backup
        (setStatus request3 request2.backup.status)).world.trace →
      Event.statusPatch obj orig ∈ w7.trace ∨
        (obj.status.parentBackupName = P.name ∧
         obj.status.baseBackupName =
           if parentType = BackupTypeFull then P.name else P.status.baseBackupName) := by
    intro obj orig hmem
    rw [← hname]
    exact patchBackupStatus_lineage env w7 backup _ P B hP3 hB3 obj orig hmem
  refine ⟨repo, P, parentType, wa, wb, hrepo, hpar, hty, hP, hl3.1.trans hl2.1,
    hl3.2.trans hl2.2, hall, fun hok => ?_⟩
  have hout : handleNewPhase env w0 backup
      = { result := Result.reconciled,
          backup := (patchBackupStatus env w7 backup
            (setStatus request3 request2.backup.status)).request.backup,
          world := (patchBackupStatus env w7 backup
            (setStatus request3 request2.backup.status)).world } := by
    unfold handleNewPhase
    rw [hbuilt]
    dsimp only
    rw [hrec]
    dsimp only
    rw [hmeta]
    dsimp only
    rw [hok]
  have hwritten := patchBackupStatus_written env w7 backup
    (setStatus request3 request2.backup.status) hok
  have hfields := patchBackupStatus_lineage_ok env w7 backup
    (setStatus request3 request2.backup.status) P B hP3 hB3 hok
  rw [hout]
  refine ⟨rfl, hwritten, hfields.1, ?_⟩
  rw [← hname]
  exact hfields.2

/-- Witness of C3: a New pass over the sample Backup, incremental with the Full backup
`parent` as parent, ends with the lineage written. -/
theorem prepare4Incremental_lineage_witness :
    (handleNewPhase incrementalEnv sampleWorld sampleBackup).result = Result.reconciled ∧
    Event.statusPatch (handleNewPhase incrementalEnv sampleWorld sampleBackup).backup
      sampleBackup ∈ (handleNewPhase incrementalEnv sampleWorld sampleBackup).world.trace ∧
    (handleNewPhase incrementalEnv sampleWorld sampleBackup).backup.status.parentBackupName
      = "parent" ∧
    (handleNewPhase incrementalEnv sampleWorld sampleBackup).backup.status.baseBackupName
      = "parent" := by
  obtain ⟨repo, P, parentType, wa, wb, _, hpar, hty, _, _, _, _, hok⟩ :=
    prepare4Incremental_lineage incrementalEnv sampleWorld sampleWorld sampleWorld
      sampleWorld sampleWorld sampleWorld _ _ sampleBackup
      { samplePolicy with backupMethods := [actionSetMethod] } actionSetMethod
      { name := "as", backupType := BackupTypeIncremental } _ _ _ _
      rfl (by decide) rfl (by decide) rfl rfl rfl rfl rfl rfl
      (fun ns name s b h => by
        simp only [incrementalEnv, sampleEnv, Except.ok.injEq] at h
        rw [← h])
      rfl rfl
  obtain ⟨h1, h2, h3, h4⟩ := hok rfl
  have hPv : Except.ok ({ sampleBackup with name := "parent" } : Backup)
      = (Except.ok P : Except Error Backup) := congrArg Prod.fst hpar
  have hTv : (Except.ok BackupTypeFull : Except Error String) = Except.ok parentType :=
    congrArg Prod.fst hty
  simp only [Except.ok.injEq] at hPv hTv
  subst hPv
  subst hTv
  exact ⟨h1, h2, h3, h4⟩

end BackupController

namespace OpsRequestValidation

/-! ## Forced ops requests -/

/-- C28: for every ops request with `spec.force` set and a type other than Start, `Force`
holds and `ValidateClusterPhase` returns no error, for every table of behaviours, every
decoder and every cluster, whatever its phase and its ops-request annotation; for the
type Start, `Force` is false whatever `spec.force` is. -/
theorem ValidateClusterPhase_force (env : OpsEnv) (r : OpsRequest) (cluster : Cluster) :
    (r.spec.force = true → r.spec.opsType ≠ StartType →
      Force r = true ∧ ValidateClusterPhase env r cluster = none) ∧
    (r.spec.opsType = StartType → Force r = false) := by
  constructor
  · intro hf ht
    have hforce : Force r = true := by
      unfold Force
      rw [hf]
      simp [ht]
    refine ⟨hforce, ?_⟩
    unfold ValidateClusterPhase
    dsimp only
    split <;> rfl
  · intro ht
    unfold Force
    rw [ht]
    simp

/-- Witness of C28: the forced vertical scaling passes on an updating cluster whose
annotation does not decode, where the same request without force is refused with the
decoding error; a forced Start is not forced. -/
theorem ValidateClusterPhase_force_witness :
    (Force forcedOps = true ∧ ValidateClusterPhase sampleOpsEnv forcedOps sampleCluster = none) ∧
    ValidateClusterPhase sampleOpsEnv
      { forcedOps with spec := { forcedOps.spec with force := false } } sampleCluster
      = some (Errorf "invalid character") ∧
    Force { forcedOps with spec := { forcedOps.spec with opsType := StartType } } = false :=
  ⟨(ValidateClusterPhase_force sampleOpsEnv forcedOps sampleCluster).1 rfl (by decide),
   by decide,
   (ValidateClusterPhase_force sampleOpsEnv
     { forcedOps with spec := { forcedOps.spec with opsType := StartType } } sampleCluster).2
     rfl⟩

/-! ## Go maps as association lists -/

theorem lookup_cons_if {β : Type} (a k : String) (b : β) (es : List (String × β)) :
    ((k, b) :: es).lookup a = if a = k then some b else es.lookup a := by
  rw [List.lookup_cons]
  cases hb : a == k with
  | true =>
    have h : a = k := by simpa using hb
    simp [h]
  | false =>
    have h : ¬ a = k := by simpa using hb
    simp [h]

theorem lookup_goMapSet {β : Type} (m : List (String × β)) (k k1 : String) (v : β) :
    (goMapSet m k v).lookup k1 = if k1 = k then some v else m.lookup k1 := by
  induction m with
  | nil =>
    unfold goMapSet
    rw [lookup_cons_if]
  | cons p rest ih =>
    obtain ⟨k2, v2⟩ := p
    unfold goMapSet
    by_cases h2 : k2 = k
    · rw [if_pos h2, lookup_cons_if, lookup_cons_if]
      by_cases h : k1 = k
      · rw [if_pos h, if_pos h]
      · have h3 : ¬ k1 = k2 := by rw [h2]; exact h
        rw [if_neg h, if_neg h, if_neg h3]
    · rw [if_neg h2, lookup_cons_if, lookup_cons_if, ih]
      by_cases h3 : k1 = k2
      · have h : ¬ k1 = k := by rw [h3]; exact h2
        rw [if_pos h3, if_neg h, if_pos h3]
      · rw [if_neg h3, if_neg h3]

theorem mapKeys_goMapSet {β : Type} (m : List (String × β)) (k : String) (v v0 : β)
    (h : m.lookup k = some v0) : mapKeys (goMapSet m k v) = mapKeys m := by
  induction m with
  | nil => simp [List.lookup] at h
  | cons p rest ih =>
    obtain ⟨k2, v2⟩ := p
    unfold goMapSet
    by_cases h2 : k2 = k
    · rw [if_pos h2]
      simp [mapKeys, h2]
    · rw [if_neg h2]
      have h3 : ¬ k = k2 := fun x => h2 x.symm
      rw [lookup_cons_if, if_neg h3] at h
      have := ih h
      simp only [mapKeys, List.map_cons] at this ⊢
      rw [this]

theorem mem_mapKeys_of_lookup {β : Type} (m : List (String × β)) (k : String) (v : β)
    (h : m.lookup k = some v) : k ∈ mapKeys m := by
  induction m with
  | nil => simp [List.lookup] at h
  | cons p rest ih =>
    obtain ⟨k2, v2⟩ := p
    by_cases h3 : k = k2
    · simp [mapKeys, h3]
    · rw [lookup_cons_if, if_neg h3] at h
      have := ih h
      simp only [mapKeys, List.map_cons, List.mem_cons] at this ⊢
      exact Or.inr this

theorem lookupVol_setVol (vols : Vols) (key name key1 name1 : String) (e : Entity) :
    lookupVol (setVol vols key name e) key1 name1 =
      if key1 = key ∧ name1 = name then some e else lookupVol vols key1 name1 := by
  unfold lookupVol setVol
  rw [lookup_goMapSet]
  by_cases hk : key1 = key
  · rw [if_pos hk]
    dsimp only
    rw [lookup_goMapSet, hk]
    by_cases hn : name1 = name
    · simp [hn]
    · simp only [hn, and_false, if_false]
      cases vols.lookup key <;> rfl
  · rw [if_neg hk]
    simp [hk]

theorem mapKeys_setVol (vols : Vols) (key name : String) (e e0 : Entity)
    (h : lookupVol vols key name = some e0) : mapKeys (setVol vols key name e) = mapKeys vols := by
  unfold lookupVol at h
  cases hl : vols.lookup key with
  | none => rw [hl] at h; simp at h
  | some compVols => exact mapKeys_goMapSet vols key _ compVols hl

theorem foldl_invariant {α β : Type} (P : β → Prop) (f : β → α → β)
    (hf : ∀ b a, P b → P (f b a)) : ∀ (l : List α) (b : β), P b → P (l.foldl f b) := by
  intro l
  induction l with
  | nil => intro b hb; exact hb
  | cons a rest ih => intro b hb; exact ih (f b a) (hf b a hb)

/-! ## No entity allows expansion before the storage classes are checked -/

theorem setVol_unchecked (vols : Vols) (key name : String) (e : Entity)
    (he : e.allowExpansion = false)
    (h : ∀ k n x, lookupVol vols k n = some x → x.allowExpansion = false) :
    ∀ k n x, lookupVol (setVol vols key name e) k n = some x → x.allowExpansion = false := by
  intro k n x hx
  rw [lookupVol_setVol] at hx
  split at hx
  · cases hx; exact he
  · exact h k n x hx

theorem fillVol_unchecked (vols : Vols) (vct : PersistentVolumeClaimTemplate) (key : String)
    (sh : Bool) (h : ∀ k n x, lookupVol vols k n = some x → x.allowExpansion = false) :
    ∀ k n x, lookupVol (fillVol vols vct key sh) k n = some x → x.allowExpansion = false := by
  unfold fillVol
  cases hl : lookupVol vols key vct.name with
  | none => exact h
  | some e => exact setVol_unchecked vols key vct.name _ (h key vct.name e hl) h

theorem fillCompVols_unchecked (vols : Vols) (compSpec : ClusterComponentSpec) (key : String)
    (sh : Bool) (h : ∀ k n x, lookupVol vols k n = some x → x.allowExpansion = false) :
    ∀ k n x, lookupVol (fillCompVols vols compSpec key sh) k n = some x →
      x.allowExpansion = false := by
  unfold fillCompVols
  split
  · exact h
  · exact foldl_invariant
      (fun (acc : Vols) => ∀ k n x, lookupVol acc k n = some x → x.allowExpansion = false)
      _ (fun b a hb => fillVol_unchecked b a key sh hb) _ vols h

theorem buildVols_unchecked (r : OpsRequest) (cluster : Cluster) :
    ∀ k n x, lookupVol (buildVols r cluster) k n = some x → x.allowExpansion = false := by
  unfold buildVols
  dsimp only
  apply foldl_invariant
    (fun (acc : Vols) => ∀ k n x, lookupVol acc k n = some x → x.allowExpansion = false)
  · intro b a hb
    exact fillCompVols_unchecked b a.template a.name true hb
  · apply foldl_invariant
      (fun (acc : Vols) => ∀ k n x, lookupVol acc k n = some x → x.allowExpansion = false)
    · intro b a hb
      exact fillCompVols_unchecked b a a.name false hb
    · apply foldl_invariant
        (fun (acc : Vols) => ∀ k n x, lookupVol acc k n = some x → x.allowExpansion = false)
      · intro b a hb
        unfold setVols
        exact foldl_invariant
          (fun (acc : Vols) => ∀ k n x, lookupVol acc k n = some x → x.allowExpansion = false)
          _ (fun b1 a1 hb1 => setVol_unchecked b1 a.componentName a1.name _ rfl hb1) _ b hb
      · intro k n x hx
        simp [lookupVol, List.lookup] at hx

/-! ## What the check of the storage classes keeps -/

theorem checkCompVols_invariant (env : OpsEnv) (r : OpsRequest) (P : Vols → Prop)
    (hP : ∀ (key vname : String) (vols vols1 : Vols), P vols →
      checkVol env r key vname vols = Except.ok vols1 → P vols1) (key : String) :
    ∀ (names : List String) (vols vols1 : Vols), P vols →
      checkCompVols env r key names vols = Except.ok vols1 → P vols1 := by
  intro names
  induction names with
  | nil =>
    intro vols vols1 hinv h
    unfold checkCompVols at h
    cases h
    exact hinv
  | cons vname rest ih =>
    intro vols vols1 hinv h
    unfold checkCompVols at h
    cases hc : checkVol env r key vname vols with
    | error e2 => rw [hc] at h; cases h
    | ok vols2 =>
      rw [hc] at h
      exact ih vols2 vols1 (hP key vname vols vols2 hinv hc) h

theorem checkAllVols_invariant (env : OpsEnv) (r : OpsRequest) (P : Vols → Prop)
    (hP : ∀ (key vname : String) (vols vols1 : Vols), P vols →
      checkVol env r key vname vols = Except.ok vols1 → P vols1) :
    ∀ (keys : List String) (vols vols1 : Vols), P vols →
      checkAllVols env r keys vols = Except.ok vols1 → P vols1 := by
  intro keys
  induction keys with
  | nil =>
    intro vols vols1 hinv h
    unfold checkAllVols at h
    cases h
    exact hinv
  | cons key rest ih =>
    intro vols vols1 hinv h
    unfold checkAllVols at h
    cases hc : checkCompVols env r key (rangeNames env (RangeSite.checkInner key) vols key)
      vols with
    | error e2 => rw [hc] at h; cases h
    | ok vols2 =>
      rw [hc] at h
      exact ih vols2 vols1 (checkCompVols_invariant env r P hP key _ vols vols2 hinv hc) h

/-- A failed lookup of the storage class is either passed on (any error but NotFound) or
answered with "no expansion" (NotFound); it never answers that expansion is allowed. -/
theorem checkStorageClassAllowExpansion_failed (env : OpsEnv) (name : String) (err : Error)
    (hget : env.getStorageClass name = Except.error err) :
    checkStorageClassAllowExpansion env (some name)
      = if err.apiNotFound then Except.ok false else Except.error err := by
  unfold checkStorageClassAllowExpansion
  dsimp only
  rw [hget]
  dsimp only
  cases err.apiNotFound <;> rfl

theorem checkVol_unsupported (env : OpsEnv) (r : OpsRequest) (k v : String) (e : Entity)
    (name : String) (err : Error)
    (hsc : getSCNameByPvcAndCheckStorageSize env r k v e.isShardingComponent e.requestStorage
      = Except.ok (some name))
    (hget : env.getStorageClass name = Except.error err)
    (key vname : String) (vols vols1 : Vols) (hinv : Unsupported k v e vols)
    (h : checkVol env r key vname vols = Except.ok vols1) :
    Unsupported k v e vols1 := by
  obtain ⟨e0, hl0, ha0, hx0, hs0, hr0⟩ := hinv
  unfold checkVol at h
  cases hl : lookupVol vols key vname with
  | none =>
    rw [hl] at h
    cases h
    exact ⟨e0, hl0, ha0, hx0, hs0, hr0⟩
  | some e1 =>
    rw [hl] at h
    dsimp only at h
    by_cases hex : e1.existInSpec = true
    · simp only [hex, Bool.not_true, Bool.false_eq_true, if_false] at h
      cases hg : getSCNameByPvcAndCheckStorageSize env r key vname e1.isShardingComponent
        e1.requestStorage with
      | error e2 => rw [hg] at h; cases h
      | ok sc1 =>
        rw [hg] at h
        dsimp only at h
        cases hc : checkStorageClassAllowExpansion env sc1 with
        | error e3 =>
          rw [hc] at h
          cases h
          exact ⟨e0, hl0, ha0, hx0, hs0, hr0⟩
        | ok allow =>
          rw [hc] at h
          cases h
          unfold Unsupported
          rw [lookupVol_setVol]
          by_cases hkv : k = key ∧ v = vname
          · obtain ⟨h1, h2⟩ := hkv
            subst h1
            subst h2
            rw [hl0] at hl
            cases hl
            rw [hs0, hr0, hsc] at hg
            cases hg
            rw [checkStorageClassAllowExpansion_failed env name err hget] at hc
            have hallow : allow = false := by
              cases hnf : err.apiNotFound
              · rw [hnf] at hc; cases hc
              · rw [hnf] at hc
                simp only [if_true, Except.ok.injEq] at hc
                exact hc.symm
            rw [if_pos ⟨rfl, rfl⟩]
            exact ⟨_, rfl, hallow, rfl, hs0, hr0⟩
          · rw [if_neg hkv]
            exact ⟨e0, hl0, ha0, hx0, hs0, hr0⟩
    · have hex2 : e1.existInSpec = false := by
        cases hb : e1.existInSpec
        · rfl
        · exact absurd hb hex
      simp only [hex2, Bool.not_false, if_true] at h
      cases h
      exact ⟨e0, hl0, ha0, hx0, hs0, hr0⟩

theorem checkVol_missing (env : OpsEnv) (r : OpsRequest) (k v : String) (x : Entity)
    (hx : x.existInSpec = false) (key vname : String) (vols vols1 : Vols)
    (hinv : lookupVol vols k v = some x)
    (h : checkVol env r key vname vols = Except.ok vols1) :
    lookupVol vols1 k v = some x := by
  unfold checkVol at h
  cases hl : lookupVol vols key vname with
  | none =>
    rw [hl] at h
    cases h
    exact hinv
  | some e1 =>
    rw [hl] at h
    dsimp only at h
    by_cases hex : e1.existInSpec = true
    · simp only [hex, Bool.not_true, Bool.false_eq_true, if_false] at h
      cases hg : getSCNameByPvcAndCheckStorageSize env r key vname e1.isShardingComponent
        e1.requestStorage with
      | error e2 => rw [hg] at h; cases h
      | ok sc1 =>
        rw [hg] at h
        dsimp only at h
        cases hc : checkStorageClassAllowExpansion env sc1 with
        | error e3 =>
          rw [hc] at h
          cases h
          exact hinv
        | ok allow =>
          rw [hc] at h
          cases h
          rw [lookupVol_setVol]
          by_cases hkv : k = key ∧ v = vname
          · obtain ⟨h1, h2⟩ := hkv
            subst h1
            subst h2
            rw [hinv] at hl
            cases hl
            rw [hx] at hex
            cases hex
          · rw [if_neg hkv]
            exact hinv
    · have hex2 : e1.existInSpec = false := by
        cases hb : e1.existInSpec
        · rfl
        · exact absurd hb hex
      simp only [hex2, Bool.not_false, if_true] at h
      cases h
      exact hinv

theorem checkVol_existInSpec (env : OpsEnv) (r : OpsRequest) (k : String)
    (key vname : String) (vols vols1 : Vols)
    (hinv : ∀ name x, lookupVol vols k name = some x → x.existInSpec = true)
    (h : checkVol env r key vname vols = Except.ok vols1) :
    ∀ name x, lookupVol vols1 k name = some x → x.existInSpec = true := by
  unfold checkVol at h
  cases hl : lookupVol vols key vname with
  | none =>
    rw [hl] at h
    cases h
    exact hinv
  | some e1 =>
    rw [hl] at h
    dsimp only at h
    by_cases hex : e1.existInSpec = true
    · simp only [hex, Bool.not_true, Bool.false_eq_true, if_false] at h
      cases hg : getSCNameByPvcAndCheckStorageSize env r key vname e1.isShardingComponent
        e1.requestStorage with
      | error e2 => rw [hg] at h; cases h
      | ok sc1 =>
        rw [hg] at h
        dsimp only at h
        cases hc : checkStorageClassAllowExpansion env sc1 with
        | error e3 =>
          rw [hc] at h
          cases h
          exact hinv
        | ok allow =>
          rw [hc] at h
          cases h
          intro name x hx
          rw [lookupVol_setVol] at hx
          by_cases hkv : k = key ∧ name = vname
          · rw [if_pos hkv] at hx
            cases hx
            rfl
          · rw [if_neg hkv] at hx
            exact hinv name x hx
    · have hex2 : e1.existInSpec = false := by
        cases hb : e1.existInSpec
        · rfl
        · exact absurd hb hex
      simp only [hex2, Bool.not_false, if_true] at h
      cases h
      exact hinv

/-! ## The report -/

theorem visited_mem (compVols : List (String × Entity)) (names : List String) (v : String)
    (e : Entity) (hv : v ∈ names) (hl : compVols.lookup v = some e) :
    (v, e) ∈ visited compVols names := by
  unfold visited
  rw [List.mem_filterMap]
  exact ⟨v, hv, by rw [hl]⟩

theorem visited_lookup (compVols : List (String × Entity)) (names : List String)
    (p : String × Entity) (hp : p ∈ visited compVols names) :
    compVols.lookup p.1 = some p.2 := by
  unfold visited at hp
  rw [List.mem_filterMap] at hp
  obtain ⟨n, _, hn⟩ := hp
  cases hl : compVols.lookup n with
  | none => rw [hl] at hn; cases hn
  | some x =>
    rw [hl] at hn
    cases hn
    exact hl

theorem reportComp_some (r : OpsRequest) (cluster : Cluster) (key : String)
    (entries : List (String × Entity)) (v : String) (e : Entity) (hmem : (v, e) ∈ entries)
    (he : e.allowExpansion = false) : reportComp r cluster key entries ≠ none := by
  unfold reportComp
  dsimp only
  split
  · simp
  · have hpos : ((entries.filter (fun entry => !entry.2.allowExpansion)).map
        (fun entry => entry.1)).length > 0 := by
      have hin : (v, e) ∈ entries.filter (fun entry => !entry.2.allowExpansion) := by
        rw [List.mem_filter]
        exact ⟨hmem, by simp [he]⟩
      rw [List.length_map]
      exact List.length_pos_of_mem hin
    rw [if_pos hpos]
    simp

theorem reportComp_notSupport (r : OpsRequest) (cluster : Cluster) (key : String)
    (entries : List (String × Entity)) (v : String) (e : Entity) (hmem : (v, e) ∈ entries)
    (he : e.allowExpansion = false) (hall : ∀ p ∈ entries, p.2.existInSpec = true) :
    ∃ (notSupportSc notSupport : List String), v ∈ notSupport ∧
      reportComp r cluster key entries = some (notSupportError notSupportSc notSupport key) := by
  have hin : (v, e) ∈ entries.filter (fun entry => !entry.2.allowExpansion) := by
    rw [List.mem_filter]
    exact ⟨hmem, by simp [he]⟩
  have hnf : entries.filter (fun entry => !entry.2.existInSpec) = [] := by
    rw [List.filter_eq_nil_iff]
    intro p hp
    simp [hall p hp]
  have hpos : ((entries.filter (fun entry => !entry.2.allowExpansion)).map
      (fun entry => entry.1)).length > 0 := by
    rw [List.length_map]
    exact List.length_pos_of_mem hin
  refine ⟨(entries.filter (fun entry => !entry.2.allowExpansion)).filterMap
      (fun entry => entry.2.storageClassName),
    (entries.filter (fun entry => !entry.2.allowExpansion)).map
      (fun entry => entry.1), List.mem_map.2 ⟨(v, e), hin, rfl⟩, ?_⟩
  unfold reportComp
  dsimp only
  rw [hnf]
  rw [if_neg (by simp), if_pos hpos]

theorem reportComp_notFound (r : OpsRequest) (cluster : Cluster) (key : String)
    (entries : List (String × Entity)) (v : String) (x : Entity) (hmem : (v, x) ∈ entries)
    (hx : x.existInSpec = false) :
    ∃ (notFound : List String), v ∈ notFound ∧
      reportComp r cluster key entries = some (notFoundError r cluster notFound key) := by
  have hin : (v, x) ∈ entries.filter (fun entry => !entry.2.existInSpec) := by
    rw [List.mem_filter]
    exact ⟨hmem, by simp [hx]⟩
  have hpos : ((entries.filter (fun entry => !entry.2.existInSpec)).map
      (fun entry => entry.1)).length > 0 := by
    rw [List.length_map]
    exact List.length_pos_of_mem hin
  refine ⟨(entries.filter (fun entry => !entry.2.existInSpec)).map (fun entry => entry.1),
    List.mem_map.2 ⟨(v, x), hin, rfl⟩, ?_⟩
  unfold reportComp
  dsimp only
  rw [if_pos hpos]

theorem reportVols_some (env : OpsEnv) (r : OpsRequest) (cluster : Cluster) (vols : Vols)
    (k : String)
    (hk : reportComp r cluster k (visited ((vols.lookup k).getD [])
      (rangeNames env (RangeSite.reportInner k) vols k)) ≠ none) :
    ∀ (keys : List String), k ∈ keys → reportVols env r cluster vols keys ≠ none := by
  intro keys
  induction keys with
  | nil => intro h; simp at h
  | cons key rest ih =>
    intro hmem
    unfold reportVols
    cases hc : reportComp r cluster key (visited ((vols.lookup key).getD [])
      (rangeNames env (RangeSite.reportInner key) vols key)) with
    | some err => simp
    | none =>
      dsimp only
      rcases List.mem_cons.1 hmem with h | h
      · subst h
        exact absurd hc hk
      · exact ih h

/-- The entity of a volume is visited by the report, whatever the order. -/
theorem visited_of_lookupVol (env : OpsEnv) (vols : Vols) (k v : String) (e : Entity)
    (hperm : ∀ site l, (env.rangeOrder site l).Perm l)
    (hinv : lookupVol vols k v = some e) :
    k ∈ env.rangeOrder RangeSite.reportOuter (mapKeys vols) ∧
    (v, e) ∈ visited ((vols.lookup k).getD [])
      (rangeNames env (RangeSite.reportInner k) vols k) := by
  unfold lookupVol at hinv
  cases hl : vols.lookup k with
  | none => rw [hl] at hinv; cases hinv
  | some compVols =>
    rw [hl] at hinv
    dsimp only at hinv
    constructor
    · exact (hperm _ _).mem_iff.2 (mem_mapKeys_of_lookup vols k compVols hl)
    · apply visited_mem
      · unfold rangeNames
        rw [hl]
        exact (hperm _ _).mem_iff.2 (mem_mapKeys_of_lookup compVols v e hinv)
      · exact hinv

/-- The error the reporting loop returns is the report of one of the components. -/
theorem reportVols_first (env : OpsEnv) (r : OpsRequest) (cluster : Cluster) (vols : Vols)
    (err : Error) :
    ∀ (keys : List String), reportVols env r cluster vols keys = some err →
      ∃ key ∈ keys, reportComp r cluster key (visited ((vols.lookup key).getD [])
        (rangeNames env (RangeSite.reportInner key) vols key)) = some err := by
  intro keys
  induction keys with
  | nil => intro h; simp [reportVols] at h
  | cons key rest ih =>
    intro h
    unfold reportVols at h
    cases hc : reportComp r cluster key (visited ((vols.lookup key).getD [])
      (rangeNames env (RangeSite.reportInner key) vols key)) with
    | some err1 =>
      rw [hc] at h
      dsimp only at h
      cases h
      exact ⟨key, List.mem_cons_self _ _, hc⟩
    | none =>
      rw [hc] at h
      dsimp only at h
      obtain ⟨key1, hmem, hrep⟩ := ih h
      exact ⟨key1, List.mem_cons_of_mem _ hmem, hrep⟩

/-! ## A failing storage-class lookup -/

/-- C29 fails as stated: the storage-class lookup of the template `data` of `mysql`, which
exists in the cluster spec, fails with an error, and the validation returns another error
than the not-support error of `mysql`, in whatever order the maps are visited: the
not-found error when the request also names a template `log` the component does not
have; the size error of the template `logs` when the request also asks for less than its
capacity; and, when `data` of `redis` is requested too and its lookup fails as well, the
not-support error of the component visited first, which is `redis` in one order and
`mysql` in the other. -/
theorem checkVolumesAllowExpansion_reports_not_found :
    lookupVol (buildVols expandDataAndLog sampleCluster) "mysql" "data"
      = some { existInSpec := true, storageClassName := some "fast", allowExpansion := false,
               requestStorage := 20, isShardingComponent := false } ∧
    getSCNameByPvcAndCheckStorageSize sampleOpsEnv expandDataAndLog "mysql" "data" false 20
      = Except.ok (some "fast") ∧
    checkStorageClassAllowExpansion sampleOpsEnv (some "fast")
      = Except.error (Errorf "connection refused") ∧
    checkVolumesAllowExpansion sampleOpsEnv expandDataAndLog sampleCluster
      = some (notFoundError expandDataAndLog sampleCluster ["log"] "mysql") ∧
    checkVolumesAllowExpansion reversedOpsEnv expandDataAndLog sampleCluster
      = some (notFoundError expandDataAndLog sampleCluster ["log"] "mysql") ∧
    (notFoundError expandDataAndLog sampleCluster ["log"] "mysql").msg
      = "volumeClaimTemplates: [log] not found in component: mysql, you can view infos by command: kubectl get cluster c -n ns" ∧
    lookupVol (buildVols expandDataShrinkLogs twoComponentCluster) "mysql" "data"
      = some { existInSpec := true, storageClassName := some "fast", allowExpansion := false,
               requestStorage := 20, isShardingComponent := false } ∧
    (∀ name x, lookupVol (buildVols expandDataShrinkLogs twoComponentCluster) "mysql" name
      = some x → x.existInSpec = true) ∧
    checkVolumesAllowExpansion sampleOpsEnv expandDataShrinkLogs twoComponentCluster
      = some (Errorf "requested storage size of volumeClaimTemplate \"logs\" can not less than status.capacity.storage \"10\" ") ∧
    checkVolumesAllowExpansion reversedOpsEnv expandDataShrinkLogs twoComponentCluster
      = some (Errorf "requested storage size of volumeClaimTemplate \"logs\" can not less than status.capacity.storage \"10\" ") ∧
    lookupVol (buildVols expandBoth twoComponentCluster) "mysql" "data"
      = some { existInSpec := true, storageClassName := some "fast", allowExpansion := false,
               requestStorage := 20, isShardingComponent := false } ∧
    mapKeys (buildVols expandBoth twoComponentCluster) = ["mysql", "redis"] ∧
    checkVolumesAllowExpansion sampleOpsEnv expandBoth twoComponentCluster
      = some (notSupportError ["fast"] ["data"] "mysql") ∧
    checkVolumesAllowExpansion reversedOpsEnv expandBoth twoComponentCluster
      = some (notSupportError ["fast"] ["data"] "redis") ∧
    notSupportError ["fast"] ["data"] "redis" ≠ notSupportError ["fast"] ["data"] "mysql" := by
  refine ⟨by decide, rfl, rfl, by decide, by decide, by decide, by decide, ?_, by decide,
    by decide, by decide, by decide, by decide, by decide, by decide⟩
  intro name x hx
  have hb : buildVols expandDataShrinkLogs twoComponentCluster
      = [("mysql", [("data", { existInSpec := true, storageClassName := some "fast",
                               allowExpansion := false, requestStorage := 20,
                               isShardingComponent := false }),
                    ("logs", { existInSpec := true, storageClassName := some "fast",
                               allowExpansion := false, requestStorage := 5,
                               isShardingComponent := false })])] := by decide
  rw [hb] at hx
  unfold lookupVol at hx
  rw [lookup_cons_if, if_pos rfl] at hx
  dsimp only at hx
  rw [lookup_cons_if] at hx
  split at hx
  · cases hx; rfl
  · rw [lookup_cons_if] at hx
    split at hx
    · cases hx; rfl
    · simp [List.lookup] at hx

/-- C29 as amended: let the volume claim template `v` of the component `k` be requested
and exist in the cluster spec, let its claim be read, and let the lookup of its storage
class fail with an error, NotFound or any other.  Then, whatever the order in which the
maps are visited: the lookup never answers that expansion is allowed; the turn of the
checking loop for that volume returns no error (the lookup error is dropped); the volume
counts as not supporting expansion before and after the check; and the validation never
succeeds.  An error of the checking loop (a claim that cannot be read, a requested size
below the capacity) is returned as it is.  When the checking loop returns no error and
all requested templates of `k` exist in the cluster spec, the report for `k` is the error
for templates that do not support expansion, it names `v`, and the validation returns
either this error or the error reported for another component; when a requested template
of `k` is missing from the cluster spec, the report for `k` is the not-found error, which
names that template. -/
theorem checkVolumesAllowExpansion_lookup_error (env : OpsEnv) (r : OpsRequest)
    (cluster : Cluster) (k v : String) (e : Entity) (name : String) (err : Error)
    (hperm : ∀ site l, (env.rangeOrder site l).Perm l)
    (hvol : lookupVol (buildVols r cluster) k v = some e)
    (hspec : e.existInSpec = true)
    (hsc : getSCNameByPvcAndCheckStorageSize env r k v e.isShardingComponent e.requestStorage
      = Except.ok (some name))
    (hget : env.getStorageClass name = Except.error err) :
    checkStorageClassAllowExpansion env (some name) ≠ Except.ok true ∧
    (∀ vols, lookupVol vols k v = some e →
      ∃ vols1 e1, checkVol env r k v vols = Except.ok vols1 ∧
        lookupVol vols1 k v = some e1 ∧ e1.allowExpansion = false) ∧
    e.allowExpansion = false ∧
    (∀ vols1,
      checkAllVols env r (env.rangeOrder RangeSite.checkOuter (mapKeys (buildVols r cluster)))
        (buildVols r cluster) = Except.ok vols1 →
      ∃ e1, lookupVol vols1 k v = some e1 ∧ e1.allowExpansion = false) ∧
    checkVolumesAllowExpansion env r cluster ≠ none ∧
    (∀ err1,
      checkAllVols env r (env.rangeOrder RangeSite.checkOuter (mapKeys (buildVols r cluster)))
        (buildVols r cluster) = Except.error err1 →
      checkVolumesAllowExpansion env r cluster = some err1) ∧
    (∀ vols1,
      checkAllVols env r (env.rangeOrder RangeSite.checkOuter (mapKeys (buildVols r cluster)))
        (buildVols r cluster) = Except.ok vols1 →
      (∀ name1 x, lookupVol (buildVols r cluster) k name1 = some x → x.existInSpec = true) →
      ∃ (notSupportSc notSupport : List String), v ∈ notSupport ∧
        reportComp r cluster k (visited ((vols1.lookup k).getD [])
          (rangeNames env (RangeSite.reportInner k) vols1 k))
          = some (notSupportError notSupportSc notSupport k) ∧
        (checkVolumesAllowExpansion env r cluster
            = some (notSupportError notSupportSc notSupport k) ∨
          ∃ (key : String) (err1 : Error), key ≠ k ∧
            reportComp r cluster key (visited ((vols1.lookup key).getD [])
              (rangeNames env (RangeSite.reportInner key) vols1 key)) = some err1 ∧
            checkVolumesAllowExpansion env r cluster = some err1)) ∧
    (∀ vols1 name1 x,
      checkAllVols env r (env.rangeOrder RangeSite.checkOuter (mapKeys (buildVols r cluster)))
        (buildVols r cluster) = Except.ok vols1 →
      lookupVol (buildVols r cluster) k name1 = some x → x.existInSpec = false →
      ∃ (notFound : List String), name1 ∈ notFound ∧
        reportComp r cluster k (visited ((vols1.lookup k).getD [])
          (rangeNames env (RangeSite.reportInner k) vols1 k))
          = some (notFoundError r cluster notFound k)) := by
  have he : e.allowExpansion = false := buildVols_unchecked r cluster k v e hvol
  have hstart : Unsupported k v e (buildVols r cluster) := ⟨e, hvol, he, hspec, rfl, rfl⟩
  have hkeep : ∀ vols1,
      checkAllVols env r (env.rangeOrder RangeSite.checkOuter (mapKeys (buildVols r cluster)))
        (buildVols r cluster) = Except.ok vols1 → Unsupported k v e vols1 :=
    fun vols1 h => checkAllVols_invariant env r (Unsupported k v e)
      (checkVol_unsupported env r k v e name err hsc hget) _ _ vols1 hstart h
  have hfail := checkStorageClassAllowExpansion_failed env name err hget
  have hsome : checkVolumesAllowExpansion env r cluster ≠ none := by
    unfold checkVolumesAllowExpansion
    dsimp only
    cases hc : checkAllVols env r
      (env.rangeOrder RangeSite.checkOuter (mapKeys (buildVols r cluster)))
      (buildVols r cluster) with
    | error e2 => simp
    | ok vols1 =>
      dsimp only
      obtain ⟨e1, hl1, ha1, _, _, _⟩ := hkeep vols1 hc
      obtain ⟨hk, hv⟩ := visited_of_lookupVol env vols1 k v e1 hperm hl1
      exact reportVols_some env r cluster vols1 k
        (reportComp_some r cluster k _ v e1 hv ha1) _ hk
  refine ⟨?_, ?_, he, ?_, hsome, ?_, ?_, ?_⟩
  · rw [hfail]
    cases err.apiNotFound <;> simp
  · intro vols hinv
    cases hc : checkVol env r k v vols with
    | error e2 =>
      exfalso
      unfold checkVol at hc
      rw [hinv] at hc
      dsimp only at hc
      simp only [hspec, Bool.not_true, Bool.false_eq_true, if_false, hsc, hfail] at hc
      cases hnf : err.apiNotFound
      · rw [hnf] at hc; simp at hc
      · rw [hnf] at hc; simp at hc
    | ok vols1 =>
      obtain ⟨e1, hl1, ha1, _, _, _⟩ := checkVol_unsupported env r k v e name err hsc hget
        k v vols vols1 ⟨e, hinv, he, hspec, rfl, rfl⟩ hc
      exact ⟨vols1, e1, rfl, hl1, ha1⟩
  · intro vols1 h
    obtain ⟨e1, hl1, ha1, _, _, _⟩ := hkeep vols1 h
    exact ⟨e1, hl1, ha1⟩
  · intro err1 h
    unfold checkVolumesAllowExpansion
    dsimp only
    rw [h]
  · intro vols1 h hall
    obtain ⟨e1, hl1, ha1, _, _, _⟩ := hkeep vols1 h
    obtain ⟨_, hv⟩ := visited_of_lookupVol env vols1 k v e1 hperm hl1
    have hall1 : ∀ name1 x, lookupVol vols1 k name1 = some x → x.existInSpec = true :=
      checkAllVols_invariant env r
        (fun vols => ∀ name1 x, lookupVol vols k name1 = some x → x.existInSpec = true)
        (fun key vname vols vols2 hinv hc =>
          checkVol_existInSpec env r k key vname vols vols2 hinv hc) _ _ vols1 hall h
    have hex : ∀ p ∈ visited ((vols1.lookup k).getD [])
        (rangeNames env (RangeSite.reportInner k) vols1 k), p.2.existInSpec = true := by
      intro p hp
      have hl := visited_lookup _ _ p hp
      have hlv : lookupVol vols1 k p.1 = some p.2 := by
        unfold lookupVol
        cases hk : vols1.lookup k with
        | none => rw [hk] at hl; simp [List.lookup] at hl
        | some compVols => rw [hk] at hl; exact hl
      exact hall1 p.1 p.2 hlv
    obtain ⟨scs, names, hmem, hrep⟩ := reportComp_notSupport r cluster k _ v e1 hv ha1 hex
    refine ⟨scs, names, hmem, hrep, ?_⟩
    have hres : checkVolumesAllowExpansion env r cluster
        = reportVols env r cluster vols1
            (env.rangeOrder RangeSite.reportOuter (mapKeys vols1)) := by
      unfold checkVolumesAllowExpansion
      dsimp only
      rw [h]
    cases hr : checkVolumesAllowExpansion env r cluster with
    | none => exact absurd hr hsome
    | some err1 =>
      rw [hres] at hr
      obtain ⟨key, _, hkey⟩ := reportVols_first env r cluster vols1 err1 _ hr
      by_cases hk : key = k
      · left
        rw [hk, hrep] at hkey
        rw [← hkey]
      · right
        exact ⟨key, err1, hk, hkey, rfl⟩
  · intro vols1 name1 x h hl hx
    have hl1 : lookupVol vols1 k name1 = some x :=
      checkAllVols_invariant env r (fun vols => lookupVol vols k name1 = some x)
        (fun key vname vols vols2 hinv hc =>
          checkVol_missing env r k name1 x hx key vname vols vols2 hinv hc) _ _ vols1 hl h
    obtain ⟨_, hv⟩ := visited_of_lookupVol env vols1 k name1 x hperm hl1
    exact reportComp_notFound r cluster k _ name1 x hv hx

/-- Witness of the amended C29: the expansion of `data` of `mysql` is refused with the
error for templates that do not support expansion, both when its storage class cannot be
read and when it does not exist. -/
theorem checkVolumesAllowExpansion_lookup_error_witness :
    checkVolumesAllowExpansion sampleOpsEnv expandData sampleCluster ≠ none ∧
    checkVolumesAllowExpansion missingClassEnv expandData sampleCluster ≠ none ∧
    checkVolumesAllowExpansion sampleOpsEnv expandData sampleCluster
      = some (notSupportError ["fast"] ["data"] "mysql") ∧
    checkVolumesAllowExpansion missingClassEnv expandData sampleCluster
      = some (notSupportError ["fast"] ["data"] "mysql") ∧
    (notSupportError ["fast"] ["data"] "mysql").msg
      = "storageClass: [fast] of volumeClaimTemplate: [data] not support volume expansion in component: mysql, you can view infos by command: kubectl get sc" :=
  ⟨(checkVolumesAllowExpansion_lookup_error sampleOpsEnv expandData sampleCluster "mysql"
      "data" { existInSpec := true, storageClassName := some "fast", allowExpansion := false,
               requestStorage := 20, isShardingComponent := false }
      "fast" (Errorf "connection refused") (fun _ l => List.Perm.refl l)
      (by decide) rfl rfl rfl).2.2.2.2.1,
   (checkVolumesAllowExpansion_lookup_error missingClassEnv expandData sampleCluster "mysql"
      "data" { existInSpec := true, storageClassName := some "fast", allowExpansion := false,
               requestStorage := 20, isShardingComponent := false }
      "fast" { etype := none, apiNotFound := true,
               msg := "storageclasses.storage.k8s.io \"fast\" not found" }
      (fun _ l => List.Perm.refl l) (by decide) rfl rfl rfl).2.2.2.2.1,
   by decide, by decide, by decide⟩

end OpsRequestValidation
